import Mathlib

/-!
# Cone compiler: type identity, hashing, subtype matching and assignment

A shallow embedding of `ir/itype.c`, `ir/types/reference.c` and
`ir/exp/assign.c`.

The IR is a graph of nodes that point at each other, and the C code compares
nodes by pointer identity.  The embedding therefore keeps the graph: a node is
named by its address, and the store maps every address to the fields the code
reads through it.  The loop of `iTypeGetTypeDcl` and the recursion of the
comparers need not terminate on a cyclic graph, so every function takes a
fuel argument (one unit per loop iteration or call) and returns `none` when
it runs out.

Functions, constants and globals that the files use but that are declared
elsewhere are fields of `Env`, `JoinEnv` and `AssignEnv`.
-/

namespace Cone

/-- The address of an IR node: `INode *` in the C code.  Pointer equality is
equality of addresses. -/
abbrev Addr := Nat

/-- Node tags tested by the type functions.  Every tag they do not name is an
`OtherTag`. -/
inductive NodeTag where
  | TypeNameUseTag
  | TypedefTag
  | UintNbrTag
  | IntNbrTag
  | FloatNbrTag
  | StructTag
  | TTupleTag
  | ArrayTag
  | FnSigTag
  | RefTag
  | VirtRefTag
  | ArrayRefTag
  | PtrTag
  | VoidTag
  | PermTag
  | OtherTag (n : Nat)
  deriving DecidableEq

/-- Result of a subtype match. -/
inductive TypeCompare where
  | NoMatch
  | EqMatch
  | CastSubtype
  | ConvSubtype
  deriving DecidableEq

/-- Constraint under which a match is asked for.  The sources name `Monomorph`
and `Regref`; `Default` stands for every other value. -/
inductive SubtypeConstraint where
  | Monomorph
  | Regref
  | Default
  deriving DecidableEq

/-- The fields of a node that the type functions read.  C reads them after a
cast picked by the tag (`NameUseNode.dclnode`, `TypedefNode.typeval`,
`RefNode.region/perm/vtexp`, `StarNode.vtexp`, and `vtype` of the expression
header that a `RefNode` starts with); a field a node kind does not have is
never read for that kind. -/
structure INode where
  tag : NodeTag
  flags : Nat
  vtype : Addr
  dclnode : Addr
  typeval : Addr
  region : Addr
  perm : Addr
  vtexp : Addr
  deriving DecidableEq

/-- The node store together with everything `itype.c` and `reference.c` use
without defining it: the global sentinels `borrowRef` and `immPerm`, the flag
bits `MayRead`, `MayWrite` and `HasTagField`, the numeric value of a tag, and
the per-kind comparers, hashers and matchers of the other type files.  The
comparers return a C truth value, kept here as a `Bool`. -/
structure Env where
  heap : Addr → INode
  borrowRef : Addr
  immPerm : Addr
  MayRead : Nat
  MayWrite : Nat
  HasTagField : Nat
  tagCode : NodeTag → Nat
  permIsSame : Addr → Addr → Bool
  permMatches : Addr → Addr → TypeCompare
  permGetFlags : Addr → Nat
  arrayRefIsSame : Addr → Addr → Bool
  arrayRefIsRunSame : Addr → Addr → Bool
  arrayRefHash : Addr → Nat
  ptrEqual : Addr → Addr → Bool
  arrayEqual : Addr → Addr → Bool
  ttupleEqual : Addr → Addr → Bool
  fnSigEqual : Addr → Addr → Bool
  nbrMatches : Addr → Addr → SubtypeConstraint → TypeCompare
  structMatches : Addr → Addr → SubtypeConstraint → TypeCompare
  arrayMatches : Addr → Addr → SubtypeConstraint → TypeCompare
  fnSigMatches : Addr → Addr → SubtypeConstraint → TypeCompare
  arrayRefMatches : Addr → Addr → SubtypeConstraint → TypeCompare
  arrayRefMatchesRef : Addr → Addr → SubtypeConstraint → TypeCompare
  ptrMatches : Addr → Addr → SubtypeConstraint → TypeCompare
  structVirtRefMatches : Addr → Addr → TypeCompare

/-- Width of `size_t` in bits. -/
def sizeBits : Nat := 64

/-- Reduction of an unsigned result to `size_t`. -/
def wrapSize (x : Nat) : Nat := x % 2 ^ sizeBits

/-- One step of the reference hash: `((hash << 5) + hash) ^ x` on `size_t`. -/
def hashMix (hash x : Nat) : Nat :=
  wrapSize (wrapSize (hash <<< 5) + hash) ^^^ x

/-- `iTypeGetTypeDcl`: follow name uses to the declaration.  A typedef gives
its `typeval` and falls into `default`, which returns at once. -/
def iTypeGetTypeDcl (E : Env) : Nat → Addr → Option Addr
  | 0, _ => none
  | fuel + 1, node =>
    match (E.heap node).tag with
    | .TypeNameUseTag => iTypeGetTypeDcl E fuel (E.heap node).dclnode
    | .TypedefTag => some (E.heap node).typeval
    | _ => some node

mutual

/-- `iTypeIsSame`: nominally or structurally identical. -/
def iTypeIsSame (E : Env) : Nat → Addr → Addr → Option Bool
  | 0, _, _ => none
  | fuel + 1, node1, node2 =>
    match iTypeGetTypeDcl E fuel node1, iTypeGetTypeDcl E fuel node2 with
    | some n1, some n2 =>
      if n1 = n2 then some true
      else if (E.heap n1).tag ≠ (E.heap n2).tag then some false
      else
        match (E.heap n1).tag with
        | .RefTag => refIsSame E fuel n1 n2
        | .VirtRefTag => refIsSame E fuel n1 n2
        | .ArrayRefTag => some (E.arrayRefIsSame n1 n2)
        | .PtrTag => some (E.ptrEqual n1 n2)
        | .ArrayTag => some (E.arrayEqual n1 n2)
        | .TTupleTag => some (E.ttupleEqual n1 n2)
        | .FnSigTag => some (E.fnSigEqual n1 n2)
        | .VoidTag => some true
        | _ => some false
    | _, _ => none

/-- `refIsSame`: referent, permission and region are each the same
(`&&` evaluates left to right and stops at the first 0). -/
def refIsSame (E : Env) : Nat → Addr → Addr → Option Bool
  | 0, _, _ => none
  | fuel + 1, node1, node2 =>
    match iTypeIsSame E fuel (E.heap node1).vtexp (E.heap node2).vtexp with
    | none => none
    | some false => some false
    | some true =>
      if E.permIsSame (E.heap node1).perm (E.heap node2).perm then
        iTypeIsSame E fuel (E.heap node1).region (E.heap node2).region
      else some false

end

mutual

/-- `iTypeHash`: the hash used to index the type table. -/
def iTypeHash (E : Env) : Nat → Addr → Option Nat
  | 0, _ => none
  | fuel + 1, type =>
    match iTypeGetTypeDcl E fuel type with
    | none => none
    | some dclType =>
      match (E.heap dclType).tag with
      | .RefTag => refHash E fuel dclType
      | .VirtRefTag => refHash E fuel dclType
      | .ArrayRefTag => some (E.arrayRefHash dclType)
      | .PermTag => some (E.immPerm >>> 3)
      | _ => some (dclType >>> 3)

/-- `refHash`: starts from `5381 + tag` and mixes in the hashes of `region`,
`perm` and `vtype`, in this order. -/
def refHash (E : Env) : Nat → Addr → Option Nat
  | 0, _ => none
  | fuel + 1, node =>
    match iTypeHash E fuel (E.heap node).region with
    | none => none
    | some hregion =>
      match iTypeHash E fuel (E.heap node).perm with
      | none => none
      | some hperm =>
        match iTypeHash E fuel (E.heap node).vtype with
        | none => none
        | some hvtype =>
          some (hashMix (hashMix (hashMix
            (wrapSize (5381 + E.tagCode (E.heap node).tag)) hregion) hperm) hvtype)

end

mutual

/-- `iTypeIsRunSame`: identical at run time; companion of `iTypeHash`. -/
def iTypeIsRunSame (E : Env) : Nat → Addr → Addr → Option Bool
  | 0, _, _ => none
  | fuel + 1, node1, node2 =>
    match iTypeGetTypeDcl E fuel node1, iTypeGetTypeDcl E fuel node2 with
    | some n1, some n2 =>
      if n1 = n2 then some true
      else if (E.heap n1).tag ≠ (E.heap n2).tag then some false
      else
        match (E.heap n1).tag with
        | .RefTag => refIsRunSame E fuel n1 n2
        | .VirtRefTag => refIsRunSame E fuel n1 n2
        | .ArrayRefTag => some (E.arrayRefIsRunSame n1 n2)
        | .PtrTag => some (E.ptrEqual n1 n2)
        | .ArrayTag => some (E.arrayEqual n1 n2)
        | .TTupleTag => some (E.ttupleEqual n1 n2)
        | .FnSigTag => some (E.fnSigEqual n1 n2)
        | .VoidTag => some true
        | .PermTag => some true
        | _ => some false
    | _, _ => none

/-- `refIsRunSame`: `iTypeIsSame` on the referents, `iTypeIsRunSame` on the
permissions and on the regions. -/
def refIsRunSame (E : Env) : Nat → Addr → Addr → Option Bool
  | 0, _, _ => none
  | fuel + 1, node1, node2 =>
    match iTypeIsSame E fuel (E.heap node1).vtexp (E.heap node2).vtexp with
    | none => none
    | some false => some false
    | some true =>
      match iTypeIsRunSame E fuel (E.heap node1).perm (E.heap node2).perm with
      | none => none
      | some false => some false
      | some true =>
        iTypeIsRunSame E fuel (E.heap node1).region (E.heap node2).region

end

/-- `regionMatches(to, from, constraint)`. -/
def regionMatches (E : Env) : Nat → Addr → Addr → SubtypeConstraint → Option TypeCompare
  | 0, _, _, _ => none
  | fuel + 1, toN, fromN, _ =>
    match iTypeIsSame E fuel toN fromN with
    | none => none
    | some true => some .EqMatch
    | some false => if toN = E.borrowRef then some .CastSubtype else some .NoMatch

/-- The result carried out of the permission `switch` shared by `refMatches`
and `refvirtMatchesRef`: `CastSubtype` replaces the region result, any other
value of `permMatches` keeps it (`NoMatch` has returned before). -/
def permStep (pm result : TypeCompare) : TypeCompare :=
  if pm = .CastSubtype then .CastSubtype else result

/-- The closing `switch (match)` of `refMatches`. -/
def refMatchResult (m result : TypeCompare) (constraint : SubtypeConstraint) : TypeCompare :=
  match m with
  | .EqMatch => result
  | .CastSubtype => .CastSubtype
  | .ConvSubtype => if constraint = .Monomorph then .ConvSubtype else .NoMatch
  | .NoMatch => .NoMatch

/-- `refvirtMatchesRef(to, from, constraint)`: a reference to a virtual
reference. -/
def refvirtMatchesRef (E : Env) : Nat → Addr → Addr → SubtypeConstraint → Option TypeCompare
  | 0, _, _, _ => none
  | fuel + 1, toN, fromN, constraint =>
    if constraint = .Monomorph then some .NoMatch
    else
      match regionMatches E fuel (E.heap fromN).region (E.heap toN).region constraint with
      | none => none
      | some .NoMatch => some .NoMatch
      | some _ =>
        match E.permMatches (E.heap toN).perm (E.heap fromN).perm with
        | .NoMatch => some .NoMatch
        | _ =>
          match iTypeGetTypeDcl E fuel (E.heap toN).vtexp,
                iTypeGetTypeDcl E fuel (E.heap fromN).vtexp with
          | some tovtypedcl, some fromvtypedcl =>
            if (E.heap tovtypedcl).tag ≠ .StructTag ∨ (E.heap fromvtypedcl).tag ≠ .StructTag then
              some .NoMatch
            else if tovtypedcl = fromvtypedcl then
              some (if (E.heap fromvtypedcl).flags &&& E.HasTagField ≠ 0 then .ConvSubtype
                    else .NoMatch)
            else
              match E.structVirtRefMatches tovtypedcl fromvtypedcl with
              | .EqMatch => some .ConvSubtype
              | .CastSubtype => some .ConvSubtype
              | .ConvSubtype => some .ConvSubtype
              | .NoMatch => some .NoMatch
          | _, _ => none

mutual

/-- `iTypeMatches(toType, fromType, constraint)`. -/
def iTypeMatches (E : Env) : Nat → Addr → Addr → SubtypeConstraint → Option TypeCompare
  | 0, _, _, _ => none
  | fuel + 1, toType0, fromType0, constraint =>
    match iTypeGetTypeDcl E fuel fromType0, iTypeGetTypeDcl E fuel toType0 with
    | some fromType, some toType =>
      if toType = fromType then some .EqMatch
      else
        match (E.heap toType).tag with
        | .UintNbrTag => some (E.nbrMatches toType fromType constraint)
        | .IntNbrTag => some (E.nbrMatches toType fromType constraint)
        | .FloatNbrTag => some (E.nbrMatches toType fromType constraint)
        | .StructTag => some (E.structMatches toType fromType constraint)
        | .TTupleTag =>
          if (E.heap fromType).tag = .TTupleTag then
            (iTypeIsSame E fuel toType fromType).map
              (fun same => if same then .EqMatch else .NoMatch)
          else some .NoMatch
        | .ArrayTag =>
          if (E.heap fromType).tag = .ArrayTag then
            some (E.arrayMatches toType fromType constraint)
          else some .NoMatch
        | .FnSigTag =>
          if (E.heap fromType).tag = .FnSigTag then
            some (E.fnSigMatches toType fromType constraint)
          else some .NoMatch
        | .RefTag =>
          if (E.heap fromType).tag = .RefTag then
            refMatches E fuel toType fromType constraint
          else some .NoMatch
        | .VirtRefTag =>
          if (E.heap fromType).tag = .VirtRefTag then
            refvirtMatches E fuel toType fromType constraint
          else if (E.heap fromType).tag = .RefTag then
            refvirtMatchesRef E fuel toType fromType constraint
          else some .NoMatch
        | .ArrayRefTag =>
          if (E.heap fromType).tag = .ArrayRefTag then
            some (E.arrayRefMatches toType fromType constraint)
          else if (E.heap fromType).tag = .RefTag then
            some (E.arrayRefMatchesRef toType fromType constraint)
          else some .NoMatch
        | .PtrTag =>
          if (E.heap fromType).tag = .RefTag ∨ (E.heap fromType).tag = .ArrayRefTag then
            (iTypeIsSame E fuel (E.heap fromType).vtexp (E.heap toType).vtexp).map
              (fun same => if same then .ConvSubtype else .NoMatch)
          else if (E.heap fromType).tag = .PtrTag then
            some (E.ptrMatches toType fromType constraint)
          else some .NoMatch
        | .VoidTag =>
          some (if (E.heap fromType).tag = .VoidTag then .EqMatch else .NoMatch)
        | _ =>
          (iTypeIsSame E fuel toType fromType).map
            (fun same => if same then .EqMatch else .NoMatch)
    | _, _ => none
termination_by structural fuel => fuel

/-- `refMatches(to, from, constraint)`: a reference to a reference.  The
`switch` on the permission flags has the four case labels `0`, `MayRead`,
`MayWrite` and `MayRead | MayWrite`; with any other value `match` would be
read uninitialised, which is `none` here. -/
def refMatches (E : Env) : Nat → Addr → Addr → SubtypeConstraint → Option TypeCompare
  | 0, _, _, _ => none
  | fuel + 1, toN, fromN, constraint =>
    match regionMatches E fuel (E.heap fromN).region (E.heap toN).region constraint with
    | none => none
    | some .NoMatch => some .NoMatch
    | some regionResult =>
      match E.permMatches (E.heap toN).perm (E.heap fromN).perm with
      | .NoMatch => some .NoMatch
      | pm =>
        let result := permStep pm regionResult
        let sel := E.permGetFlags (E.heap toN).perm &&& (E.MayWrite ||| E.MayRead)
        if sel = 0 ∨ sel = E.MayRead then
          (iTypeMatches E fuel (E.heap toN).vtexp (E.heap fromN).vtexp .Regref).map
            (fun m => refMatchResult m result constraint)
        else if sel = E.MayWrite then
          (iTypeMatches E fuel (E.heap fromN).vtexp (E.heap toN).vtexp .Regref).map
            (fun m => refMatchResult m result constraint)
        else if sel = E.MayRead ||| E.MayWrite then
          (iTypeIsSame E fuel (E.heap toN).vtexp (E.heap fromN).vtexp).map
            (fun same => if same then result else .NoMatch)
        else none
termination_by structural fuel => fuel

/-- `refvirtMatches(to, from, constraint)`: a virtual reference to a virtual
reference. -/
def refvirtMatches (E : Env) : Nat → Addr → Addr → SubtypeConstraint → Option TypeCompare
  | 0, _, _, _ => none
  | fuel + 1, toN, fromN, constraint =>
    match iTypeIsSame E fuel (E.heap toN).vtexp (E.heap fromN).vtexp with
    | none => none
    | some false => some .NoMatch
    | some true => refMatches E fuel toN fromN constraint
termination_by structural fuel => fuel

end

/-- The four case labels of the flag `switch` in `refMatches` are pairwise
different, as C requires of case labels. -/
def Env.flagCasesDistinct (E : Env) : Prop :=
  E.MayRead ≠ 0 ∧ E.MayWrite ≠ 0 ∧ E.MayRead ≠ E.MayWrite ∧
  E.MayRead ||| E.MayWrite ≠ 0 ∧ E.MayRead ||| E.MayWrite ≠ E.MayRead ∧
  E.MayRead ||| E.MayWrite ≠ E.MayWrite

/-- The matchers of the other type files never answer `ConvSubtype` under
`Monomorph`. -/
def Env.noConvUnderMonomorph (E : Env) : Prop :=
  ∀ a b,
    E.nbrMatches a b .Monomorph ≠ .ConvSubtype ∧
    E.structMatches a b .Monomorph ≠ .ConvSubtype ∧
    E.arrayMatches a b .Monomorph ≠ .ConvSubtype ∧
    E.fnSigMatches a b .Monomorph ≠ .ConvSubtype ∧
    E.arrayRefMatches a b .Monomorph ≠ .ConvSubtype ∧
    E.arrayRefMatchesRef a b .Monomorph ≠ .ConvSubtype ∧
    E.ptrMatches a b .Monomorph ≠ .ConvSubtype

/-! ## A small program graph

Concrete nodes used to evaluate the functions: the types of a program with a
struct `Shape` that has a tag field, a struct `Circle`, `i32`, a typedef of
`Shape`, and references and pointers built from them.  Addresses are multiples
of 8, as the hash expects of aligned nodes. -/

/-- A node with the given tag and every other field zero. -/
def leafNode (tag : NodeTag) : INode :=
  { tag := tag, flags := 0, vtype := 0, dclnode := 0, typeval := 0,
    region := 0, perm := 0, vtexp := 0 }

/-- A reference node of the given kind; the fields a type node does not use
stay zero. -/
def refNode (tag : NodeTag) (region perm vtexp : Addr) : INode :=
  { leafNode tag with region := region, perm := perm, vtexp := vtexp }

/-- The sample store.
`8` borrow sentinel, `16` region struct `so`, `24` `imm`, `32` `mut`,
`40` struct `Shape` (flag 1 = `HasTagField`), `48` `i32`,
`56` `&borrow imm i32`, `64` `&so imm i32`, `72` `&borrow mut i32`,
`80`, `88` two void nodes, `96`, `104` two `*i32` nodes,
`112` a name use of `Shape`, `120` a typedef whose value is that name use,
`128` `&borrow imm *i32`, `136` `&borrow imm &borrow imm i32`,
`144` struct `Circle`, `152` virtual `&borrow imm Shape`,
`160` `&borrow imm Circle`, `168` `&borrow imm Shape`,
`176` virtual `&so imm Shape`, `184` `&so imm Circle`,
`192` a permission that may only be written, `200`, `208` two
`&borrow 192 i32` nodes, `216` a second `&borrow mut i32`. -/
def sampleHeap (a : Addr) : INode :=
  if a = 8 then leafNode (.OtherTag 1)
  else if a = 16 then leafNode .StructTag
  else if a = 24 then leafNode .PermTag
  else if a = 32 then leafNode .PermTag
  else if a = 40 then { leafNode .StructTag with flags := 1 }
  else if a = 48 then leafNode .IntNbrTag
  else if a = 56 then refNode .RefTag 8 24 48
  else if a = 64 then refNode .RefTag 16 24 48
  else if a = 72 then refNode .RefTag 8 32 48
  else if a = 80 then leafNode .VoidTag
  else if a = 88 then leafNode .VoidTag
  else if a = 96 then { leafNode .PtrTag with vtexp := 48 }
  else if a = 104 then { leafNode .PtrTag with vtexp := 48 }
  else if a = 112 then { leafNode .TypeNameUseTag with dclnode := 40 }
  else if a = 120 then { leafNode .TypedefTag with typeval := 112 }
  else if a = 128 then refNode .RefTag 8 24 96
  else if a = 136 then refNode .RefTag 8 24 56
  else if a = 144 then leafNode .StructTag
  else if a = 152 then refNode .VirtRefTag 8 24 40
  else if a = 160 then refNode .RefTag 8 24 144
  else if a = 168 then refNode .RefTag 8 24 40
  else if a = 176 then refNode .VirtRefTag 16 24 40
  else if a = 184 then refNode .RefTag 16 24 144
  else if a = 192 then leafNode .PermTag
  else if a = 200 then refNode .RefTag 8 192 48
  else if a = 208 then refNode .RefTag 8 192 48
  else if a = 216 then refNode .RefTag 8 32 48
  else leafNode (.OtherTag 0)

/-- Tag numbers of the sample environment. -/
def sampleTagCode : NodeTag → Nat
  | .TypeNameUseTag => 1
  | .TypedefTag => 2
  | .UintNbrTag => 3
  | .IntNbrTag => 4
  | .FloatNbrTag => 5
  | .StructTag => 6
  | .TTupleTag => 7
  | .ArrayTag => 8
  | .FnSigTag => 9
  | .RefTag => 10
  | .VirtRefTag => 11
  | .ArrayRefTag => 12
  | .PtrTag => 13
  | .VoidTag => 14
  | .PermTag => 15
  | .OtherTag n => 16 + n

/-- The sample environment.  Permissions are the same when they are the same
permission node and match only then; `imm` (24) may be read, `mut` (32) may be read and
written, 192 may be written; pointers are equal when their referents are the same node; `Circle`
(144) implements `Shape` (40); every other collaborator rejects. -/
def sampleEnv : Env :=
  { heap := sampleHeap
    borrowRef := 8
    immPerm := 24
    MayRead := 1
    MayWrite := 2
    HasTagField := 1
    tagCode := sampleTagCode
    permIsSame := fun a b => decide (a = b ∧ (sampleHeap a).tag = .PermTag)
    permMatches := fun a b => if a = b then .EqMatch else .NoMatch
    permGetFlags := fun p => if p = 24 then 1 else if p = 32 then 3 else if p = 192 then 2 else 0
    arrayRefIsSame := fun _ _ => false
    arrayRefIsRunSame := fun _ _ => false
    arrayRefHash := fun a => a >>> 3
    ptrEqual := fun a b => decide ((sampleHeap a).vtexp = (sampleHeap b).vtexp)
    arrayEqual := fun _ _ => false
    ttupleEqual := fun _ _ => false
    fnSigEqual := fun _ _ => false
    nbrMatches := fun _ _ _ => .NoMatch
    structMatches := fun _ _ _ => .NoMatch
    arrayMatches := fun _ _ _ => .NoMatch
    fnSigMatches := fun _ _ _ => .NoMatch
    arrayRefMatches := fun _ _ _ => .NoMatch
    arrayRefMatchesRef := fun _ _ _ => .NoMatch
    ptrMatches := fun _ _ _ => .NoMatch
    structVirtRefMatches := fun a b => if a = 40 ∧ b = 144 then .ConvSubtype else .NoMatch }

/-! ## Joins of types

`iTypeFindSuper` and `refFindSuper`, with the constructor `newRefNodeFull`
that builds the joined reference.  A new node is written to the store at the
address the allocator returns, which is an argument here. -/

/-- The null pointer of C. -/
def nullAddr : Addr := 0

/-- What the join and the reference constructor use beyond `Env`: the
globals `unknownType`, `roPerm` and `mutPerm`, the flag bits `MayAlias`,
`MoveType` and `ThreadBound`, and the join helpers of the number and struct
files, which answer a node or `NULL` (`none`). -/
structure JoinEnv where
  unknownType : Addr
  roPerm : Addr
  mutPerm : Addr
  MayAlias : Nat
  MoveType : Nat
  ThreadBound : Nat
  nbrFindSuper : Addr → Addr → Option Addr
  structFindSuper : Addr → Addr → Option Addr
  structRefFindSuper : Addr → Addr → Option Addr

/-- The store with node `n` written at address `a`. -/
def Env.store (E : Env) (a : Addr) (n : INode) : Env :=
  { E with heap := fun x => if x = a then n else E.heap x }

/-- `iTypeIsMove`: the declaration of the type has the `MoveType` flag. -/
def iTypeIsMove (E : Env) (J : JoinEnv) (fuel : Nat) (type : Addr) : Option Bool :=
  (iTypeGetTypeDcl E fuel type).map (fun d => decide ((E.heap d).flags &&& J.MoveType ≠ 0))

/-- `newRefNode(tag)`: the fields a fresh reference node starts with (flags 0
from `newNode`, the default region and permission, an unknown value type). -/
def newRefNode (E : Env) (J : JoinEnv) (tag : NodeTag) : INode :=
  { tag := tag, flags := 0, vtype := J.unknownType, dclnode := nullAddr,
    typeval := nullAddr, region := E.borrowRef, perm := J.roPerm, vtexp := nullAddr }

/-- `refAdoptInfections(refnode)`: sets `MoveType` and `ThreadBound` on the
node from its permission, region and referent; does nothing while the
permission is null or the referent unknown.  `||` stops at the first true
operand, so `iTypeIsMove` runs only when the permission may alias. -/
def refAdoptInfections (E : Env) (J : JoinEnv) (fuel : Nat) (refnode : Addr) : Option Env :=
  let node := E.heap refnode
  if node.perm = nullAddr ∨ node.vtexp = J.unknownType then some E
  else
    let move : Option Bool :=
      if E.permGetFlags node.perm &&& J.MayAlias = 0 then some true
      else iTypeIsMove E J fuel node.region
    match move with
    | none => none
    | some mv =>
      let flags1 := if mv then node.flags ||| J.MoveType else node.flags
      let flags2 :=
        if node.perm = J.mutPerm ∨ node.perm = J.roPerm ∨
            (E.heap node.vtexp).flags &&& J.ThreadBound ≠ 0 then
          flags1 ||| J.ThreadBound
        else flags1
      some (E.store refnode { node with flags := flags2 })

/-- `newRefNodeFull(tag, lexnode, region, perm, vtype)`: a new reference node
at address `fresh` with the three type parameters, then
`refAdoptInfections`.  Copying the source position of `lexnode` changes no
field kept here. -/
def newRefNodeFull (E : Env) (J : JoinEnv) (fuel : Nat) (fresh : Addr) (tag : NodeTag)
    (_lexnode region perm vtype : Addr) : Option Env :=
  refAdoptInfections
    (E.store fresh { newRefNode E J tag with region := region, perm := perm, vtexp := vtype })
    J fuel fresh

/-- `refFindSuper(type1, type2)`: the join of two references, `none` for
`NULL`; the second component is the store afterwards. -/
def refFindSuper (E : Env) (J : JoinEnv) (fuel : Nat) (fresh type1 type2 : Addr) :
    Option (Option Addr × Env) :=
  match iTypeGetTypeDcl E fuel type1, iTypeGetTypeDcl E fuel type2 with
  | some typ1, some typ2 =>
    match iTypeGetTypeDcl E fuel (E.heap typ1).region,
          iTypeGetTypeDcl E fuel (E.heap typ2).region with
    | some region1, some region2 =>
      if region1 ≠ region2 then some (none, E)
      else
        match iTypeGetTypeDcl E fuel (E.heap typ1).perm,
              iTypeGetTypeDcl E fuel (E.heap typ2).perm with
        | some perm1, some perm2 =>
          if perm1 ≠ perm2 then some (none, E)
          else
            match J.structRefFindSuper (E.heap typ1).vtexp (E.heap typ2).vtexp with
            | none => some (none, E)
            | some vtexp =>
              (newRefNodeFull E J fuel fresh .RefTag typ1 (E.heap typ1).region
                (E.heap typ1).perm vtexp).map (fun E2 => (some fresh, E2))
        | _, _ => none
    | _, _ => none
  | _, _ => none

/-- `iTypeFindSuper(type1, type2)`: a supertype of both types, `none` for
`NULL`; the second component is the store afterwards. -/
def iTypeFindSuper (E : Env) (J : JoinEnv) (fuel : Nat) (fresh type1 type2 : Addr) :
    Option (Option Addr × Env) :=
  match iTypeGetTypeDcl E fuel type1, iTypeGetTypeDcl E fuel type2 with
  | some typ1, some typ2 =>
    if (E.heap typ1).tag ≠ (E.heap typ2).tag then some (none, E)
    else
      match iTypeIsSame E fuel typ1 typ2 with
      | none => none
      | some true => some (some type1, E)
      | some false =>
        match (E.heap typ1).tag with
        | .UintNbrTag => some (J.nbrFindSuper type1 type2, E)
        | .IntNbrTag => some (J.nbrFindSuper type1 type2, E)
        | .FloatNbrTag => some (J.nbrFindSuper type1 type2, E)
        | .StructTag => some (J.structFindSuper type1 type2, E)
        | .RefTag => refFindSuper E J fuel fresh type1 type2
        | .VirtRefTag => refFindSuper E J fuel fresh type1 type2
        | _ => some (none, E)
  | _, _ => none

/-- The sample join environment: the unknown type is node 224, `ro` is `imm`
(24), `mut` is 32; flag bits 4, 2 and 8; `Shape` (40) is the join of `Shape`
and `Circle` (144) in either order. -/
def sampleJoinEnv : JoinEnv :=
  { unknownType := 224
    roPerm := 24
    mutPerm := 32
    MayAlias := 4
    MoveType := 2
    ThreadBound := 8
    nbrFindSuper := fun _ _ => none
    structFindSuper := fun _ _ => none
    structRefFindSuper := fun a b =>
      if (a = 40 ∨ a = 144) ∧ (b = 40 ∨ b = 144) then some 40 else none }

/-- The sample environment with two more nodes, virtual `&borrow imm Circle`
at 232 and `&borrow mut Circle` at 240, and with a struct matcher under which
`Circle` is a subtype of `Shape`. -/
def sampleJoinStore : Env :=
  { sampleEnv with
    heap := fun a =>
      if a = 232 then refNode .VirtRefTag 8 24 144
      else if a = 240 then refNode .RefTag 8 32 144
      else sampleHeap a
    structMatches := fun a b _ => if a = 40 ∧ b = 144 then .CastSubtype else .NoMatch }

/-! ## Assignment

`ir/exp/assign.c`: type check and data flow of assignment nodes.  The nodes
the assignment code reads are kept in a second store, with the fields it
reads; the functions it calls in other files are fields of `AssignEnv` and
take the state and return it.  A place that holds a node pointer
(`INode **`) is a `Slot`. -/

/-- Error codes given to `errorMsgNode`. -/
inductive ErrorCode where
  | ErrorBadArray
  | ErrorBadImpl
  | ErrorBadLval
  | ErrorBadTerm
  | ErrorInvType
  | ErrorMove
  | ErrorNoImpl
  | ErrorNoMut
  | ErrorNoRet
  | ErrorNotLval
  | ErrorNotTyped
  | ErrorOther (n : Nat)
  deriving DecidableEq

/-- One call of `errorMsgNode(node, code, msg)`. -/
structure ErrorMsg where
  node : Addr
  code : ErrorCode
  msg : String
  deriving DecidableEq

/-- Node tags tested by the assignment code; every other tag is an
`OtherTag`. -/
inductive ExpTag where
  | VarNameUseTag
  | VTupleTag
  | TTupleTag
  | RefTag
  | OtherTag (n : Nat)
  deriving DecidableEq

/-- The fields of a node that the assignment code reads: `namesym` of a name
use, `vtype` of an expression, `flowtempflags` of a variable declaration,
`region` and `scope` of a reference type, the nodes of `elems` of a tuple
(`used` is their number), `lval` and `rval` of an assignment. -/
structure ExpNode where
  tag : ExpTag
  namesym : Addr
  vtype : Addr
  flowtempflags : Nat
  region : Addr
  scope : Nat
  elems : List Addr
  lval : Addr
  rval : Addr
  deriving DecidableEq

/-- The state the passes work on: the nodes and the errors reported so far,
oldest first. -/
structure IrState where
  nodes : Addr → ExpNode
  errors : List ErrorMsg

/-- A place holding a node pointer: the `lval` or `rval` field of an
assignment, or element `i` of the node list of a tuple. -/
inductive Slot where
  | lvalOf (node : Addr)
  | rvalOf (node : Addr)
  | elemOf (tuple : Addr) (i : Nat)
  deriving DecidableEq

/-- The node pointer in a slot; `none` past the end of a node list. -/
def IrState.read (st : IrState) : Slot → Option Addr
  | .lvalOf node => some (st.nodes node).lval
  | .rvalOf node => some (st.nodes node).rval
  | .elemOf tuple i => (st.nodes tuple).elems.get? i

/-- `errorMsgNode`: record an error at a node. -/
def errorMsgNode (st : IrState) (node : Addr) (code : ErrorCode) (msg : String) : IrState :=
  { st with errors := st.errors ++ [{ node := node, code := code, msg := msg }] }

/-- What `iexpGetLvalInfo` gives for an lval: its variable, and through the
two out-parameters its permission and scope. -/
structure LvalInfo where
  lvalvar : Addr
  lvalperm : Addr
  lvalscope : Nat

/-- What `assign.c` uses without defining it: the name `anonName` of the
placeholder, the flow flags `VarInitialized` and `VarMoved`, and the
expression and flow functions of other files.  Functions that return a C
`int` give it as a number. -/
structure AssignEnv where
  anonName : Addr
  VarInitialized : Nat
  VarMoved : Nat
  iexpGetLvalInfo : IrState → Addr → LvalInfo
  iexpIsLvalError : IrState → Addr → Nat × IrState
  iexpTypeCheckAny : IrState → Slot → Nat × IrState
  iexpTypeCheckCoerce : IrState → Addr → Slot → Nat × IrState
  flowHandleMoveOrCopy : IrState → Slot → IrState
  flowLoadValue : IrState → Slot → IrState

/-- The state with `vtype` of a node set. -/
def IrState.setVtype (st : IrState) (node vtype : Addr) : IrState :=
  { st with nodes := fun a => if a = node then { st.nodes node with vtype := vtype }
                               else st.nodes a }

/-- The state with `flowtempflags` of a variable declaration set. -/
def IrState.setFlowFlags (st : IrState) (var : Addr) (flags : Nat) : IrState :=
  { st with nodes := fun a => if a = var then { st.nodes var with flowtempflags := flags }
                               else st.nodes a }

/-- The lval is the placeholder `_`: a variable name use whose name is
`anonName`. -/
def isPlaceholder (X : AssignEnv) (st : IrState) (lval : Addr) : Prop :=
  (st.nodes lval).tag = .VarNameUseTag ∧ (st.nodes lval).namesym = X.anonName

instance isPlaceholder.decide (X : AssignEnv) (st : IrState) (lval : Addr) :
    Decidable (isPlaceholder X st lval) :=
  inferInstanceAs (Decidable (_ ∧ _))

/-- `assignSingleCheck(pstate, lval, rval)`: type check of one lval against
one rval. -/
def assignSingleCheck (X : AssignEnv) (st : IrState) (lval : Addr) (rval : Slot) :
    Option IrState :=
  if isPlaceholder X st lval then some st
  else
    let r1 := X.iexpIsLvalError st lval
    if r1.1 = 0 then some r1.2
    else
      let r2 := X.iexpTypeCheckCoerce r1.2 (r1.2.nodes lval).vtype rval
      if r2.1 = 0 then
        match r2.2.read rval with
        | none => none
        | some r =>
          some (errorMsgNode r2.2 r .ErrorInvType "Expression's type does not match lval's type")
      else some r2.2

/-- The loop of `assignParaCheck`: `lcnt` lvals are left, the next is element
`i` and is checked against element `i` of the rvals. -/
def assignParaCheckLoop (X : AssignEnv) (lval rval : Addr) : Nat → Nat → IrState → Option IrState
  | 0, _, st => some st
  | lcnt + 1, i, st =>
    match st.read (.elemOf lval i) with
    | none => none
    | some l =>
      match assignSingleCheck X st l (.elemOf rval i) with
      | none => none
      | some st2 => assignParaCheckLoop X lval rval lcnt (i + 1) st2

/-- `assignParaCheck(pstate, lval, rval)`: parallel assignment, tuples on
both sides. -/
def assignParaCheck (X : AssignEnv) (st : IrState) (lval rval : Addr) : Option IrState :=
  if (st.nodes lval).elems.length > (st.nodes rval).elems.length then
    some (errorMsgNode st rval .ErrorBadTerm "Not enough tuple values given to lvals")
  else
    (assignParaCheckLoop X lval rval (st.nodes lval).elems.length 0 st).map
      (fun st2 => st2.setVtype rval (st2.nodes lval).vtype)

/-- The loop of `assignMultRetCheck`: element `i` of the lvals is next and
`j` is where `rtypep` points; `rtypep` moves only when `iTypeIsSame` is
called. -/
def assignMultRetCheckLoop (E : Env) (X : AssignEnv) (fuel : Nat) (lval rtype : Addr) :
    Nat → Nat → Nat → IrState → Option IrState
  | 0, _, _, st => some st
  | lcnt + 1, i, j, st =>
    match st.read (.elemOf lval i) with
    | none => none
    | some l =>
      let r1 := X.iexpIsLvalError st l
      if r1.1 = 0 then assignMultRetCheckLoop E X fuel lval rtype lcnt (i + 1) j r1.2
      else
        match r1.2.read (.elemOf rtype j) with
        | none => none
        | some rt =>
          match iTypeIsSame E fuel (r1.2.nodes l).vtype rt with
          | none => none
          | some same =>
            assignMultRetCheckLoop E X fuel lval rtype lcnt (i + 1) (j + 1)
              (if same then r1.2
               else errorMsgNode r1.2 l .ErrorInvType
                 "Return value's type does not match lval's type")

/-- `assignMultRetCheck(pstate, lval, rval)`: one expression returning to
several lvals. -/
def assignMultRetCheck (E : Env) (X : AssignEnv) (fuel : Nat) (st : IrState) (lval : Addr)
    (rval : Slot) : Option IrState :=
  let r1 := X.iexpTypeCheckAny st rval
  if r1.1 = 0 then some r1.2
  else
    match r1.2.read rval with
    | none => none
    | some r =>
      let rtype := (r1.2.nodes r).vtype
      if (r1.2.nodes rtype).tag ≠ .TTupleTag then
        some (errorMsgNode r1.2 r .ErrorBadTerm "Not enough values for lvals")
      else if (r1.2.nodes lval).elems.length > (r1.2.nodes rtype).elems.length then
        some (errorMsgNode r1.2 r .ErrorBadTerm "Not enough tuple values for lvals")
      else
        assignMultRetCheckLoop E X fuel lval rtype (r1.2.nodes lval).elems.length 0 0 r1.2

/-- `assignToOneCheck(pstate, lval, rval)`: a tuple assigned to one lval; the
lval is checked against the first element. -/
def assignToOneCheck (X : AssignEnv) (st : IrState) (lval rval : Addr) : Option IrState :=
  assignSingleCheck X st lval (.elemOf rval 0)

/-- `assignTypeCheck(pstate, node)`. -/
def assignTypeCheck (E : Env) (X : AssignEnv) (fuel : Nat) (st : IrState) (node : Addr) :
    Option IrState :=
  let r1 := X.iexpTypeCheckAny st (.lvalOf node)
  if r1.1 = 0 then some r1.2
  else
    let lval := (r1.2.nodes node).lval
    let checked : Option IrState :=
      if (r1.2.nodes lval).tag = .VTupleTag then
        if (r1.2.nodes (r1.2.nodes node).rval).tag = .VTupleTag then
          assignParaCheck X r1.2 (r1.2.nodes node).lval (r1.2.nodes node).rval
        else assignMultRetCheck E X fuel r1.2 (r1.2.nodes node).lval (.rvalOf node)
      else
        if (r1.2.nodes (r1.2.nodes node).rval).tag = .VTupleTag then
          assignToOneCheck X r1.2 (r1.2.nodes node).lval (r1.2.nodes node).rval
        else assignSingleCheck X r1.2 (r1.2.nodes node).lval (.rvalOf node)
    checked.map (fun st2 => st2.setVtype node (st2.nodes (st2.nodes node).rval).vtype)

/-- The flow flags after an accepted assignment to a variable:
`flags |= VarInitialized; flags &= 0xFFFF - VarMoved` on a 16-bit field. -/
def markInitialized (X : AssignEnv) (flags : Nat) : Nat :=
  (((flags ||| X.VarInitialized) % 65536) &&& (0xFFFF - X.VarMoved)) % 65536

/-- The test that rejects a write: the permission lacks `MayWrite`, and the
lval is not a variable name use or its variable is initialized. -/
def lvalNotWritable (E : Env) (X : AssignEnv) (st : IrState) (lval : Addr) : Prop :=
  E.MayWrite &&& E.permGetFlags (X.iexpGetLvalInfo st lval).lvalperm = 0 ∧
  ((st.nodes lval).tag ≠ .VarNameUseTag ∨
    (st.nodes (X.iexpGetLvalInfo st lval).lvalvar).flowtempflags &&& X.VarInitialized ≠ 0)

instance lvalNotWritable.decide (E : Env) (X : AssignEnv) (st : IrState) (lval : Addr) :
    Decidable (lvalNotWritable E X st lval) :=
  inferInstanceAs (Decidable (_ ∧ _))

/-- `assignlvalrtype(lval, rtype)`: the flow rules of one lval given the type
of its rval; returns 1 when the lval is the placeholder. -/
def assignlvalrtype (E : Env) (X : AssignEnv) (st : IrState) (lval rtype : Addr) :
    Nat × IrState :=
  if isPlaceholder X st lval then (1, st)
  else
    let info := X.iexpGetLvalInfo st lval
    if lvalNotWritable E X st lval then
      (0, errorMsgNode st lval .ErrorNoMut "You do not have permission to modify lval")
    else
      let st1 :=
        if (st.nodes lval).tag = .VarNameUseTag then
          st.setFlowFlags info.lvalvar (markInitialized X (st.nodes info.lvalvar).flowtempflags)
        else st
      let rvaltype := rtype
      let lvaltype := (st1.nodes lval).vtype
      if (st1.nodes rvaltype).tag = .RefTag ∧ (st1.nodes lvaltype).tag = .RefTag ∧
          (st1.nodes lvaltype).region = E.borrowRef then
        if info.lvalscope < (st1.nodes rvaltype).scope then
          (0, errorMsgNode st1 lval .ErrorInvType
            "lval outlives the borrowed reference you are storing")
        else (0, st1)
      else (0, st1)

/-- `assignSingleFlow(lval, rval)`. -/
def assignSingleFlow (E : Env) (X : AssignEnv) (st : IrState) (lval : Addr) (rval : Slot) :
    Option IrState :=
  match st.read rval with
  | none => none
  | some r =>
    let res := assignlvalrtype E X st lval (st.nodes r).vtype
    if res.1 ≠ 0 then some res.2
    else some (X.flowHandleMoveOrCopy res.2 rval)

/-- The loop of `assignParaFlow`. -/
def assignParaFlowLoop (E : Env) (X : AssignEnv) (lval rval : Addr) :
    Nat → Nat → IrState → Option IrState
  | 0, _, st => some st
  | lcnt + 1, i, st =>
    match st.read (.elemOf lval i) with
    | none => none
    | some l =>
      match assignSingleFlow E X st l (.elemOf rval i) with
      | none => none
      | some st2 => assignParaFlowLoop E X lval rval lcnt (i + 1) st2

/-- `assignParaFlow(lval, rval)`. -/
def assignParaFlow (E : Env) (X : AssignEnv) (st : IrState) (lval rval : Addr) :
    Option IrState :=
  assignParaFlowLoop E X lval rval (st.nodes lval).elems.length 0 st

/-- The loop of `assignMultRetFlow`. -/
def assignMultRetFlowLoop (E : Env) (X : AssignEnv) (lval rtype : Addr) :
    Nat → Nat → IrState → Option IrState
  | 0, _, st => some st
  | lcnt + 1, i, st =>
    match st.read (.elemOf lval i), st.read (.elemOf rtype i) with
    | some l, some rt =>
      assignMultRetFlowLoop E X lval rtype lcnt (i + 1) (assignlvalrtype E X st l rt).2
    | _, _ => none

/-- `assignMultRetFlow(lval, rval)`. -/
def assignMultRetFlow (E : Env) (X : AssignEnv) (st : IrState) (lval : Addr) (rval : Slot) :
    Option IrState :=
  match st.read rval with
  | none => none
  | some r =>
    assignMultRetFlowLoop E X lval (st.nodes r).vtype (st.nodes lval).elems.length 0 st

/-- `assignToOneFlow(lval, rval)`. -/
def assignToOneFlow (E : Env) (X : AssignEnv) (st : IrState) (lval rval : Addr) :
    Option IrState :=
  assignSingleFlow E X st lval (.elemOf rval 0)

/-- `assignFlow(fstate, nodep)`: load the rval, then the flow rules by the
shape of the two sides. -/
def assignFlow (E : Env) (X : AssignEnv) (st : IrState) (node : Addr) : Option IrState :=
  let st1 := X.flowLoadValue st (.rvalOf node)
  let lval := (st1.nodes node).lval
  if (st1.nodes lval).tag = .VTupleTag then
    if (st1.nodes (st1.nodes node).rval).tag = .VTupleTag then
      assignParaFlow E X st1 (st1.nodes node).lval (st1.nodes node).rval
    else assignMultRetFlow E X st1 (st1.nodes node).lval (.rvalOf node)
  else
    if (st1.nodes (st1.nodes node).rval).tag = .VTupleTag then
      assignToOneFlow E X st1 (st1.nodes node).lval (st1.nodes node).rval
    else assignSingleFlow E X st1 (st1.nodes node).lval (.rvalOf node)

/-- The error `assignlvalrtype` reports for a write without permission. -/
def noMutError (lval : Addr) : ErrorMsg :=
  { node := lval, code := .ErrorNoMut, msg := "You do not have permission to modify lval" }

/-- The error `assignlvalrtype` reports for a borrow stored in an lval that
outlives it. -/
def outlivesError (lval : Addr) : ErrorMsg :=
  { node := lval, code := .ErrorInvType,
    msg := "lval outlives the borrowed reference you are storing" }

/-! ## A small function body

Nodes of a function with the variables `outer` (a mutable borrow of `i32`,
scope 2), `r` (an owned reference, scope 1) and `x` (an immutable `i32` that
is not yet initialized), and assignments to them. -/

/-- An expression node of the given tag and value type. -/
def expNode (tag : ExpTag) (vtype : Addr) : ExpNode :=
  { tag := tag, namesym := 0, vtype := vtype, flowtempflags := 0, region := 0, scope := 0,
    elems := [], lval := 0, rval := 0 }

/-- The sample nodes.
Types: `48` `i32`, `56` `&borrow imm i32` taken in scope 1, `64` `&so imm i32`,
`448` `&borrow imm i32` taken in scope 3.
Declarations: `304` `outer` (initialized), `320` `r` (initialized), `344` `x`
(not initialized).
Name uses: `312` of `outer`, `328` of `r`, `352` of `x`, `336` the
placeholder.  Values: `360` a borrow of scope 3, `368` a borrow of scope 1,
`376` and `384` two `i32` literals, `472` the tuple of the two literals, `488`
the tuple of lvals `(x)`.
Assignments: `392` placeholder from `r`, `456` `outer` from the borrow of
scope 3, `464` `outer` from the borrow of scope 1, `480` `x` from the tuple,
`496` the tuple `(x)` from the tuple. -/
def sampleNodes (a : Addr) : ExpNode :=
  if a = 56 then { expNode .RefTag 0 with region := 8, scope := 1 }
  else if a = 64 then { expNode .RefTag 0 with region := 16 }
  else if a = 448 then { expNode .RefTag 0 with region := 8, scope := 3 }
  else if a = 304 then { expNode (.OtherTag 1) 56 with flowtempflags := 1 }
  else if a = 320 then { expNode (.OtherTag 1) 64 with flowtempflags := 1 }
  else if a = 344 then expNode (.OtherTag 1) 48
  else if a = 312 then { expNode .VarNameUseTag 56 with namesym := 400 }
  else if a = 328 then { expNode .VarNameUseTag 64 with namesym := 408 }
  else if a = 352 then { expNode .VarNameUseTag 48 with namesym := 424 }
  else if a = 336 then { expNode .VarNameUseTag 0 with namesym := 416 }
  else if a = 360 then expNode (.OtherTag 2) 448
  else if a = 368 then expNode (.OtherTag 2) 56
  else if a = 376 then expNode (.OtherTag 3) 48
  else if a = 384 then expNode (.OtherTag 3) 48
  else if a = 472 then { expNode .VTupleTag 0 with elems := [376, 384] }
  else if a = 488 then { expNode .VTupleTag 0 with elems := [352] }
  else if a = 392 then { expNode (.OtherTag 4) 0 with lval := 336, rval := 328 }
  else if a = 456 then { expNode (.OtherTag 4) 0 with lval := 312, rval := 360 }
  else if a = 464 then { expNode (.OtherTag 4) 0 with lval := 312, rval := 368 }
  else if a = 480 then { expNode (.OtherTag 4) 0 with lval := 352, rval := 472 }
  else if a = 496 then { expNode (.OtherTag 4) 0 with lval := 488, rval := 472 }
  else expNode (.OtherTag 0) 0

/-- The sample state: the sample nodes and no error. -/
def sampleIr : IrState :=
  { nodes := sampleNodes, errors := [] }

/-- The lval information of the sample name uses: variable, permission
(`mut` 32 for `outer`, `imm` 24 for `r` and `x`) and scope. -/
def sampleLvalInfo (lval : Addr) : LvalInfo :=
  if lval = 312 then { lvalvar := 304, lvalperm := 32, lvalscope := 2 }
  else if lval = 328 then { lvalvar := 320, lvalperm := 24, lvalscope := 1 }
  else if lval = 352 then { lvalvar := 344, lvalperm := 24, lvalscope := 1 }
  else { lvalvar := 0, lvalperm := 0, lvalscope := 0 }

/-- The sample collaborators.  Every variable name use is an lval, any other
node is reported; an expression is typed already; a value coerces to a type
when that is its type; a move marks the variable of a used owned reference
(type 64) `VarMoved`; loading a value reports a moved variable and changes no
flag. -/
def sampleAssignEnv : AssignEnv :=
  { anonName := 416
    VarInitialized := 1
    VarMoved := 2
    iexpGetLvalInfo := fun _ lval => sampleLvalInfo lval
    iexpIsLvalError := fun st lval =>
      if (st.nodes lval).tag = .VarNameUseTag then (1, st)
      else (0, errorMsgNode st lval .ErrorBadLval "Expression to left of assignment must be lval")
    iexpTypeCheckAny := fun st _ => (1, st)
    iexpTypeCheckCoerce := fun st totype slot =>
      match st.read slot with
      | some r => if (st.nodes r).vtype = totype then (1, st) else (0, st)
      | none => (0, st)
    flowHandleMoveOrCopy := fun st slot =>
      match st.read slot with
      | some r =>
        if (st.nodes r).tag = .VarNameUseTag ∧ (st.nodes r).vtype = 64 then
          st.setFlowFlags (sampleLvalInfo r).lvalvar
            ((st.nodes (sampleLvalInfo r).lvalvar).flowtempflags ||| 2)
        else st
      | none => st
    flowLoadValue := fun st slot =>
      match st.read slot with
      | some r =>
        if (st.nodes r).tag = .VarNameUseTag ∧
            (st.nodes (sampleLvalInfo r).lvalvar).flowtempflags &&& 2 ≠ 0 then
          errorMsgNode st r .ErrorMove "Variable has been moved"
        else st
      | none => st }

/-! ## A tuple-returning call and an untyped value

Two more groups of sample nodes for the type check of assignments. -/

/-- The sample nodes and an assignment of a call to two lvals.
`504` is the tuple type `(i32, Shape)` of the types `48` and `40`, `512` a call
of that type, `520` a use of the variable `s` of type `Shape`, `528` the tuple
of lvals `(1, s)` whose first element is the literal `376`, `536` the
assignment of the call to that tuple. -/
def sampleMultRetNodes (a : Addr) : ExpNode :=
  if a = 504 then { expNode .TTupleTag 0 with elems := [48, 40] }
  else if a = 512 then expNode (.OtherTag 5) 504
  else if a = 520 then { expNode .VarNameUseTag 40 with namesym := 432 }
  else if a = 528 then { expNode .VTupleTag 0 with elems := [376, 520] }
  else if a = 536 then { expNode (.OtherTag 4) 0 with lval := 528, rval := 512 }
  else sampleNodes a

/-- The state of the tuple-returning call, with no error. -/
def sampleMultRetIr : IrState :=
  { nodes := sampleMultRetNodes, errors := [] }

/-- The sample nodes and a value that is not typed yet: `544` is a literal
whose `vtype` is the unknown type `224`, `552` assigns it to the placeholder
`336`, `560` assigns it to `x` (`352`). -/
def sampleUntypedNodes (a : Addr) : ExpNode :=
  if a = 544 then expNode (.OtherTag 3) 224
  else if a = 552 then { expNode (.OtherTag 4) 224 with lval := 336, rval := 544 }
  else if a = 560 then { expNode (.OtherTag 4) 224 with lval := 352, rval := 544 }
  else sampleNodes a

/-- The state of the untyped value, with no error. -/
def sampleUntypedIr : IrState :=
  { nodes := sampleUntypedNodes, errors := [] }

/-- The type check of the sample literal: a node whose `vtype` is the unknown
type `224` gets the type `i32` (`48`); a typed node is left as it is. -/
def sampleTypeNode (st : IrState) (slot : Slot) : IrState :=
  match st.read slot with
  | some r => if (st.nodes r).vtype = 224 then st.setVtype r 48 else st
  | none => st

/-- The sample collaborators with a type check that types what it is given:
`iexpTypeCheckAny` types the node in the slot, `iexpTypeCheckCoerce` types
it and then accepts it when its type is the wanted one. -/
def sampleTypingEnv : AssignEnv :=
  { sampleAssignEnv with
    iexpTypeCheckAny := fun st slot => (1, sampleTypeNode st slot)
    iexpTypeCheckCoerce := fun st totype slot =>
      match (sampleTypeNode st slot).read slot with
      | some r =>
        if ((sampleTypeNode st slot).nodes r).vtype = totype then (1, sampleTypeNode st slot)
        else (0, sampleTypeNode st slot)
      | none => (0, sampleTypeNode st slot) }

/-! ## Array literals and function declarations

`ir/exp/arraylit.c` and `ir/stmt/fndcl.c`: the type check of array literals
and of function declarations.  Their nodes are kept in a store of their own,
with the fields the two files read; the state also carries the fields of
`TypeCheckState` and the next free address of the node allocator.  Type nodes
compared by `iTypeIsSame` live in the type graph of `Env`. -/

/-- Node tags tested or given by the two files; every other tag is an
`OtherTag`. -/
inductive IrTag where
  | ULitTag
  | NilLitTag
  | VarNameUseTag
  | ConstDclTag
  | FnDclTag
  | FnSigTag
  | BlockTag
  | ReturnTag
  | StructTag
  | ArrayTag
  | VoidTag
  | OtherTag (n : Nat)
  deriving DecidableEq

/-- The fields of a node that the two files read or write: `uintlit` of an
unsigned literal, `dclnode` of a name use, `value` of a constant or function
declaration, `dimens` and `elems` of an array node, `stmts` of a block, `parms`
and `rettype` of a function signature, `exp` of a return, and `namesym`,
`genericinfo`, `nextnode`, `llvmvar` and `genname` of a function
declaration. -/
structure IrNode where
  tag : IrTag := .OtherTag 0
  flags : Nat := 0
  vtype : Addr := 0
  namesym : Addr := 0
  value : Addr := 0
  dclnode : Addr := 0
  uintlit : Nat := 0
  dimens : List Addr := []
  elems : List Addr := []
  stmts : List Addr := []
  parms : List Addr := []
  rettype : Addr := 0
  exp : Addr := 0
  genericinfo : Addr := 0
  nextnode : Addr := 0
  llvmvar : Addr := 0
  genname : Addr := 0
  deriving DecidableEq

/-- The state of the type check: the nodes, the errors reported so far (oldest
first; the global `errors` is their number), `typenode` and `fn` of
`TypeCheckState`, and the next free address of the allocator. -/
structure TcState where
  nodes : Addr → IrNode
  errors : List ErrorMsg
  typenode : Addr
  fn : Addr
  next : Addr

/-- A place holding a node pointer: element `i` of `dimens` or of `elems` of
an array node, or the `vtype` or `value` field of a declaration. -/
inductive TcSlot where
  | dimOf (arr : Addr) (i : Nat)
  | elemOf (arr : Addr) (i : Nat)
  | vtypeOf (node : Addr)
  | valueOf (node : Addr)
  deriving DecidableEq

/-- The node pointer in a slot; `none` past the end of a node list. -/
def TcState.read (st : TcState) : TcSlot → Option Addr
  | .dimOf arr i => (st.nodes arr).dimens.get? i
  | .elemOf arr i => (st.nodes arr).elems.get? i
  | .vtypeOf node => some (st.nodes node).vtype
  | .valueOf node => some (st.nodes node).value

/-- `errorMsgNode`: record an error at a node. -/
def TcState.errorMsgNode (st : TcState) (node : Addr) (code : ErrorCode) (msg : String) :
    TcState :=
  { st with errors := st.errors ++ [{ node := node, code := code, msg := msg }] }

/-- The state with `vtype` of a node set. -/
def TcState.setVtype (st : TcState) (node vtype : Addr) : TcState :=
  { st with nodes := fun a => if a = node then { st.nodes node with vtype := vtype }
                               else st.nodes a }

/-- The state with the statement list of a block set. -/
def TcState.setStmts (st : TcState) (blk : Addr) (stmts : List Addr) : TcState :=
  { st with nodes := fun a => if a = blk then { st.nodes blk with stmts := stmts }
                               else st.nodes a }

/-- What the flow pass is started with: `fnsig` and `scope` of `FlowState`. -/
structure FlowState where
  fnsig : Addr
  scope : Nat
  deriving DecidableEq

/-- What the two files use without defining it: the types `usizeType`,
`unknownType` and `noCareType`, the flags `FlagMethFld` and `TraitType`, the
macro `isExpNode` (a test of the tag), and the functions of other files.
Functions that return a C `int` give it as a number. -/
structure TcEnv where
  usizeType : Addr
  unknownType : Addr
  noCareType : Addr
  FlagMethFld : Nat
  TraitType : Nat
  isExpNode : IrTag → Bool
  litIsLiteral : TcState → Addr → Bool
  newArrayNodeTyped : TcState → Addr → Nat → Addr → Addr × TcState
  iexpTypeCheckAny : TcState → TcSlot → Nat × TcState
  iexpTypeCheckCoerce : TcState → Addr → TcSlot → Nat × TcState
  iTypeTypeCheck : TcState → TcSlot → TcState
  iexpGetDerefTypeDcl : TcState → Addr → Addr
  inodeTypeCheck : TcState → TcSlot → Addr → TcState
  blockFlow : TcState → FlowState → TcSlot → TcState

/-- The walk from a dimension through named constants: while the node is a
variable name use whose declaration is a constant, go to the value of the
constant. -/
def arrayLitDimNode (st : TcState) : Nat → Addr → Option Addr
  | 0, _ => none
  | fuel + 1, dimnode =>
    if (st.nodes dimnode).tag = .VarNameUseTag then
      if (st.nodes (st.nodes dimnode).dclnode).tag = .ConstDclTag then
        arrayLitDimNode st fuel (st.nodes (st.nodes dimnode).dclnode).value
      else some dimnode
    else some dimnode

/-- The loop over the elements of a list-form literal: `cnt` elements are
left, the next is element `i`, `matchtype` is the type to match.  The result
is `matchtype` and the state after the loop. -/
def arrayLitListLoop (E : Env) (X : TcEnv) (fuel : Nat) (arrlit : Addr) :
    Nat → Nat → Addr → TcState → Option (Addr × TcState)
  | 0, _, matchtype, st => some (matchtype, st)
  | cnt + 1, i, matchtype, st =>
    let r := X.iexpTypeCheckAny st (.elemOf arrlit i)
    if r.1 = 0 then arrayLitListLoop E X fuel arrlit cnt (i + 1) matchtype r.2
    else
      match r.2.read (.elemOf arrlit i) with
      | none => none
      | some e =>
        if matchtype = X.unknownType then
          arrayLitListLoop E X fuel arrlit cnt (i + 1) (r.2.nodes e).vtype r.2
        else
          match iTypeIsSame E fuel (r.2.nodes e).vtype matchtype with
          | none => none
          | some same =>
            arrayLitListLoop E X fuel arrlit cnt (i + 1) matchtype
              (if same then r.2
               else r.2.errorMsgNode e .ErrorBadArray "Inconsistent type of array literal value")

/-- The handling of the dimension in `arrayLitTypeCheckDimExp`: an unsigned
literal is given the type `usize`, then the dimension has to coerce to
`usize`. -/
def arrayLitDimCheck (X : TcEnv) (st : TcState) (arrlit dimnode : Addr) : TcState :=
  let s1 := if (st.nodes dimnode).tag = .ULitTag then st.setVtype dimnode X.usizeType else st
  let r2 := X.iexpTypeCheckCoerce s1 X.usizeType (.dimOf arrlit 0)
  if r2.1 ≠ 1 then
    r2.2.errorMsgNode arrlit .ErrorBadArray "Array literal dimension must coerce to usize"
  else r2.2

/-- The check of a list-form literal in the words of the specification: `T` is
the type of the first element; each further element is type-checked, and
reported when its type is not the same as `T`.  `cnt` elements are left and the
next is element `i`. -/
def arrayLitListSpec (E : Env) (X : TcEnv) (fuel : Nat) (arrlit T : Addr) :
    Nat → Nat → TcState → Option TcState
  | 0, _, st => some st
  | cnt + 1, i, st =>
    let r := X.iexpTypeCheckAny st (.elemOf arrlit i)
    match r.2.read (.elemOf arrlit i) with
    | none => none
    | some e =>
      match iTypeIsSame E fuel (r.2.nodes e).vtype T with
      | none => none
      | some same =>
        arrayLitListSpec E X fuel arrlit T cnt (i + 1)
          (if same then r.2
           else r.2.errorMsgNode e .ErrorBadArray "Inconsistent type of array literal value")

/-- A chain of `k` named constants from a dimension to a node: the dimension
is a use of a constant whose value is again such a use, `k` times. -/
def constChain (st : TcState) : Nat → Addr → Addr → Prop
  | 0, d, lit => d = lit
  | k + 1, d, lit =>
    (st.nodes d).tag = .VarNameUseTag ∧ (st.nodes (st.nodes d).dclnode).tag = .ConstDclTag ∧
      constChain st k (st.nodes (st.nodes d).dclnode).value lit

/-- `arrayLitTypeCheckDimExp(pstate, arrlit)`: the type check of an array
literal, a fill form when it has a dimension and a list form otherwise. -/
def arrayLitTypeCheckDimExp (E : Env) (X : TcEnv) (fuel : Nat) (st : TcState) (arrlit : Addr) :
    Option TcState :=
  if (st.nodes arrlit).dimens.length > 0 then
    if (st.nodes arrlit).dimens.length > 1 then
      some (st.errorMsgNode arrlit .ErrorBadArray "Array literal may only specify one dimension")
    else
      match st.read (.dimOf arrlit 0) with
      | none => none
      | some dimnode =>
        let s2 := arrayLitDimCheck X st arrlit dimnode
        match s2.read (.elemOf arrlit 0) with
        | none =>
          some (s2.errorMsgNode arrlit .ErrorBadArray "Array fill value may only be one value")
        | some elem0 =>
          if (s2.nodes arrlit).elems.length ≠ 1 ∨ X.isExpNode (s2.nodes elem0).tag = false then
            some (s2.errorMsgNode arrlit .ErrorBadArray "Array fill value may only be one value")
          else
            let found : Option Addr :=
              if (s2.nodes dimnode).tag ≠ .ULitTag then arrayLitDimNode s2 fuel dimnode
              else some dimnode
            match found with
            | none => none
            | some d =>
              let dimsize := if (s2.nodes d).tag = .ULitTag then wrapSize (s2.nodes d).uintlit else 0
              let r3 := X.iexpTypeCheckAny s2 (.elemOf arrlit 0)
              if r3.1 ≠ 0 then
                match r3.2.read (.elemOf arrlit 0) with
                | none => none
                | some e =>
                  let a := X.newArrayNodeTyped r3.2 arrlit dimsize (r3.2.nodes e).vtype
                  some (a.2.setVtype arrlit a.1)
              else some r3.2
  else if (st.nodes arrlit).elems.length = 0 then
    some (st.errorMsgNode arrlit .ErrorBadArray "Array literal list may not be empty")
  else
    match arrayLitListLoop E X fuel arrlit (st.nodes arrlit).elems.length 0 X.unknownType st with
    | none => none
    | some (matchtype, s1) =>
      let a := X.newArrayNodeTyped s1 arrlit (s1.nodes arrlit).elems.length matchtype
      some (a.2.setVtype arrlit a.1)

/-- `arrayLitTypeCheck(pstate, arrlit)`: a dimension has to be a literal, then
`arrayLitTypeCheckDimExp`. -/
def arrayLitTypeCheck (E : Env) (X : TcEnv) (fuel : Nat) (st : TcState) (arrlit : Addr) :
    Option TcState :=
  match st.read (.dimOf arrlit 0) with
  | some dim0 =>
    if X.litIsLiteral st dim0 = false then
      arrayLitTypeCheckDimExp E X fuel
        (st.errorMsgNode arrlit .ErrorBadArray "Array literal dimension value must be a constant")
        arrlit
    else arrayLitTypeCheckDimExp E X fuel st arrlit
  | none => arrayLitTypeCheckDimExp E X fuel st arrlit

/-- Modelled from the spec: `newNode` is absent from the sources.  The new
node is placed at the next free address of the allocator. -/
def TcState.alloc (st : TcState) (n : IrNode) : Addr × TcState :=
  (st.next,
   { st with nodes := fun a => if a = st.next then n else st.nodes a, next := st.next + 1 })

/-- Modelled from the spec: `newNilLitNode` is absent from the sources.  It
gives a new nil literal. -/
def newNilLitNode (st : TcState) : Addr × TcState :=
  st.alloc { tag := .NilLitTag }

/-- Modelled from the spec: `newReturnNodeExp` is absent from the sources.  It
gives a new return node that wraps the expression `exp`. -/
def newReturnNodeExp (st : TcState) (exp : Addr) : Addr × TcState :=
  st.alloc { tag := .ReturnTag, exp := exp }

/-- `nodesAdd(&blk->stmts, node)`: the node is added at the end of the
statements of the block. -/
def TcState.nodesAdd (st : TcState) (blk node : Addr) : TcState :=
  st.setStmts blk ((st.nodes blk).stmts ++ [node])

/-- Adding `return nil` at the end of a block:
`nodesAdd(&blk->stmts, newReturnNodeExp(newNilLitNode()))`. -/
def addNilReturn (st : TcState) (blk : Addr) : TcState :=
  let n := newNilLitNode st
  let r := newReturnNodeExp n.2 n.1
  r.2.nodesAdd blk r.1

/-- `fnImplicitReturn(rettype, blk)`: turns an implicit return of the last
statement into an explicit one.  `none` only if the block had no last
statement to read, which the first step rules out. -/
def fnImplicitReturn (X : TcEnv) (st : TcState) (rettype blk : Addr) : Option TcState :=
  let s1 := if (st.nodes blk).stmts.length = 0 then addNilReturn st blk else st
  match (s1.nodes blk).stmts.getLast? with
  | none => none
  | some laststmt =>
    if (s1.nodes rettype).tag = .VoidTag then
      if (s1.nodes laststmt).tag ≠ .ReturnTag then some (addNilReturn s1 blk)
      else some s1
    else
      if X.isExpNode (s1.nodes laststmt).tag = true then
        let r := newReturnNodeExp s1 laststmt
        some (r.2.setStmts blk ((r.2.nodes blk).stmts.dropLast ++ [r.1]))
      else if (s1.nodes laststmt).tag ≠ .ReturnTag then
        some (s1.errorMsgNode laststmt .ErrorNoRet
          "A return value is expected but this statement cannot give one.")
      else some s1

/-- The function is a default method of a trait: a method whose enclosing
type is a struct with the `TraitType` flag. -/
def isTraitMethod (X : TcEnv) (st : TcState) (fnnode : Addr) : Prop :=
  (st.nodes fnnode).flags &&& X.FlagMethFld ≠ 0 ∧
    (st.nodes st.typenode).tag = .StructTag ∧
    (st.nodes st.typenode).flags &&& X.TraitType ≠ 0

instance isTraitMethod.decide (X : TcEnv) (st : TcState) (fnnode : Addr) :
    Decidable (isTraitMethod X st fnnode) :=
  inferInstanceAs (Decidable (_ ∧ _))

/-- The check of the self parameter in `fnDclTypeCheck`: the first parameter
of a method has to be of the enclosing type or a reference to it.  `none` when
a method has no parameter to read. -/
def fnDclSelfCheck (X : TcEnv) (st : TcState) (fnnode : Addr) : Option TcState :=
  if (st.nodes fnnode).flags &&& X.FlagMethFld ≠ 0 then
    match (st.nodes (st.nodes fnnode).vtype).parms.get? 0 with
    | none => none
    | some selfparm =>
      if X.iexpGetDerefTypeDcl st selfparm ≠ st.typenode then
        some (st.errorMsgNode fnnode .ErrorInvType
          "self parameter for a method must match, or be a reference to, its type")
      else some st
  else some st

/-- The part of `fnDclTypeCheck` between the early returns and the test of the
error count: the check of the self parameter, `fnImplicitReturn`, and the type
check of the body with `pstate->fn` set to the function and restored after. -/
def fnDclBodyCheck (X : TcEnv) (st : TcState) (fnnode : Addr) : Option TcState :=
  match fnDclSelfCheck X st fnnode with
  | none => none
  | some s2 =>
    match fnImplicitReturn X s2 (s2.nodes (s2.nodes fnnode).vtype).rettype
        (s2.nodes fnnode).value with
    | none => none
    | some s3 =>
      let s4 := X.inodeTypeCheck { s3 with fn := fnnode } (.valueOf fnnode) X.noCareType
      some { s4 with fn := s3.fn }

/-- `fnDclTypeCheck(pstate, fnnode)`: type check of a function declaration and
its body, and the data flow pass when no error has been reported. -/
def fnDclTypeCheck (X : TcEnv) (st : TcState) (fnnode : Addr) : Option TcState :=
  if (st.nodes fnnode).genericinfo ≠ nullAddr then some st
  else
    let s1 := X.iTypeTypeCheck st (.vtypeOf fnnode)
    if (s1.nodes fnnode).value = nullAddr ∨ isTraitMethod X s1 fnnode then some s1
    else
      match fnDclBodyCheck X s1 fnnode with
      | none => none
      | some s5 =>
        if s5.errors.length ≠ 0 then some s5
        else
          some (X.blockFlow s5 { fnsig := (s5.nodes fnnode).vtype, scope := 1 } (.valueOf fnnode))

/-! ## Sample literals and functions -/

/-- The sample nodes of array literals and functions.
Literals: `600` is `4u32`, `604` is `0` of type `i32` (`48`), `636` is `7` of
type `i32`, `640` a value of type `Shape` (`40`).
Constants: `612` is `N = 4u32`, `620` is `M = N`; `616` and `624` are uses of
`N` and `M`.
Array literals: `608` is `[4u32, 0]`, `628` is `[M, 0]`, `632` is the list
`[0, 7, shape]`, `644` has two dimensions, `648` two fill values, `652` is the
empty list.
Types: `700` the struct `Point`, `704` a trait, `708` void, `716` a
reference to `Point`.
Functions: `728` is the method `len(self &Point) i32` with the body `{7}`,
`744` the method `scale(x i32) i32` with the body `{7}`, `748` a generic
function, `768` the function `run()` with the body `{f()}`, `772` a function
without body, `788` a method without parameters. -/
def sampleTcNodes (a : Addr) : IrNode :=
  if a = 600 then { tag := .ULitTag, uintlit := 4, vtype := 52 }
  else if a = 604 then { tag := .ULitTag, uintlit := 0, vtype := 48 }
  else if a = 636 then { tag := .ULitTag, uintlit := 7, vtype := 48 }
  else if a = 640 then { tag := .OtherTag 2, vtype := 40 }
  else if a = 612 then { tag := .ConstDclTag, value := 600, vtype := 44 }
  else if a = 616 then { tag := .VarNameUseTag, dclnode := 612, vtype := 44 }
  else if a = 620 then { tag := .ConstDclTag, value := 616, vtype := 44 }
  else if a = 624 then { tag := .VarNameUseTag, dclnode := 620, vtype := 44 }
  else if a = 608 then { tag := .OtherTag 4, dimens := [600], elems := [604], vtype := 224 }
  else if a = 628 then { tag := .OtherTag 4, dimens := [624], elems := [604], vtype := 224 }
  else if a = 632 then { tag := .OtherTag 4, elems := [604, 636, 640], vtype := 224 }
  else if a = 644 then { tag := .OtherTag 4, dimens := [600, 600], elems := [604], vtype := 224 }
  else if a = 648 then { tag := .OtherTag 4, dimens := [600], elems := [604, 636], vtype := 224 }
  else if a = 652 then { tag := .OtherTag 4, vtype := 224 }
  else if a = 700 then { tag := .StructTag }
  else if a = 704 then { tag := .StructTag, flags := 4 }
  else if a = 708 then { tag := .VoidTag }
  else if a = 712 then { tag := .OtherTag 3, namesym := 800, vtype := 716 }
  else if a = 720 then { tag := .FnSigTag, parms := [712], rettype := 48 }
  else if a = 724 then { tag := .BlockTag, stmts := [636] }
  else if a = 728 then { tag := .FnDclTag, flags := 8, vtype := 720, value := 724 }
  else if a = 732 then { tag := .OtherTag 3, namesym := 804, vtype := 48 }
  else if a = 736 then { tag := .FnSigTag, parms := [732], rettype := 48 }
  else if a = 740 then { tag := .BlockTag, stmts := [636] }
  else if a = 744 then { tag := .FnDclTag, flags := 8, vtype := 736, value := 740 }
  else if a = 748 then { tag := .FnDclTag, genericinfo := 752, vtype := 720, value := 724 }
  else if a = 756 then { tag := .FnSigTag, rettype := 708 }
  else if a = 760 then { tag := .BlockTag, stmts := [764] }
  else if a = 764 then { tag := .OtherTag 2, vtype := 708 }
  else if a = 768 then { tag := .FnDclTag, vtype := 756, value := 760 }
  else if a = 772 then { tag := .FnDclTag, vtype := 756 }
  else if a = 780 then { tag := .BlockTag, stmts := [764] }
  else if a = 788 then { tag := .FnDclTag, flags := 8, vtype := 756, value := 780 }
  else { }

/-- The sample state: the sample nodes, no error, the enclosing type `Point`,
and the allocator at address `1000`. -/
def sampleTc : TcState :=
  { nodes := sampleTcNodes, errors := [], typenode := 700, fn := 0, next := 1000 }

/-- The name `self` of the sample functions. -/
def sampleSelfName : Addr := 800

/-- The sample collaborators.  `usize` is type `44`, the unknown type `224`;
the method flag is bit 8 and the trait flag bit 4; literals, name uses and
values are expressions, a return is not; a literal or a name use is a
constant; the array type of a size and an element type is a new array node
with a new literal for the size; an expression is typed already and coerces to
a type when that is its type; the parameter of type `716` dereferences to
`Point`; the type checks of other nodes change nothing; the flow pass stamps
the body with the signature it was given. -/
def sampleTcEnv : TcEnv :=
  { usizeType := 44
    unknownType := 224
    noCareType := 228
    FlagMethFld := 8
    TraitType := 4
    isExpNode := fun t =>
      decide (t = .ULitTag ∨ t = .NilLitTag ∨ t = .VarNameUseTag ∨ t = .OtherTag 2)
    litIsLiteral := fun st n =>
      decide ((st.nodes n).tag = .ULitTag ∨ (st.nodes n).tag = .VarNameUseTag)
    newArrayNodeTyped := fun st _ size elemtype =>
      let n := st.alloc { tag := .ULitTag, uintlit := size, vtype := 44 }
      n.2.alloc { tag := .ArrayTag, dimens := [n.1], elems := [elemtype] }
    iexpTypeCheckAny := fun st _ => (1, st)
    iexpTypeCheckCoerce := fun st totype slot =>
      match st.read slot with
      | some r => if (st.nodes r).vtype = totype then (1, st) else (0, st)
      | none => (0, st)
    iTypeTypeCheck := fun st _ => st
    iexpGetDerefTypeDcl := fun st p => if (st.nodes p).vtype = 716 then 700 else (st.nodes p).vtype
    inodeTypeCheck := fun st _ _ => st
    blockFlow := fun st fs slot =>
      match st.read slot with
      | some b => st.setVtype b fs.fnsig
      | none => st }

/-! ## Hooking names

`ast/module.c`: a named node is hooked into the global symbol table under its
owner, and the owner unhooks all its names at once.  The named nodes and the
`node` field of every symbol are kept in a store of their own. -/

/-- The fields of a `NamedAstNode` that hooking uses: `namesym`, `owner`,
`hooklink` (the next node hooked by the same owner), `hooklinks` (the first
node this node has hooked as an owner) and `prevname` (the node the symbol
named before). -/
structure NamedAstNode where
  namesym : Addr := 0
  owner : Addr := 0
  hooklink : Addr := 0
  hooklinks : Addr := 0
  prevname : Addr := 0
  deriving DecidableEq

/-- The named nodes, and for every symbol its `node` field. -/
structure HookState where
  nodes : Addr → NamedAstNode
  syms : Addr → Addr

/-- The state with one named node replaced. -/
def HookState.setNode (st : HookState) (a : Addr) (n : NamedAstNode) : HookState :=
  { st with nodes := fun b => if b = a then n else st.nodes b }

/-- The state with the `node` field of one symbol set. -/
def HookState.setSym (st : HookState) (sym node : Addr) : HookState :=
  { st with syms := fun s => if s = sym then node else st.syms s }

/-- `namespaceHook(name, namesym)`: the node is put in front of the hook list
of its owner, remembers the node the symbol named, and becomes the node of the
symbol. -/
def namespaceHook (st : HookState) (name namesym : Addr) : HookState :=
  let s1 := st.setNode name
    { st.nodes name with hooklink := (st.nodes (st.nodes name).owner).hooklinks }
  let s2 := s1.setNode (s1.nodes name).owner
    { s1.nodes (s1.nodes name).owner with hooklinks := name }
  let s3 := s2.setNode name { s2.nodes name with prevname := s2.syms namesym }
  s3.setSym namesym name

/-- The loop of `namespaceUnhook` from the node `node` on: the symbol of the
node names the previous node again, and the node leaves the hook list. -/
def namespaceUnhookLoop : Nat → HookState → Addr → Option HookState
  | 0, _, _ => none
  | fuel + 1, st, node =>
    if node = nullAddr then some st
    else
      let next := (st.nodes node).hooklink
      let s1 := st.setSym (st.nodes node).namesym (st.nodes node).prevname
      let s2 := s1.setNode node { s1.nodes node with hooklink := nullAddr }
      namespaceUnhookLoop fuel s2 next

/-- `namespaceUnhook(owner)`: unhooks every name of the owner, the last hooked
first, and empties the hook list. -/
def namespaceUnhook (fuel : Nat) (st : HookState) (owner : Addr) : Option HookState :=
  (namespaceUnhookLoop fuel st (st.nodes owner).hooklinks).map
    (fun s => s.setNode owner { s.nodes owner with hooklinks := nullAddr })

/-- Hooking the nodes of a list in turn, each under its own symbol. -/
def namespaceHookAll (st : HookState) (names : List Addr) : HookState :=
  names.foldl (fun s n => namespaceHook s n (s.nodes n).namesym) st

/-- Sample named nodes: the module `900` owns the declarations `904` of `x`
(symbol `950`), `908` of `y` (symbol `954`) and `912`, a second `x`; before
the module is entered `x` names the node `916` and `y` nothing. -/
def sampleHooks : HookState :=
  { nodes := fun a =>
      if a = 904 then { namesym := 950, owner := 900 }
      else if a = 908 then { namesym := 954, owner := 900 }
      else if a = 912 then { namesym := 950, owner := 900 }
      else { }
    syms := fun s => if s = 950 then 916 else 0 }

/-! ## The loop stack of the code generator

`genllvm/genlstmt.c`: `genFindLoopState` finds the loop a `break` or
`continue` belongs to.  The loop stack is the array `gen->loopstack` with
`loopstackcnt` entries in use; a pointer to an entry is its index. -/

/-- The part of `GenState` and of the nodes that `genFindLoopState` reads: the
loop node of every entry of the loop stack, the number of entries in use, the
`life` field of every loop node and the `dclnode` field of every name use. -/
structure GenState where
  loopstack : Nat → Addr
  loopstackcnt : Nat
  life : Addr → Addr
  dclnode : Addr → Addr

/-- The loop `while (cnt--)` of `genFindLoopState`: entry `cnt - 1` is looked
at first; `none` is `NULL`. -/
def genFindLoopStateLoop (G : GenState) (lifeDclNode : Addr) : Nat → Option Nat
  | 0 => none
  | cnt + 1 =>
    if G.life (G.loopstack cnt) = lifeDclNode then some cnt
    else genFindLoopStateLoop G lifeDclNode cnt

/-- `genFindLoopState(gen, life)`: the entry of the loop stack for a lifetime,
the most recent one when there is no lifetime.  `cnt` is a `uint32_t`, so
`cnt - 1` wraps around at zero. -/
def genFindLoopState (G : GenState) (life : Addr) : Option Nat :=
  if life = nullAddr then some ((G.loopstackcnt + 2 ^ 32 - 1) % 2 ^ 32)
  else genFindLoopStateLoop G (G.dclnode life) G.loopstackcnt

/-- A sample loop stack: the loops `20`, `24` and `28` are nested in this
order; the first and the third carry the lifetime declared at `60`, the second
the one declared at `64`; `70` and `74` are uses of the two lifetimes and `78`
a use of a lifetime declared at `68` that no loop carries. -/
def sampleGen : GenState :=
  { loopstack := fun i => if i = 0 then 20 else if i = 1 then 24 else if i = 2 then 28 else 0
    loopstackcnt := 3
    life := fun l => if l = 20 then 60 else if l = 24 then 64 else if l = 28 then 60 else 0
    dclnode := fun u => if u = 70 then 60 else if u = 74 then 64 else if u = 78 then 68 else 0 }

/-! ## File names

`shared/fileio.c`: `fileName` takes the name of a file out of a path.  A C
string is the list of its characters before the terminator, and a pointer into
it is an index; the character at the end of the list is the terminator. -/

/-- The characters `fileName` looks for. -/
def isDotChar (c : Char) : Bool := c = '.'

/-- A slash or a backslash. -/
def isSlashChar (c : Char) : Bool := c = '/' || c = Char.ofNat 92

/-- The first loop of `fileName`: from index `i` backwards, until the start of
the string or a dot, a slash or a backslash. -/
def fileNameFindDot (fn : List Char) : Nat → Nat
  | 0 => 0
  | i + 1 =>
    if isDotChar (fn.getD (i + 1) (Char.ofNat 0)) || isSlashChar (fn.getD (i + 1) (Char.ofNat 0)) then i + 1
    else fileNameFindDot fn i

/-- The second loop of `fileName`: from index `i` backwards, until the start
of the string or a slash or a backslash. -/
def fileNameFindSlash (fn : List Char) : Nat → Nat
  | 0 => 0
  | i + 1 =>
    if isSlashChar (fn.getD (i + 1) (Char.ofNat 0)) then i + 1
    else fileNameFindSlash fn i

/-- `fileName(fn)`: the file name of a path, without its extension.  `none`
for the empty string, whose last character does not exist. -/
def fileName (fn : List Char) : Option (List Char) :=
  if fn.length = 0 then none
  else
    let fnp := fileNameFindDot fn (fn.length - 1)
    if fnp = 0 then some fn
    else if isSlashChar (fn.getD fnp (Char.ofNat 0)) then some (fn.drop (fnp + 1))
    else
      let dotp := fnp
      let fnp2 := fileNameFindSlash fn fnp
      let fnp3 := if fnp2 ≠ 0 then fnp2 + 1 else fnp2
      some ((fn.drop fnp3).take (dotp - fnp3))

/-! ## Type check of references

`refTypeCheck` and `refvirtTypeCheck` of `ir/types/reference.c`.  The
reference nodes live in the type graph of `Env`; the state of the check adds
the errors reported so far and the `typeinfo` field of every node. -/

/-- The state of the type check of a reference: the type graph, the errors
reported so far, oldest first, and `typeinfo` of every node. -/
structure RefCheckState where
  env : Env
  errors : List ErrorMsg
  typeinfo : Addr → Addr

/-- A place holding a node pointer: the `region`, `perm` or `vtexp` field of a
reference. -/
inductive RefSlot where
  | regionOf (node : Addr)
  | permOf (node : Addr)
  | vtexpOf (node : Addr)
  deriving DecidableEq

/-- `errorMsgNode`: record an error at a node. -/
def RefCheckState.errorMsgNode (st : RefCheckState) (node : Addr) (code : ErrorCode)
    (msg : String) : RefCheckState :=
  { st with errors := st.errors ++ [{ node := node, code := code, msg := msg }] }

/-- The state with `perm` of a node set. -/
def RefCheckState.setPerm (st : RefCheckState) (node perm : Addr) : RefCheckState :=
  { st with env := st.env.store node { st.env.heap node with perm := perm } }

/-- What the two type checks use without defining it: the permissions
`opaqPerm` and `uniPerm`, and the functions of other files.  Functions that
return a C `int` give it as a number. -/
structure RefCheckEnv where
  opaqPerm : Addr
  uniPerm : Addr
  newPermUseNode : RefCheckState → Addr → Addr × RefCheckState
  iTypeTypeCheck : RefCheckState → RefSlot → Nat × RefCheckState
  typetblFind : RefCheckState → Addr → Addr × RefCheckState
  structMakeVtable : RefCheckState → Addr → RefCheckState

/-- The default permission of a reference: `opaq` for a reference to a
function signature when `fnsig` is set, else `ro` for a borrow and `uni`
otherwise. -/
def refDefaultPerm (J : JoinEnv) (X : RefCheckEnv) (st : RefCheckState) (node : Addr)
    (fnsig : Bool) : Addr :=
  if fnsig = true ∧ (st.env.heap (st.env.heap node).vtexp).tag = .FnSigTag then X.opaqPerm
  else if (st.env.heap node).region = st.env.borrowRef then J.roPerm
  else X.uniPerm

/-- The first statement of both type checks: an unknown permission becomes a
use of the default permission. -/
def refInferPerm (J : JoinEnv) (X : RefCheckEnv) (st : RefCheckState) (node : Addr)
    (fnsig : Bool) : RefCheckState :=
  if (st.env.heap node).perm = J.unknownType then
    let p := X.newPermUseNode st (refDefaultPerm J X st node fnsig)
    p.2.setPerm node p.1
  else st

/-- `refTypeCheck(pstate, node)`: type check of a reference node. -/
def refTypeCheck (J : JoinEnv) (X : RefCheckEnv) (fuel : Nat) (st : RefCheckState)
    (node : Addr) : Option RefCheckState :=
  let s1 := refInferPerm J X st node true
  let s2 := (X.iTypeTypeCheck s1 (.regionOf node)).2
  let bad : Option Bool :=
    if (s2.env.heap node).region ≠ s2.env.borrowRef then
      (iTypeGetTypeDcl s2.env fuel (s2.env.heap node).region).map
        (fun d => decide ((s2.env.heap d).tag ≠ .StructTag))
    else some false
  match bad with
  | none => none
  | some b =>
    let s3 :=
      if b then
        s2.errorMsgNode (s2.env.heap node).region .ErrorInvType
          "Reference's region must be a struct type."
      else s2
    let s4 := (X.iTypeTypeCheck s3 (.permOf node)).2
    let r5 := X.iTypeTypeCheck s4 (.vtexpOf node)
    if r5.1 = 0 then some r5.2
    else
      match refAdoptInfections r5.2.env J fuel node with
      | none => none
      | some E2 =>
        let t := X.typetblFind { r5.2 with env := E2 } node
        some { t.2 with typeinfo := fun a => if a = node then t.1 else t.2.typeinfo a }

/-- `refvirtTypeCheck(pstate, node)`: type check of a virtual reference
node. -/
def refvirtTypeCheck (J : JoinEnv) (X : RefCheckEnv) (fuel : Nat) (st : RefCheckState)
    (node : Addr) : Option RefCheckState :=
  let s1 := refInferPerm J X st node false
  let s2 := (X.iTypeTypeCheck s1 (.regionOf node)).2
  let s4 := (X.iTypeTypeCheck s2 (.permOf node)).2
  let r5 := X.iTypeTypeCheck s4 (.vtexpOf node)
  if r5.1 = 0 then some r5.2
  else
    match refAdoptInfections r5.2.env J fuel node with
    | none => none
    | some E2 =>
      match iTypeGetTypeDcl E2 fuel (E2.heap node).vtexp with
      | none => none
      | some trait =>
        if (E2.heap trait).tag ≠ .StructTag then
          some (RefCheckState.errorMsgNode { r5.2 with env := E2 } node .ErrorInvType
            "A virtual reference must be to a struct or trait.")
        else some (X.structMakeVtable { r5.2 with env := E2 } trait)

/-- The sample type graph with two references whose region is `i32` (`48`),
not a struct: the plain reference `248` to `i32` and the virtual reference
`256` to `Shape`; no error, no `typeinfo`. -/
def sampleRefCheck : RefCheckState :=
  { env := { sampleEnv with
      heap := fun a =>
        if a = 248 then refNode .RefTag 48 24 48
        else if a = 256 then refNode .VirtRefTag 48 24 40
        else sampleHeap a }
    errors := []
    typeinfo := fun _ => 0 }

/-- Sample collaborators of the type check of references: a use of a
permission is the permission itself, every type checks and is left as it is,
the type table gives node `0`, and building a vtable changes nothing. -/
def sampleRefCheckEnv : RefCheckEnv :=
  { opaqPerm := 228
    uniPerm := 236
    newPermUseNode := fun st p => (p, st)
    iTypeTypeCheck := fun st _ => (1, st)
    typetblFind := fun st _ => (0, st)
    structMakeVtable := fun st _ => st }

/-! ## Cloning

`cloneNode` of `ir/clone.c` and `cloneFnDclNode` of `ir/stmt/fndcl.c`.  The
nodes are those of the type check; the `instnode` field of every node is kept
beside them. -/

/-- The field of `CloneState` that cloning reads. -/
structure CloneState where
  instnode : Addr

/-- The nodes with their allocator, and `instnode` of every node. -/
structure CloneHeap where
  tc : TcState
  instnode : Addr → Addr

/-- The state with one node replaced. -/
def CloneHeap.setNode (st : CloneHeap) (a : Addr) (n : IrNode) : CloneHeap :=
  { st with tc := { st.tc with nodes := fun b => if b = a then n else st.tc.nodes b } }

/-- The state with `instnode` of a node set. -/
def CloneHeap.setInstnode (st : CloneHeap) (a inst : Addr) : CloneHeap :=
  { st with instnode := fun b => if b = a then inst else st.instnode b }

/-- Modelled from the spec: `memAllocBlk` is absent from the sources.
`memAllocBlk` followed by `memcpy` of the node `old` gives a new node at the
next free address with every field of `old`, `instnode` included. -/
def CloneHeap.allocCopy (st : CloneHeap) (old : Addr) : Addr × CloneHeap :=
  (st.tc.next,
   { tc := (st.tc.alloc (st.tc.nodes old)).2
     instnode := fun b => if b = st.tc.next then st.instnode old else st.instnode b })

/-- What cloning uses without defining it: the tags `AllocateTag`,
`AssignTag`, `FLitTag` and `StringLitTag`, the clone functions of the node
kinds (`none` when one stops at an assertion), and `cloneDclPush` and
`cloneDclPop`. -/
structure CloneEnv where
  AllocateTag : IrTag
  AssignTag : IrTag
  FLitTag : IrTag
  StringLitTag : IrTag
  cloneAllocateNode : CloneState → CloneHeap → Addr → Option (Addr × CloneHeap)
  cloneAssignNode : CloneState → CloneHeap → Addr → Option (Addr × CloneHeap)
  cloneBlockNode : CloneState → CloneHeap → Addr → Option (Addr × CloneHeap)
  cloneULitNode : CloneHeap → Addr → Option (Addr × CloneHeap)
  cloneFLitNode : CloneHeap → Addr → Option (Addr × CloneHeap)
  cloneSLitNode : CloneHeap → Addr → Option (Addr × CloneHeap)
  cloneDclPush : CloneHeap → Nat × CloneHeap
  cloneDclPop : CloneHeap → Nat → CloneHeap

/-- The tag is one of the six kinds `cloneNode` has a case for. -/
def CloneEnv.handles (X : CloneEnv) (tag : IrTag) : Prop :=
  tag = X.AllocateTag ∨ tag = X.AssignTag ∨ tag = .BlockTag ∨ tag = .ULitTag ∨
    tag = X.FLitTag ∨ tag = X.StringLitTag

instance CloneEnv.handles.decide (X : CloneEnv) (tag : IrTag) : Decidable (X.handles tag) :=
  inferInstanceAs (Decidable (_ ∨ _))

/-- `cloneNode(cstate, nodep)`: a deep copy of a node, stamped with the
`instnode` of the clone state.  `none` at the assertion of the `default`
case. -/
def cloneNode (X : CloneEnv) (cs : CloneState) (st : CloneHeap) (nodep : Addr) :
    Option (Addr × CloneHeap) :=
  let tag := (st.tc.nodes nodep).tag
  let node : Option (Addr × CloneHeap) :=
    if tag = X.AllocateTag then X.cloneAllocateNode cs st nodep
    else if tag = X.AssignTag then X.cloneAssignNode cs st nodep
    else if tag = .BlockTag then X.cloneBlockNode cs st nodep
    else if tag = .ULitTag then X.cloneULitNode st nodep
    else if tag = X.FLitTag then X.cloneFLitNode st nodep
    else if tag = X.StringLitTag then X.cloneSLitNode st nodep
    else none
  node.map (fun r => (r.1, r.2.setInstnode r.1 cs.instnode))

/-- The start of `cloneFnDclNode`: a new node gets every field of the old
declaration, then its `genericinfo` and `nextnode` are cleared. -/
def cloneFnDclCopy (st : CloneHeap) (oldfn : Addr) : Addr × CloneHeap :=
  let a := st.allocCopy oldfn
  (a.1, a.2.setNode a.1
    { a.2.tc.nodes a.1 with genericinfo := nullAddr, nextnode := nullAddr })

/-- `cloneFnDclNode(cstate, oldfn)`: a clone of a function declaration. -/
def cloneFnDclNode (X : CloneEnv) (cs : CloneState) (st : CloneHeap) (oldfn : Addr) :
    Option (Addr × CloneHeap) :=
  let p := X.cloneDclPush st
  let c := cloneFnDclCopy p.2 oldfn
  match cloneNode X cs c.2 (c.2.tc.nodes oldfn).vtype with
  | none => none
  | some (v, s3) =>
    let s4 := s3.setNode c.1 { s3.tc.nodes c.1 with vtype := v }
    match cloneNode X cs s4 (s4.tc.nodes oldfn).value with
    | none => none
    | some (b, s5) =>
      some (c.1, X.cloneDclPop (s5.setNode c.1 { s5.tc.nodes c.1 with value := b }) p.1)

/-- The sample nodes as a clone heap, with `instnode` null everywhere, and a
declaration node `776` that has the literal `600` in the place of its
signature and the literal `636` as its value. -/
def sampleCloneHeap : CloneHeap :=
  { tc := { sampleTc with
      nodes := fun a =>
        if a = 776 then { tag := .FnDclTag, flags := 8, vtype := 600, value := 636,
                          genericinfo := 752, nextnode := 728, namesym := 808 }
        else sampleTcNodes a }
    instnode := fun _ => 0 }

/-- Sample collaborators of cloning: the four tags are `OtherTag 10` to
`OtherTag 13`; a literal is cloned by copying it; the other clone functions
stop; the stack of declarations is not modelled. -/
def sampleCloneEnv : CloneEnv :=
  { AllocateTag := .OtherTag 10
    AssignTag := .OtherTag 11
    FLitTag := .OtherTag 12
    StringLitTag := .OtherTag 13
    cloneAllocateNode := fun _ _ _ => none
    cloneAssignNode := fun _ _ _ => none
    cloneBlockNode := fun _ _ _ => none
    cloneULitNode := fun st n => some (st.allocCopy n)
    cloneFLitNode := fun _ _ => none
    cloneSLitNode := fun _ _ => none
    cloneDclPush := fun st => (0, st)
    cloneDclPop := fun st _ => st }

/-! ## Passes over the syntax tree

`ast/module.c` and `ast/copyexpr.c`: `modPass` over a module and `fnCallPass`
over a function call.  The nodes of the tree are kept with the fields the two
passes read; the fields used for hooking are those of `HookState`. -/

/-- Node kinds tested or set by the two passes; every other kind is an
`OtherNode`. -/
inductive AstType where
  | VarNameDclNode
  | VtypeNameDclNode
  | VarNameUseNode
  | FieldNameUseNode
  | FnSig
  | OtherNode (n : Nat)
  deriving DecidableEq

/-- The passes of `pstate->pass` that the two functions test. -/
inductive AstPassKind where
  | NameResolution
  | TypeCheck
  | OtherPass (n : Nat)
  deriving DecidableEq

/-- Error codes given to `errorMsgNode` by the passes over the tree. -/
inductive AstErrorCode where
  | ErrorNoMeth
  | ErrorNotFn
  | ErrorManyArgs
  | ErrorFewArgs
  | ErrorInvType
  | ErrorOther (n : Nat)
  deriving DecidableEq

/-- One call of `errorMsgNode(node, code, msg, ...)`; `msg` is the format. -/
structure AstErrorMsg where
  node : Addr
  code : AstErrorCode
  msg : String
  deriving DecidableEq

/-- The fields of a node of the tree that the two passes read or write:
`namesym`, `vtype`, `perm` and `value` of a declaration, `dclnode` of a name
use, `fn` and the arguments `parms` of a call, the parameter declarations
`parms` and `rettype` of a signature, `methods` of a type, and the `nodes` of
a module. -/
structure AstNode where
  asttype : AstType := .OtherNode 0
  namesym : Addr := 0
  vtype : Addr := 0
  perm : Addr := 0
  value : Addr := 0
  dclnode : Addr := 0
  fn : Addr := 0
  parms : List Addr := []
  rettype : Addr := 0
  methods : List Addr := []
  nodes : List Addr := []
  deriving DecidableEq

/-- The state of a pass: the nodes, the hooks and symbols, the errors reported
so far (oldest first; the global `errors` is their number) and the pass. -/
structure AstState where
  ast : Addr → AstNode
  hooks : HookState
  errors : List AstErrorMsg
  pass : AstPassKind

/-- A place holding a node pointer: argument `i` of a call, or its `fn`
field. -/
inductive AstSlot where
  | argOf (call : Addr) (i : Nat)
  | fnOf (call : Addr)
  deriving DecidableEq

/-- The node pointer in a slot; `none` past the end of a node list. -/
def AstState.read (st : AstState) : AstSlot → Option Addr
  | .argOf call i => (st.ast call).parms.get? i
  | .fnOf call => some (st.ast call).fn

/-- `errorMsgNode`: record an error at a node. -/
def AstState.errorMsgNode (st : AstState) (node : Addr) (code : AstErrorCode) (msg : String) :
    AstState :=
  { st with errors := st.errors ++ [{ node := node, code := code, msg := msg }] }

/-- The state with one node of the tree replaced. -/
def AstState.setNode (st : AstState) (a : Addr) (n : AstNode) : AstState :=
  { st with ast := fun b => if b = a then n else st.ast b }

/-- What the two passes use without defining it.  Functions that return a C
`int` give it as a number. -/
structure AstEnv where
  astPass : AstState → Addr → AstState
  derefAuto : AstState → AstSlot → AstState
  typeGetVtype : AstState → Addr → Addr
  typeCoerces : AstState → Addr → AstSlot → Nat × AstState

/-- `handleCopy(pstate, node)`: does nothing. -/
def handleCopy (st : AstState) (_node : Addr) : AstState := st

/-- The first loop of `modPass`: `cnt` nodes of the module are left and the
next is node `i`.  In name resolution a declaration of a variable or of a type
is hooked; the permission and the type of a variable are passed over. -/
def modPassHookLoop (X : AstEnv) (mod : Addr) : Nat → Nat → AstState → Option AstState
  | 0, _, st => some st
  | cnt + 1, i, st =>
    match (st.ast mod).nodes.get? i with
    | none => none
    | some n =>
      let s1 :=
        if st.pass = .NameResolution ∧
            ((st.ast n).asttype = .VarNameDclNode ∨ (st.ast n).asttype = .VtypeNameDclNode) then
          { st with hooks := namespaceHook st.hooks n (st.hooks.nodes n).namesym }
        else st
      let s2 :=
        if (s1.ast n).asttype = .VarNameDclNode then
          let s := X.astPass s1 (s1.ast n).perm
          X.astPass s (s.ast n).vtype
        else s1
      modPassHookLoop X mod cnt (i + 1) s2

/-- The second loop of `modPass`: every node of the module is passed over. -/
def modPassLoop (X : AstEnv) (mod : Addr) : Nat → Nat → AstState → Option AstState
  | 0, _, st => some st
  | cnt + 1, i, st =>
    match (st.ast mod).nodes.get? i with
    | none => none
    | some n => modPassLoop X mod cnt (i + 1) (X.astPass st n)

/-- `modPass(pstate, mod)`: the pass over a module. -/
def modPass (X : AstEnv) (fuel : Nat) (st : AstState) (mod : Addr) : Option AstState :=
  let s0 :=
    if st.pass = .NameResolution ∧ (st.hooks.nodes mod).owner ≠ nullAddr then
      { st with hooks := namespaceHook st.hooks mod (st.hooks.nodes mod).namesym }
    else st
  match modPassHookLoop X mod (s0.ast mod).nodes.length 0 s0 with
  | none => none
  | some s1 =>
    if s1.errors.length ≠ 0 then some s1
    else
      match modPassLoop X mod (s1.ast mod).nodes.length 0 s1 with
      | none => none
      | some s2 =>
        if s2.pass = .NameResolution then
          (namespaceUnhook fuel s2.hooks mod).map (fun h => { s2 with hooks := h })
        else some s2

/-- The value of an `int` that is given a `uint32_t`. -/
def asInt32 (x : Nat) : Int :=
  if x % 2 ^ 32 < 2 ^ 31 then ((x % 2 ^ 32 : Nat) : Int)
  else ((x % 2 ^ 32 : Nat) : Int) - 2 ^ 32

/-- `nodesAdd(&node->parms, arg)`: the argument is added at the end of the
arguments of the call. -/
def AstState.nodesAdd (st : AstState) (call arg : Addr) : AstState :=
  st.setNode call { st.ast call with parms := (st.ast call).parms ++ [arg] }

/-- The first loop of `fnCallPass`: every argument is passed over. -/
def fnCallArgsPassLoop (X : AstEnv) (node : Addr) : Nat → Nat → AstState → Option AstState
  | 0, _, st => some st
  | cnt + 1, i, st =>
    match st.read (.argOf node i) with
    | none => none
    | some arg => fnCallArgsPassLoop X node cnt (i + 1) (X.astPass st arg)

/-- The loop over the methods of the type of the first argument: the first
method with the name `methsym`, `none` for `NULL`. -/
def fnCallFindMethod (st : AstState) (methsym : Addr) : List Addr → Option Addr
  | [] => none
  | meth :: rest =>
    if (st.ast meth).namesym = methsym then some meth
    else fnCallFindMethod st methsym rest

/-- The first part of the type check in `fnCallPass`: a callee that is a field
name is looked up among the methods of the type of the first argument and
becomes a use of that method.  The result says whether the check goes on
(`false` after the early return) and gives the state. -/
def fnCallResolve (X : AstEnv) (st : AstState) (node : Addr) : Option (Bool × AstState) :=
  if (st.ast (st.ast node).fn).asttype = .FieldNameUseNode then
    let methname := (st.ast node).fn
    let methsym := (st.ast methname).namesym
    let s1 := X.derefAuto st (.argOf node 0)
    match s1.read (.argOf node 0) with
    | none => none
    | some firstarg =>
      let s2 := X.astPass s1 firstarg
      match fnCallFindMethod s2 methsym (s2.ast (X.typeGetVtype s2 firstarg)).methods with
      | some method =>
        let s3 := s2.setNode methname { s2.ast methname with asttype := .VarNameUseNode }
        let s4 := s3.setNode methname { s3.ast methname with dclnode := method }
        some (true, s4.setNode methname
          { s4.ast methname with vtype := (s4.ast (s4.ast methname).dclnode).vtype })
      | none =>
        some (false, s2.errorMsgNode node .ErrorNoMeth
          "The method `%s` is not defined by the object's type.")
  else some (true, X.derefAuto st (.fnOf node))

/-- The loop that checks the arguments against the parameters: `cnt`
arguments are left, the next is argument `i` and `parmp` stands at parameter
`i`. -/
def fnCallCoerceLoop (X : AstEnv) (node fnsig : Addr) : Nat → Nat → AstState → Option AstState
  | 0, _, st => some st
  | cnt + 1, i, st =>
    match (st.ast fnsig).parms.get? i with
    | none => none
    | some parm =>
      let r := X.typeCoerces st parm (.argOf node i)
      match r.2.read (.argOf node i) with
      | none => none
      | some arg =>
        fnCallCoerceLoop X node fnsig cnt (i + 1)
          (if r.1 = 0 then
            r.2.errorMsgNode arg .ErrorInvType
              "Expression's type does not match declared parameter"
          else handleCopy r.2 arg)

/-- The loop `while (argsunder--)`: the value of parameter `k` is added to the
arguments, `argsunder` times. -/
def fnCallDefaultsLoop (node fnsig : Addr) : Nat → Nat → AstState → Option AstState
  | 0, _, st => some st
  | argsunder + 1, k, st =>
    match (st.ast fnsig).parms.get? k with
    | none => none
    | some parm =>
      fnCallDefaultsLoop node fnsig argsunder (k + 1) (st.nodesAdd node (st.ast parm).value)

/-- The second part of the type check in `fnCallPass`: the callee has to be a
function, and the arguments are checked against its parameters. -/
def fnCallArgs (X : AstEnv) (st : AstState) (node : Addr) : Option AstState :=
  let fnsig := X.typeGetVtype st (st.ast node).fn
  if (st.ast fnsig).asttype = .FnSig then
    let s1 := st.setNode node { st.ast node with vtype := (st.ast fnsig).rettype }
    let argsunder := asInt32 ((s1.ast fnsig).parms.length + 2 ^ 32 - (s1.ast node).parms.length)
    if argsunder < 0 then
      some (s1.errorMsgNode node .ErrorManyArgs
        "Too many arguments specified vs. function declaration")
    else
      match fnCallCoerceLoop X node fnsig (s1.ast node).parms.length 0 s1 with
      | none => none
      | some s2 =>
        if argsunder > 0 then
          match (s2.ast fnsig).parms.get? (s1.ast node).parms.length with
          | none => none
          | some parm =>
            if (s2.ast parm).value = nullAddr then
              some (s2.errorMsgNode node .ErrorFewArgs
                "Function call requires more arguments than specified")
            else fnCallDefaultsLoop node fnsig argsunder.toNat (s1.ast node).parms.length s2
        else some s2
  else
    some (st.errorMsgNode (st.ast node).fn .ErrorNotFn
      "Cannot call a value that is not a function")

/-- `fnCallPass(pstate, node)`: the pass over a function call. -/
def fnCallPass (X : AstEnv) (st : AstState) (node : Addr) : Option AstState :=
  match fnCallArgsPassLoop X node (st.ast node).parms.length 0 st with
  | none => none
  | some s1 =>
    let s2 := X.astPass s1 (s1.ast node).fn
    if s2.pass = .TypeCheck then
      match fnCallResolve X s2 node with
      | none => none
      | some (false, s3) => some s3
      | some (true, s3) => fnCallArgs X s3 node
    else some s2

/-- The sample tree.
Modules: `900` with the declarations `904` of `x`, whose type `924` does not
resolve, and `908` of `y`; `940` with the declarations `944` of `x` and `948` of
`y`, which resolve.
A type `1100` with the methods `1104` (`area`), `1108` (`len`) and `1112` (a
second `len`); the variable use `1138` of that type; the call `1130` of the
field name `1134` (`len`) and the call `1170` of the field name `1174`
(`nope`), both on `1138`.
Signatures: `1200` with the parameters `1204` (`x`), `1208` (`y`, default
`1230`) and `1212` (`z`, no default); `1240` with `1204`, `1208` and `1216`
(`w`, default `1234`).  `1220` and `1244` are uses of functions with these
signatures; `1224` and `1248` call them with the one argument `1228`. -/
def sampleAstNodes (a : Addr) : AstNode :=
  if a = 900 then { nodes := [904, 908] }
  else if a = 904 then { asttype := .VarNameDclNode, namesym := 950, vtype := 924 }
  else if a = 908 then { asttype := .VarNameDclNode, namesym := 954, vtype := 928 }
  else if a = 940 then { nodes := [944, 948] }
  else if a = 944 then { asttype := .VarNameDclNode, namesym := 950, vtype := 928 }
  else if a = 948 then { asttype := .VarNameDclNode, namesym := 954, vtype := 928 }
  else if a = 1100 then { methods := [1104, 1108, 1112] }
  else if a = 1104 then { asttype := .VarNameDclNode, namesym := 1150, vtype := 1116 }
  else if a = 1108 then { asttype := .VarNameDclNode, namesym := 1154, vtype := 1120 }
  else if a = 1112 then { asttype := .VarNameDclNode, namesym := 1154, vtype := 1124 }
  else if a = 1120 then { asttype := .FnSig, parms := [1140], rettype := 1160 }
  else if a = 1124 then { asttype := .FnSig, parms := [1140], rettype := 1164 }
  else if a = 1130 then { fn := 1134, parms := [1138] }
  else if a = 1134 then { asttype := .FieldNameUseNode, namesym := 1154 }
  else if a = 1138 then { asttype := .VarNameUseNode, vtype := 1100 }
  else if a = 1170 then { fn := 1174, parms := [1138] }
  else if a = 1174 then { asttype := .FieldNameUseNode, namesym := 1158 }
  else if a = 1200 then { asttype := .FnSig, parms := [1204, 1208, 1212], rettype := 1160 }
  else if a = 1204 then { asttype := .VarNameDclNode, namesym := 1250 }
  else if a = 1208 then { asttype := .VarNameDclNode, namesym := 1254, value := 1230 }
  else if a = 1212 then { asttype := .VarNameDclNode, namesym := 1258 }
  else if a = 1216 then { asttype := .VarNameDclNode, namesym := 1262, value := 1234 }
  else if a = 1220 then { asttype := .VarNameUseNode, vtype := 1200 }
  else if a = 1224 then { fn := 1220, parms := [1228] }
  else if a = 1240 then { asttype := .FnSig, parms := [1204, 1208, 1216], rettype := 1160 }
  else if a = 1244 then { asttype := .VarNameUseNode, vtype := 1240 }
  else if a = 1248 then { fn := 1244, parms := [1228] }
  else { }

/-- The hooks of the sample tree: the declarations of the two modules with
their symbols and owners; before the modules are entered `x` (`950`) names the
node `916` and `y` (`954`) nothing. -/
def sampleAstHooks : HookState :=
  { nodes := fun a =>
      if a = 904 then { namesym := 950, owner := 900 }
      else if a = 908 then { namesym := 954, owner := 900 }
      else if a = 944 then { namesym := 950, owner := 940 }
      else if a = 948 then { namesym := 954, owner := 940 }
      else { }
    syms := fun s => if s = 950 then 916 else 0 }

/-- The sample state of a pass, with no error. -/
def sampleAst (pass : AstPassKind) : AstState :=
  { ast := sampleAstNodes, hooks := sampleAstHooks, errors := [], pass := pass }

/-- Sample collaborators of the passes: the pass over the type `924` reports
that it does not resolve and every other node is left as it is; nothing is
dereferenced; the type of a node is its `vtype`; every argument coerces. -/
def sampleAstEnv : AstEnv :=
  { astPass := fun st n =>
      if n = 924 then st.errorMsgNode 924 (.ErrorOther 1) "The name does not refer to a type"
      else st
    derefAuto := fun st _ => st
    typeGetVtype := fun st n => (st.ast n).vtype
    typeCoerces := fun st _ _ => (1, st) }

/-! ## Name resolution of a function declaration

`fnDclNameRes` of `ir/stmt/fndcl.c`.  The name table belongs to files that
are not modelled; `names` and `hooked` stand for it and only the collaborators
read and write them.  `calls` is a record of the calls `fnDclNameRes` itself
makes to the name table and to `inodeNameRes`, oldest first. -/

/-- A place holding a node pointer in name resolution: element `i` of the
`parms` of a node, or the `vtype` or `value` field of a declaration. -/
inductive NameResSlot where
  | parmOf (list : Addr) (i : Nat)
  | vtypeOf (node : Addr)
  | valueOf (node : Addr)
  deriving DecidableEq

/-- A call made by `fnDclNameRes`: `nametblHookPush()`, `nametblHookPop()`,
`nametblHookNode(namesym, node)`, or `inodeNameRes` of a slot, with the scope
of the resolver at the call. -/
inductive NameResCall where
  | hookPush
  | hookPop
  | hookNode (namesym node : Addr)
  | nameRes (slot : NameResSlot) (scope : Nat)
  deriving DecidableEq

/-- The state of name resolution: the nodes, `scope` of `NameResState`, the
name table (`names`: the node of every name; `hooked`: for every open context
the names hooked in it with the nodes they had), and the record of calls. -/
structure NameResState where
  nodes : Addr → IrNode
  scope : Nat
  names : Addr → Addr
  hooked : List (List (Addr × Addr))
  calls : List NameResCall

/-- What `fnDclNameRes` calls in other files. -/
structure NameResEnv where
  inodeNameRes : NameResState → NameResSlot → NameResState
  nametblHookPush : NameResState → NameResState
  nametblHookNode : NameResState → Addr → Addr → NameResState
  nametblHookPop : NameResState → NameResState

/-- The state after a call, with the call added to the record. -/
def NameResState.logged (st : NameResState) (c : NameResCall) (after : NameResState) :
    NameResState :=
  { after with calls := st.calls ++ [c] }

/-- The loop that resolves the names in the generic parameters: `cnt`
parameters of the node `list` are left and the next is parameter `i`. -/
def fnDclNameResParms (X : NameResEnv) (list : Addr) :
    Nat → Nat → NameResState → Option NameResState
  | 0, _, st => some st
  | cnt + 1, i, st =>
    match (st.nodes list).parms.get? i with
    | none => none
    | some _ =>
      fnDclNameResParms X list cnt (i + 1)
        (st.logged (.nameRes (.parmOf list i) st.scope) (X.inodeNameRes st (.parmOf list i)))

/-- The loop that hooks parameters: `cnt` parameters of the node `list` are
left and the next is parameter `i`, hooked under its own name. -/
def fnDclHookParms (X : NameResEnv) (list : Addr) :
    Nat → Nat → NameResState → Option NameResState
  | 0, _, st => some st
  | cnt + 1, i, st =>
    match (st.nodes list).parms.get? i with
    | none => none
    | some p =>
      fnDclHookParms X list cnt (i + 1)
        (st.logged (.hookNode (st.nodes p).namesym p)
          (X.nametblHookNode st (st.nodes p).namesym p))

/-- `fnDclNameRes(nstate, fndclnode)`: resolves all names in a function. -/
def fnDclNameRes (X : NameResEnv) (st : NameResState) (fn : Addr) : Option NameResState :=
  let resolved : Option NameResState :=
    if (st.nodes fn).genericinfo ≠ nullAddr then
      fnDclNameResParms X (st.nodes fn).genericinfo
        (st.nodes (st.nodes fn).genericinfo).parms.length 0 st
    else some st
  match resolved with
  | none => none
  | some s1 =>
    let s2 := s1.logged .hookPush (X.nametblHookPush s1)
    let hooked : Option NameResState :=
      if (s2.nodes fn).genericinfo ≠ nullAddr then
        fnDclHookParms X (s2.nodes fn).genericinfo
          (s2.nodes (s2.nodes fn).genericinfo).parms.length 0 s2
      else some s2
    match hooked with
    | none => none
    | some s3 =>
      let s4 := s3.logged (.nameRes (.vtypeOf fn) s3.scope) (X.inodeNameRes s3 (.vtypeOf fn))
      if (s4.nodes fn).value ≠ nullAddr then
        let oldscope := s4.scope
        let s5 := { s4 with scope := 1 }
        match fnDclHookParms X (s5.nodes fn).vtype
            (s5.nodes (s5.nodes fn).vtype).parms.length 0 s5 with
        | none => none
        | some s6 =>
          let s7 := s6.logged (.nameRes (.valueOf fn) s6.scope) (X.inodeNameRes s6 (.valueOf fn))
          let s8 := { s7 with scope := oldscope }
          some (s8.logged .hookPop (X.nametblHookPop s8))
      else some (s4.logged .hookPop (X.nametblHookPop s4))

/-- A state has the scope of another, parameter lists of the same lengths and
the same `value` of the node `fn`. -/
def NameResState.keeps (fn : Addr) (s t : NameResState) : Prop :=
  t.scope = s.scope ∧ (∀ a, (t.nodes a).parms.length = (s.nodes a).parms.length) ∧
    (t.nodes fn).value = (s.nodes fn).value

/-- The collaborators of `fnDclNameRes` leave the scope of the resolver as it
was on their return, and leave the lengths of the parameter lists and the
`value` of the function. -/
def NameResEnv.wellBehaved (X : NameResEnv) (fn : Addr) : Prop :=
  (∀ s slot, NameResState.keeps fn s (X.inodeNameRes s slot)) ∧
  (∀ s, NameResState.keeps fn s (X.nametblHookPush s)) ∧
  (∀ s name node, NameResState.keeps fn s (X.nametblHookNode s name node)) ∧
  (∀ s, NameResState.keeps fn s (X.nametblHookPop s))

/-- The sample nodes in name resolution at scope `0`, with the generic
function `748` given the generic parameters `792` and `796` through its
generic info `752`; the name table is empty and no call has been made. -/
def sampleNameRes : NameResState :=
  { nodes := fun a =>
      if a = 752 then { parms := [792, 796] }
      else if a = 792 then { namesym := 812 }
      else if a = 796 then { namesym := 816 }
      else sampleTcNodes a
    scope := 0
    names := fun _ => 0
    hooked := []
    calls := [] }

/-- Sample collaborators of name resolution: resolving changes nothing; a push
opens a context, hooking a node saves the node of the name in the open context
and gives the name the node, a pop restores the names of the last context. -/
def sampleNameResEnv : NameResEnv :=
  { inodeNameRes := fun st _ => st
    nametblHookPush := fun st => { st with hooked := [] :: st.hooked }
    nametblHookNode := fun st name node =>
      { st with
        names := fun n => if n = name then node else st.names n
        hooked :=
          match st.hooked with
          | [] => []
          | ctx :: rest => ((name, st.names name) :: ctx) :: rest }
    nametblHookPop := fun st =>
      match st.hooked with
      | [] => st
      | ctx :: rest =>
        { st with
          names := ctx.foldl (fun f p => fun n => if n = p.1 then p.2 else f n) st.names
          hooked := rest } }

/-- The error that `fnDclTypeCheck` reports at a function for its self
parameter: `errorMsgNode((INode*)fnnode, ErrorInvType, ...)`. -/
def fnDclSelfError (fnnode : Addr) : ErrorMsg :=
  { node := fnnode, code := .ErrorInvType,
    msg := "self parameter for a method must match, or be a reference to, its type" }

/-- The functions that `fnDclTypeCheck` calls and that are not in the sources
(`iTypeTypeCheck`, `inodeTypeCheck`, `blockFlow`) neither report nor drop the
error `e`. -/
def TcEnv.keepsError (X : TcEnv) (e : ErrorMsg) : Prop :=
  (∀ s slot, e ∈ (X.iTypeTypeCheck s slot).errors ↔ e ∈ s.errors) ∧
  (∀ s slot t, e ∈ (X.inodeTypeCheck s slot t).errors ↔ e ∈ s.errors) ∧
  (∀ s fs slot, e ∈ (X.blockFlow s fs slot).errors ↔ e ∈ s.errors)

/-- What the argument check of `fnCallPass` needs of `typeCoerces`, which is
not in the sources: it leaves the node `a` as it is and keeps the length of
every list of arguments and of parameters (it may replace an argument). -/
def AstEnv.coerceKeeps (X : AstEnv) (a : Addr) : Prop :=
  ∀ s parm slot, (X.typeCoerces s parm slot).2.ast a = s.ast a ∧
    ∀ b, ((X.typeCoerces s parm slot).2.ast b).parms.length = (s.ast b).parms.length

/-! ## Type identity and matching -/

/-- C1: the matcher answers `EqMatch` for a typedef of a named type against
that type although `iTypeIsSame` answers 0 for the pair.  Node 120 is a
typedef whose value is a name use (112) of the struct 40: `iTypeGetTypeDcl`
returns the name use for the typedef, the matcher's `default` case resolves
it, `iTypeIsSame` compares the name use itself with the struct. -/
theorem iTypeMatches_eqMatch_typedef_not_same :
    iTypeGetTypeDcl sampleEnv 4 120 = some 112 ∧
    iTypeMatches sampleEnv 5 120 40 .Default = some .EqMatch ∧
    iTypeMatches sampleEnv 5 120 40 .Regref = some .EqMatch ∧
    iTypeMatches sampleEnv 5 120 40 .Monomorph = some .EqMatch ∧
    iTypeIsSame sampleEnv 5 120 40 = some false := by
  decide

/-- C2: a type matches itself with `EqMatch` under every constraint, once the
walk to its declaration ends; no amount of fuel gives another answer. -/
theorem iTypeMatches_self (E : Env) (fuel : Nat) (T d : Addr) (K : SubtypeConstraint)
    (hdcl : iTypeGetTypeDcl E fuel T = some d) :
    iTypeMatches E (fuel + 1) T T K = some .EqMatch ∧
    ∀ n r, iTypeMatches E n T T K = some r → r = .EqMatch := by
  constructor
  · simp [iTypeMatches, hdcl]
  · intro n r h
    cases n with
    | zero => simp [iTypeMatches] at h
    | succ n =>
      rw [iTypeMatches] at h
      cases hn : iTypeGetTypeDcl E n T with
      | none => simp [hn] at h
      | some d2 =>
        simp [hn] at h
        exact h.symm

/-- C2 at the typedef 120 and the constraint `Monomorph`. -/
theorem iTypeMatches_self_witness :
    iTypeMatches sampleEnv (4 + 1) 120 120 .Monomorph = some .EqMatch ∧
    ∀ n r, iTypeMatches sampleEnv n 120 120 .Monomorph = some r → r = .EqMatch :=
  iTypeMatches_self sampleEnv 4 120 112 .Monomorph (by decide)

/-- C3: two distinct pointer nodes `*i32` (96 and 104), and two distinct void
nodes (80 and 88), are the same at run time but hash differently: their tags
reach the `default` case of `iTypeHash`, which hashes the node address. -/
theorem iTypeHash_differs_on_run_same :
    iTypeIsRunSame sampleEnv 3 96 104 = some true ∧
    iTypeHash sampleEnv 3 96 = some 12 ∧
    iTypeHash sampleEnv 3 104 = some 13 ∧
    iTypeIsRunSame sampleEnv 3 80 88 = some true ∧
    iTypeHash sampleEnv 3 80 = some 10 ∧
    iTypeHash sampleEnv 3 88 = some 11 := by
  decide

/-- C4, as the code has it: with `to = &borrow imm *i32` (128) and
`from = &borrow imm &borrow imm i32` (136) the region and permission steps
give `EqMatch`, `imm` has the read flag only, and the referent match
`*i32 <- &i32` is `ConvSubtype`; the closing switch then answers `ConvSubtype`
under `Monomorph` and `NoMatch` under the other constraints. -/
theorem refMatches_conv_only_under_monomorph :
    regionMatches sampleEnv 3 (sampleEnv.heap 136).region (sampleEnv.heap 128).region .Monomorph
      = some .EqMatch ∧
    sampleEnv.permMatches (sampleEnv.heap 128).perm (sampleEnv.heap 136).perm = .EqMatch ∧
    sampleEnv.permGetFlags (sampleEnv.heap 128).perm &&&
      (sampleEnv.MayWrite ||| sampleEnv.MayRead) = sampleEnv.MayRead ∧
    iTypeMatches sampleEnv 3 (sampleEnv.heap 128).vtexp (sampleEnv.heap 136).vtexp .Regref
      = some .ConvSubtype ∧
    refMatches sampleEnv 4 128 136 .Monomorph = some .ConvSubtype ∧
    refMatches sampleEnv 4 128 136 .Default = some .NoMatch ∧
    refMatches sampleEnv 4 128 136 .Regref = some .NoMatch := by
  decide

/-- C5: the region step hands the regions to `regionMatches` in the order
`(from, to)`.  A borrow (56, 160) therefore matches an owned reference (64)
and an owned virtual reference (176) as a cast or conversion, and an owned
reference (64, 184) does not match a borrow (56, 152) of the same permission
and referent. -/
theorem region_step_swapped :
    (sampleEnv.heap 64).region ≠ sampleEnv.borrowRef ∧
    (sampleEnv.heap 56).region = sampleEnv.borrowRef ∧
    refMatches sampleEnv 4 64 56 .Default = some .CastSubtype ∧
    refMatches sampleEnv 4 56 64 .Default = some .NoMatch ∧
    (sampleEnv.heap 176).region ≠ sampleEnv.borrowRef ∧
    (sampleEnv.heap 160).region = sampleEnv.borrowRef ∧
    refvirtMatchesRef sampleEnv 4 176 160 .Default = some .ConvSubtype ∧
    refvirtMatchesRef sampleEnv 4 152 184 .Default = some .NoMatch ∧
    refvirtMatchesRef sampleEnv 4 152 160 .Default = some .ConvSubtype := by
  decide

/-- The permission step never turns a match into `NoMatch`. -/
theorem permStep_ne_noMatch (pm r : TypeCompare) (hr : r ≠ .NoMatch) :
    permStep pm r ≠ .NoMatch := by
  unfold permStep
  split <;> simp [hr]

/-- C6: once the region step gives a match `r` and the permissions match,
the flags of `to.perm` pick the referent comparison.  With `MayRead` only or
neither flag the referent result is `iTypeMatches(to.vtexp, from.vtexp,
Regref)`; with `MayWrite` only it is `iTypeMatches(from.vtexp, to.vtexp,
Regref)`; with both flags `refMatches` is the combined region and permission
result (itself a match) when `iTypeIsSame(to.vtexp, from.vtexp)` and `NoMatch`
when not. -/
theorem refMatches_referent_variance (E : Env) (fuel : Nat) (toN fromN : Addr)
    (K : SubtypeConstraint) (r : TypeCompare)
    (hregion : regionMatches E fuel (E.heap fromN).region (E.heap toN).region K = some r)
    (hr : r ≠ .NoMatch)
    (hperm : E.permMatches (E.heap toN).perm (E.heap fromN).perm ≠ .NoMatch)
    (hlabels : E.flagCasesDistinct) :
    permStep (E.permMatches (E.heap toN).perm (E.heap fromN).perm) r ≠ .NoMatch ∧
    ((E.permGetFlags (E.heap toN).perm &&& (E.MayWrite ||| E.MayRead) = 0 ∨
      E.permGetFlags (E.heap toN).perm &&& (E.MayWrite ||| E.MayRead) = E.MayRead) →
      refMatches E (fuel + 1) toN fromN K =
        (iTypeMatches E fuel (E.heap toN).vtexp (E.heap fromN).vtexp .Regref).map
          (fun m => refMatchResult m
            (permStep (E.permMatches (E.heap toN).perm (E.heap fromN).perm) r) K)) ∧
    (E.permGetFlags (E.heap toN).perm &&& (E.MayWrite ||| E.MayRead) = E.MayWrite →
      refMatches E (fuel + 1) toN fromN K =
        (iTypeMatches E fuel (E.heap fromN).vtexp (E.heap toN).vtexp .Regref).map
          (fun m => refMatchResult m
            (permStep (E.permMatches (E.heap toN).perm (E.heap fromN).perm) r) K)) ∧
    (E.permGetFlags (E.heap toN).perm &&& (E.MayWrite ||| E.MayRead)
        = E.MayRead ||| E.MayWrite →
      refMatches E (fuel + 1) toN fromN K =
        (iTypeIsSame E fuel (E.heap toN).vtexp (E.heap fromN).vtexp).map
          (fun same => if same then
            permStep (E.permMatches (E.heap toN).perm (E.heap fromN).perm) r
          else .NoMatch)) := by
  obtain ⟨hR, hW, hRW, hB0, hBR, hBW⟩ := hlabels
  refine ⟨permStep_ne_noMatch _ _ hr, ?_, ?_, ?_⟩
  · intro hsel
    rw [refMatches, hregion]
    cases r <;> first | exact absurd rfl hr | skip
    all_goals
      cases hpm : E.permMatches (E.heap toN).perm (E.heap fromN).perm <;>
        first | exact absurd hpm hperm | simp [hsel]
  · intro hsel
    rw [refMatches, hregion]
    cases r <;> first | exact absurd rfl hr | skip
    all_goals
      cases hpm : E.permMatches (E.heap toN).perm (E.heap fromN).perm <;>
        first | exact absurd hpm hperm | simp [hsel, hW, Ne.symm hRW]
  · intro hsel
    rw [refMatches, hregion]
    cases r <;> first | exact absurd rfl hr | skip
    all_goals
      cases hpm : E.permMatches (E.heap toN).perm (E.heap fromN).perm <;>
        first | exact absurd hpm hperm | simp [hsel, hB0, hBR, hBW]

/-- C6 on three pairs of borrows of `i32`: read-only `imm` (covariant),
the write-only permission 192 (contravariant), and `mut` (invariant). -/
theorem refMatches_referent_variance_witness :
    refMatches sampleEnv (3 + 1) 128 136 .Default =
      (iTypeMatches sampleEnv 3 (sampleEnv.heap 128).vtexp (sampleEnv.heap 136).vtexp
        .Regref).map
        (fun m => refMatchResult m
          (permStep (sampleEnv.permMatches (sampleEnv.heap 128).perm
            (sampleEnv.heap 136).perm) .EqMatch) .Default) ∧
    refMatches sampleEnv (3 + 1) 200 208 .Default =
      (iTypeMatches sampleEnv 3 (sampleEnv.heap 208).vtexp (sampleEnv.heap 200).vtexp
        .Regref).map
        (fun m => refMatchResult m
          (permStep (sampleEnv.permMatches (sampleEnv.heap 200).perm
            (sampleEnv.heap 208).perm) .EqMatch) .Default) ∧
    refMatches sampleEnv (3 + 1) 72 216 .Default =
      (iTypeIsSame sampleEnv 3 (sampleEnv.heap 72).vtexp (sampleEnv.heap 216).vtexp).map
        (fun same => if same then
          permStep (sampleEnv.permMatches (sampleEnv.heap 72).perm
            (sampleEnv.heap 216).perm) .EqMatch
        else .NoMatch) :=
  ⟨(refMatches_referent_variance sampleEnv 3 128 136 .Default .EqMatch (by decide)
      (by decide) (by decide) (by unfold Env.flagCasesDistinct; decide)).2.1 (by decide),
   (refMatches_referent_variance sampleEnv 3 200 208 .Default .EqMatch (by decide)
      (by decide) (by decide) (by unfold Env.flagCasesDistinct; decide)).2.2.1 (by decide),
   (refMatches_referent_variance sampleEnv 3 72 216 .Default .EqMatch (by decide)
      (by decide) (by decide) (by unfold Env.flagCasesDistinct; decide)).2.2.2 (by decide)⟩

/-- A reference never converts to a virtual reference under `Monomorph`. -/
theorem refvirtMatchesRef_monomorph (E : Env) (n : Nat) (toN fromN : Addr) :
    refvirtMatchesRef E n toN fromN .Monomorph ≠ some .ConvSubtype := by
  cases n with
  | zero => simp [refvirtMatchesRef]
  | succ n => simp [refvirtMatchesRef]

/-- C7, as the code has it: a raw pointer takes a reference as `ConvSubtype`
under `Monomorph` too, in an environment whose other matchers never answer
`ConvSubtype`. -/
theorem iTypeMatches_monomorph_gives_conv :
    sampleEnv.noConvUnderMonomorph ∧
    iTypeMatches sampleEnv 4 96 56 .Monomorph = some .ConvSubtype :=
  ⟨fun _ _ => by simp [sampleEnv], by decide⟩

/-- C7, amended: under `Monomorph`, for a pair that is not handed to
`refMatches` (not two references and not two virtual references),
`iTypeMatches` answers `ConvSubtype` only when `to` is a raw pointer and
`from` a reference or array reference with the same referent; every other
pair, a reference against a virtual reference included, gives `EqMatch`,
`CastSubtype` or `NoMatch`. -/
theorem iTypeMatches_monomorph_conv (E : Env) (fuel : Nat)
    (toType fromType toDcl fromDcl : Addr)
    (hext : E.noConvUnderMonomorph)
    (hto : iTypeGetTypeDcl E fuel toType = some toDcl)
    (hfrom : iTypeGetTypeDcl E fuel fromType = some fromDcl)
    (hnotref : ¬ ((E.heap toDcl).tag = (E.heap fromDcl).tag ∧
      ((E.heap toDcl).tag = .RefTag ∨ (E.heap toDcl).tag = .VirtRefTag)))
    (hconv : iTypeMatches E (fuel + 1) toType fromType .Monomorph = some .ConvSubtype) :
    (E.heap toDcl).tag = .PtrTag ∧
    ((E.heap fromDcl).tag = .RefTag ∨ (E.heap fromDcl).tag = .ArrayRefTag) ∧
    iTypeIsSame E fuel (E.heap fromDcl).vtexp (E.heap toDcl).vtexp = some true := by
  obtain ⟨h1, h2, h3, h4, h5, h6, h7⟩ := hext toDcl fromDcl
  rw [iTypeMatches, hto, hfrom] at hconv
  simp only at hconv
  split at hconv
  · simp at hconv
  · split at hconv
    all_goals try split_ifs at hconv
    all_goals try (simp at hconv; done)
    all_goals try exact absurd hconv (refvirtMatchesRef_monomorph E fuel toDcl fromDcl)
    all_goals try (injection hconv with hconv; contradiction)
    · rename_i htag hftag
      exact absurd ⟨htag.trans hftag.symm, Or.inl htag⟩ hnotref
    · rename_i htag hftag
      exact absurd ⟨htag.trans hftag.symm, Or.inr htag⟩ hnotref
    · rename_i htag hftag
      refine ⟨htag, hftag, ?_⟩
      cases hs : iTypeIsSame E fuel (E.heap fromDcl).vtexp (E.heap toDcl).vtexp with
      | none => simp [hs] at hconv
      | some b => cases b <;> simp [hs] at hconv ⊢

/-- C7 amended, at `*i32 <- &borrow imm i32`. -/
theorem iTypeMatches_monomorph_conv_witness :
    (sampleEnv.heap 96).tag = .PtrTag ∧
    ((sampleEnv.heap 56).tag = .RefTag ∨ (sampleEnv.heap 56).tag = .ArrayRefTag) ∧
    iTypeIsSame sampleEnv 3 (sampleEnv.heap 56).vtexp (sampleEnv.heap 96).vtexp = some true :=
  iTypeMatches_monomorph_conv sampleEnv 3 96 56 96 56
    (by intro a b; simp [sampleEnv]) (by decide) (by decide) (by decide) (by decide)

/-- Whatever the fuel, `refvirtMatchesRef` answers `ConvSubtype` or `NoMatch`. -/
theorem refvirtMatchesRef_conv_or_noMatch (E : Env) (n : Nat) (toN fromN : Addr)
    (K : SubtypeConstraint) (res : TypeCompare)
    (h : refvirtMatchesRef E n toN fromN K = some res) :
    res = .ConvSubtype ∨ res = .NoMatch := by
  cases n with
  | zero => simp [refvirtMatchesRef] at h
  | succ n =>
    rw [refvirtMatchesRef] at h
    repeat' split at h
    all_goals first
      | (injection h with h; subst h; simp)
      | (simp at h)

/-- The answer of `refvirtMatchesRef` as one chain of tests, once the region
step and the two walks to the referents' declarations have ended. -/
theorem refvirtMatchesRef_eq (E : Env) (fuel : Nat) (toN fromN : Addr)
    (K : SubtypeConstraint) (r : TypeCompare) (td fd : Addr)
    (hregion : regionMatches E fuel (E.heap fromN).region (E.heap toN).region K = some r)
    (htd : iTypeGetTypeDcl E fuel (E.heap toN).vtexp = some td)
    (hfd : iTypeGetTypeDcl E fuel (E.heap fromN).vtexp = some fd) :
    refvirtMatchesRef E (fuel + 1) toN fromN K = some (
      if K = .Monomorph then .NoMatch
      else if r = .NoMatch then .NoMatch
      else if E.permMatches (E.heap toN).perm (E.heap fromN).perm = .NoMatch then .NoMatch
      else if (E.heap td).tag ≠ .StructTag ∨ (E.heap fd).tag ≠ .StructTag then .NoMatch
      else if td = fd then
        (if (E.heap fd).flags &&& E.HasTagField ≠ 0 then .ConvSubtype else .NoMatch)
      else if E.structVirtRefMatches td fd = .NoMatch then .NoMatch
      else .ConvSubtype) := by
  rw [refvirtMatchesRef, hregion]
  by_cases hK : K = .Monomorph
  · simp [hK]
  · simp only [hK, if_false]
    cases r <;> simp only [if_true, reduceCtorEq, if_false] <;>
      cases hpm : E.permMatches (E.heap toN).perm (E.heap fromN).perm <;>
      simp only [htd, hfd, if_true, reduceCtorEq, if_false] <;>
      split_ifs <;> first
        | rfl
        | (cases hsv : E.structVirtRefMatches td fd <;> simp_all)

/-- C8: `refvirtMatchesRef` answers only `ConvSubtype` or `NoMatch`.  When the
region step and the walks to the declarations `td`, `fd` of the two referents
terminate, it returns a result `res`, which is `NoMatch` under `Monomorph`,
when the region step or the permission step is `NoMatch`, and when `td` or
`fd` is not a struct; for structs with `td = fd` it is `ConvSubtype` iff the
struct has `HasTagField`, and with `td ≠ fd` iff `structVirtRefMatches td fd`
is not `NoMatch`. -/
theorem refvirtMatchesRef_cases (E : Env) (fuel : Nat) (toN fromN : Addr)
    (K : SubtypeConstraint) (r : TypeCompare) (td fd : Addr)
    (hregion : regionMatches E fuel (E.heap fromN).region (E.heap toN).region K = some r)
    (htd : iTypeGetTypeDcl E fuel (E.heap toN).vtexp = some td)
    (hfd : iTypeGetTypeDcl E fuel (E.heap fromN).vtexp = some fd) :
    ∃ res, refvirtMatchesRef E (fuel + 1) toN fromN K = some res ∧
      (∀ n res2, refvirtMatchesRef E n toN fromN K = some res2 →
        res2 = .ConvSubtype ∨ res2 = .NoMatch) ∧
      (K = .Monomorph → res = .NoMatch) ∧
      (r = .NoMatch → res = .NoMatch) ∧
      (E.permMatches (E.heap toN).perm (E.heap fromN).perm = .NoMatch → res = .NoMatch) ∧
      ((E.heap td).tag ≠ .StructTag ∨ (E.heap fd).tag ≠ .StructTag → res = .NoMatch) ∧
      (K ≠ .Monomorph → r ≠ .NoMatch →
        E.permMatches (E.heap toN).perm (E.heap fromN).perm ≠ .NoMatch →
        (E.heap td).tag = .StructTag → (E.heap fd).tag = .StructTag →
        (td = fd → (res = .ConvSubtype ↔ (E.heap fd).flags &&& E.HasTagField ≠ 0)) ∧
        (td ≠ fd → (res = .ConvSubtype ↔ E.structVirtRefMatches td fd ≠ .NoMatch))) := by
  refine ⟨_, refvirtMatchesRef_eq E fuel toN fromN K r td fd hregion htd hfd,
    fun n res2 h => refvirtMatchesRef_conv_or_noMatch E n toN fromN K res2 h, ?_, ?_, ?_, ?_, ?_⟩
  · intro h; simp [h]
  · intro h; simp [h]
  · intro h; simp [h]
  · intro h
    split_ifs <;> rfl
  · intro hK hr hpm ht hf
    simp only [hK, hr, hpm, ht, hf, if_false, ne_eq, not_true_eq_false, or_self]
    constructor
    · intro hsame
      simp only [hsame, if_true]
      split_ifs <;> simp_all
    · intro hne
      simp only [hne, if_false]
      split_ifs <;> simp_all

/-- C8 at the virtual reference 152 to `Shape` and the reference 160 to
`Circle`. -/
theorem refvirtMatchesRef_cases_witness :
    ∃ res, refvirtMatchesRef sampleEnv (3 + 1) 152 160 .Default = some res ∧
      (∀ n res2, refvirtMatchesRef sampleEnv n 152 160 .Default = some res2 →
        res2 = .ConvSubtype ∨ res2 = .NoMatch) ∧
      (SubtypeConstraint.Default = .Monomorph → res = .NoMatch) ∧
      (TypeCompare.EqMatch = .NoMatch → res = .NoMatch) ∧
      (sampleEnv.permMatches (sampleEnv.heap 152).perm (sampleEnv.heap 160).perm = .NoMatch →
        res = .NoMatch) ∧
      ((sampleEnv.heap 40).tag ≠ .StructTag ∨ (sampleEnv.heap 144).tag ≠ .StructTag →
        res = .NoMatch) ∧
      (SubtypeConstraint.Default ≠ .Monomorph → TypeCompare.EqMatch ≠ .NoMatch →
        sampleEnv.permMatches (sampleEnv.heap 152).perm (sampleEnv.heap 160).perm ≠ .NoMatch →
        (sampleEnv.heap 40).tag = .StructTag → (sampleEnv.heap 144).tag = .StructTag →
        ((40 : Addr) = 144 →
          (res = .ConvSubtype ↔ (sampleEnv.heap 144).flags &&& sampleEnv.HasTagField ≠ 0)) ∧
        ((40 : Addr) ≠ 144 →
          (res = .ConvSubtype ↔ sampleEnv.structVirtRefMatches 40 144 ≠ .NoMatch))) :=
  refvirtMatchesRef_cases sampleEnv 3 152 160 .Default .EqMatch 40 144
    (by decide) (by decide) (by decide)

/-- The pointer case of `iTypeMatches` against a reference or array reference. -/
theorem iTypeMatches_ptr_eq (E : Env) (fuel : Nat) (toType fromType toDcl fromDcl : Addr)
    (K : SubtypeConstraint)
    (hto : iTypeGetTypeDcl E fuel toType = some toDcl)
    (hfrom : iTypeGetTypeDcl E fuel fromType = some fromDcl)
    (hptr : (E.heap toDcl).tag = .PtrTag)
    (href : (E.heap fromDcl).tag = .RefTag ∨ (E.heap fromDcl).tag = .ArrayRefTag) :
    iTypeMatches E (fuel + 1) toType fromType K =
      (iTypeIsSame E fuel (E.heap fromDcl).vtexp (E.heap toDcl).vtexp).map
        (fun same => if same then .ConvSubtype else .NoMatch) := by
  have hne : toDcl ≠ fromDcl := by
    intro h
    rw [h] at hptr
    rcases href with h1 | h1 <;> rw [h1] at hptr <;> cases hptr
  rw [iTypeMatches, hto, hfrom]
  simp only [hne, if_false, hptr, href, if_true]

/-- C9: for a raw pointer `to` and a `from` that is a reference or an array
reference, the answer is `ConvSubtype` when `iTypeIsSame(from.vtexp, to.vtexp)`
and `NoMatch` when not; any other reference or array reference with the same
referent gives the same answer, whatever its region, its permission and the
constraint. -/
theorem iTypeMatches_ptr_from_ref (E : Env) (fuel : Nat)
    (toType fromType toDcl fromDcl : Addr) (K : SubtypeConstraint)
    (hto : iTypeGetTypeDcl E fuel toType = some toDcl)
    (hfrom : iTypeGetTypeDcl E fuel fromType = some fromDcl)
    (hptr : (E.heap toDcl).tag = .PtrTag)
    (href : (E.heap fromDcl).tag = .RefTag ∨ (E.heap fromDcl).tag = .ArrayRefTag) :
    iTypeMatches E (fuel + 1) toType fromType K =
      (iTypeIsSame E fuel (E.heap fromDcl).vtexp (E.heap toDcl).vtexp).map
        (fun same => if same then .ConvSubtype else .NoMatch) ∧
    ∀ (fromType2 fromDcl2 : Addr) (K2 : SubtypeConstraint),
      iTypeGetTypeDcl E fuel fromType2 = some fromDcl2 →
      ((E.heap fromDcl2).tag = .RefTag ∨ (E.heap fromDcl2).tag = .ArrayRefTag) →
      (E.heap fromDcl2).vtexp = (E.heap fromDcl).vtexp →
      iTypeMatches E (fuel + 1) toType fromType2 K2 =
        iTypeMatches E (fuel + 1) toType fromType K := by
  refine ⟨iTypeMatches_ptr_eq E fuel toType fromType toDcl fromDcl K hto hfrom hptr href, ?_⟩
  intro fromType2 fromDcl2 K2 hfrom2 href2 hvt
  rw [iTypeMatches_ptr_eq E fuel toType fromType toDcl fromDcl K hto hfrom hptr href,
    iTypeMatches_ptr_eq E fuel toType fromType2 toDcl fromDcl2 K2 hto hfrom2 hptr href2, hvt]

/-- C9 at `*i32` (96): `&borrow imm i32` (56) converts, and `&so imm i32` (64)
and `&borrow mut i32` (72) give the same answer. -/
theorem iTypeMatches_ptr_from_ref_witness :
    iTypeMatches sampleEnv (3 + 1) 96 56 .Default = some .ConvSubtype ∧
    iTypeMatches sampleEnv (3 + 1) 96 64 .Monomorph =
      iTypeMatches sampleEnv (3 + 1) 96 56 .Default ∧
    iTypeMatches sampleEnv (3 + 1) 96 72 .Regref =
      iTypeMatches sampleEnv (3 + 1) 96 56 .Default :=
  ⟨(iTypeMatches_ptr_from_ref sampleEnv 3 96 56 96 56 .Default (by decide) (by decide)
      (by decide) (by decide)).1.trans (by decide),
   (iTypeMatches_ptr_from_ref sampleEnv 3 96 56 96 56 .Default (by decide) (by decide)
      (by decide) (by decide)).2 64 64 .Monomorph (by decide) (by decide) (by decide),
   (iTypeMatches_ptr_from_ref sampleEnv 3 96 56 96 56 .Default (by decide) (by decide)
      (by decide) (by decide)).2 72 72 .Regref (by decide) (by decide) (by decide)⟩

/-! ## Identity at run time -/

/-- A finished walk to the declaration is not changed by one more unit of fuel. -/
theorem iTypeGetTypeDcl_succ (E : Env) :
    ∀ (fuel : Nat) (node d : Addr),
      iTypeGetTypeDcl E fuel node = some d → iTypeGetTypeDcl E (fuel + 1) node = some d := by
  intro fuel
  induction fuel with
  | zero => intro node d h; simp [iTypeGetTypeDcl] at h
  | succ n ih =>
    intro node d h
    rw [iTypeGetTypeDcl] at h ⊢
    cases htag : (E.heap node).tag <;> simp only [htag] at h ⊢ <;>
      first | exact h | exact ih _ _ h

/-- A finished walk to the declaration is not changed by more fuel. -/
theorem iTypeGetTypeDcl_mono (E : Env) (fuel k : Nat) (node d : Addr) (hk : fuel ≤ k)
    (h : iTypeGetTypeDcl E fuel node = some d) : iTypeGetTypeDcl E k node = some d := by
  induction hk with
  | refl => exact h
  | step _ ih => exact iTypeGetTypeDcl_succ E _ node d ih

/-- A finished comparison is not changed by one more unit of fuel. -/
theorem iTypeIsSame_succ_aux (E : Env) :
    ∀ fuel : Nat,
      (∀ a b r, iTypeIsSame E fuel a b = some r → iTypeIsSame E (fuel + 1) a b = some r) ∧
      (∀ a b r, refIsSame E fuel a b = some r → refIsSame E (fuel + 1) a b = some r) := by
  intro fuel
  induction fuel with
  | zero =>
    constructor <;> intro a b r h
    · simp [iTypeIsSame] at h
    · simp [refIsSame] at h
  | succ n ih =>
    obtain ⟨ih1, ih2⟩ := ih
    constructor
    · intro a b r h
      rw [iTypeIsSame] at h
      cases h1 : iTypeGetTypeDcl E n a with
      | none => simp [h1] at h
      | some n1 =>
        cases h2 : iTypeGetTypeDcl E n b with
        | none => simp [h1, h2] at h
        | some n2 =>
          rw [iTypeIsSame, iTypeGetTypeDcl_succ E n a n1 h1, iTypeGetTypeDcl_succ E n b n2 h2]
          simp only [h1, h2] at h ⊢
          split_ifs at h ⊢
          · exact h
          · exact h
          · cases htag : (E.heap n1).tag <;> simp only [htag] at h ⊢ <;>
              first | exact h | exact ih2 _ _ _ h
    · intro a b r h
      rw [refIsSame] at h ⊢
      cases hv : iTypeIsSame E n (E.heap a).vtexp (E.heap b).vtexp with
      | none => simp [hv] at h
      | some bv =>
        rw [ih1 _ _ _ hv]
        cases bv
        · simp only [hv] at h ⊢; exact h
        · simp only [hv] at h ⊢
          split_ifs at h ⊢
          · exact ih1 _ _ _ h
          · exact h

/-- A finished `iTypeIsSame` is not changed by more fuel. -/
theorem iTypeIsSame_mono (E : Env) (fuel k : Nat) (a b : Addr) (r : Bool) (hk : fuel ≤ k)
    (h : iTypeIsSame E fuel a b = some r) : iTypeIsSame E k a b = some r := by
  induction hk with
  | refl => exact h
  | step _ ih => exact (iTypeIsSame_succ_aux E _).1 a b r ih

/-- A finished run-time comparison is not changed by one more unit of fuel. -/
theorem iTypeIsRunSame_succ_aux (E : Env) :
    ∀ fuel : Nat,
      (∀ a b r, iTypeIsRunSame E fuel a b = some r →
        iTypeIsRunSame E (fuel + 1) a b = some r) ∧
      (∀ a b r, refIsRunSame E fuel a b = some r →
        refIsRunSame E (fuel + 1) a b = some r) := by
  intro fuel
  induction fuel with
  | zero =>
    constructor <;> intro a b r h
    · simp [iTypeIsRunSame] at h
    · simp [refIsRunSame] at h
  | succ n ih =>
    obtain ⟨ih1, ih2⟩ := ih
    constructor
    · intro a b r h
      rw [iTypeIsRunSame] at h
      cases h1 : iTypeGetTypeDcl E n a with
      | none => simp [h1] at h
      | some n1 =>
        cases h2 : iTypeGetTypeDcl E n b with
        | none => simp [h1, h2] at h
        | some n2 =>
          rw [iTypeIsRunSame, iTypeGetTypeDcl_succ E n a n1 h1,
            iTypeGetTypeDcl_succ E n b n2 h2]
          simp only [h1, h2] at h ⊢
          split_ifs at h ⊢
          · exact h
          · exact h
          · cases htag : (E.heap n1).tag <;> simp only [htag] at h ⊢ <;>
              first | exact h | exact ih2 _ _ _ h
    · intro a b r h
      rw [refIsRunSame] at h ⊢
      cases hv : iTypeIsSame E n (E.heap a).vtexp (E.heap b).vtexp with
      | none => simp [hv] at h
      | some bv =>
        rw [(iTypeIsSame_succ_aux E n).1 _ _ _ hv]
        cases bv
        · simp only [hv] at h ⊢; exact h
        · simp only [hv] at h ⊢
          cases hp : iTypeIsRunSame E n (E.heap a).perm (E.heap b).perm with
          | none => simp [hp] at h
          | some bp =>
            rw [ih1 _ _ _ hp]
            cases bp
            · simp only [hp] at h ⊢; exact h
            · simp only [hp] at h ⊢; exact ih1 _ _ _ h

/-- A finished `iTypeIsRunSame` is not changed by more fuel. -/
theorem iTypeIsRunSame_mono (E : Env) (fuel k : Nat) (a b : Addr) (r : Bool) (hk : fuel ≤ k)
    (h : iTypeIsRunSame E fuel a b = some r) : iTypeIsRunSame E k a b = some r := by
  induction hk with
  | refl => exact h
  | step _ ih => exact (iTypeIsRunSame_succ_aux E _).1 a b r ih

/-- A finished `refIsRunSame` is not changed by more fuel. -/
theorem refIsRunSame_mono (E : Env) (fuel k : Nat) (a b : Addr) (r : Bool) (hk : fuel ≤ k)
    (h : refIsRunSame E fuel a b = some r) : refIsRunSame E k a b = some r := by
  induction hk with
  | refl => exact h
  | step _ ih => exact (iTypeIsRunSame_succ_aux E _).2 a b r ih

/-- Two permission nodes are the same at run time. -/
theorem iTypeIsRunSame_perm (E : Env) (k : Nat) (p q pd qd : Addr)
    (hp : iTypeGetTypeDcl E k p = some pd) (hq : iTypeGetTypeDcl E k q = some qd)
    (tp : (E.heap pd).tag = .PermTag) (tq : (E.heap qd).tag = .PermTag) :
    iTypeIsRunSame E (k + 1) p q = some true := by
  rw [iTypeIsRunSame, hp, hq]
  simp only [tp, tq, ne_eq, not_true_eq_false, if_false, ite_self]

/-- Building `refIsRunSame` from its three comparisons. -/
theorem refIsRunSame_intro (E : Env) (f1 f2 f3 : Nat) (n1 n2 : Addr)
    (hv : iTypeIsSame E f1 (E.heap n1).vtexp (E.heap n2).vtexp = some true)
    (hp : iTypeIsRunSame E f2 (E.heap n1).perm (E.heap n2).perm = some true)
    (hr : iTypeIsRunSame E f3 (E.heap n1).region (E.heap n2).region = some true) :
    refIsRunSame E (max f1 (max f2 f3) + 1) n1 n2 = some true := by
  rw [refIsRunSame,
    iTypeIsSame_mono E f1 _ _ _ true (le_max_left _ _) hv,
    iTypeIsRunSame_mono E f2 _ _ _ true
      (le_trans (le_max_left _ _) (le_max_right _ _)) hp,
    iTypeIsRunSame_mono E f3 _ _ _ true
      (le_trans (le_max_right _ _) (le_max_right _ _)) hr]

/-- Two distinct reference nodes of one kind are the same at run time when
`refIsRunSame` holds of them. -/
theorem iTypeIsRunSame_of_ref (E : Env) (n f : Nat) (a b n1 n2 : Addr)
    (h1 : iTypeGetTypeDcl E n a = some n1) (h2 : iTypeGetTypeDcl E n b = some n2)
    (htags : (E.heap n1).tag = (E.heap n2).tag)
    (hkind : (E.heap n1).tag = .RefTag ∨ (E.heap n1).tag = .VirtRefTag)
    (hrun : refIsRunSame E f n1 n2 = some true) :
    iTypeIsRunSame E (max n f + 1) a b = some true := by
  rw [iTypeIsRunSame, iTypeGetTypeDcl_mono E n _ a n1 (le_max_left _ _) h1,
    iTypeGetTypeDcl_mono E n _ b n2 (le_max_left _ _) h2]
  have hrun2 := refIsRunSame_mono E f (max n f) n1 n2 true (le_max_right _ _) hrun
  simp only [htags, ne_eq, not_true_eq_false, if_false]
  split_ifs
  · rfl
  · rcases hkind with hk | hk <;> rw [htags] at hk <;> simp only [hk] <;> exact hrun2

/-- Types that are the same are the same at run time. -/
theorem iTypeIsSame_imp_runSame_aux (E : Env)
    (hperm : ∀ p q, E.permIsSame p q = true →
      ∃ k pd qd, iTypeGetTypeDcl E k p = some pd ∧ iTypeGetTypeDcl E k q = some qd ∧
        (E.heap pd).tag = .PermTag ∧ (E.heap qd).tag = .PermTag)
    (harr : ∀ a b, E.arrayRefIsSame a b = true → E.arrayRefIsRunSame a b = true) :
    ∀ (fuel : Nat) (a b : Addr), iTypeIsSame E fuel a b = some true →
      ∃ fuel2, iTypeIsRunSame E fuel2 a b = some true := by
  intro fuel
  induction fuel with
  | zero => intro a b h; simp [iTypeIsSame] at h
  | succ n ih =>
    intro a b h
    have href : ∀ n1 n2, refIsSame E n n1 n2 = some true →
        ∃ f, refIsRunSame E f n1 n2 = some true := by
      intro n1 n2 hs
      cases n with
      | zero => simp [refIsSame] at hs
      | succ m =>
        rw [refIsSame] at hs
        cases hv : iTypeIsSame E m (E.heap n1).vtexp (E.heap n2).vtexp with
        | none => simp [hv] at hs
        | some bv =>
          cases bv
          · simp [hv] at hs
          · simp only [hv] at hs
            split_ifs at hs with hps
            · obtain ⟨k, pd, qd, hp1, hp2, tp, tq⟩ := hperm _ _ hps
              obtain ⟨fr, hfr⟩ := ih _ _
                (iTypeIsSame_mono E m (m + 1) _ _ true (Nat.le_succ m) hs)
              exact ⟨_, refIsRunSame_intro E m (k + 1) fr n1 n2 hv
                (iTypeIsRunSame_perm E k _ _ pd qd hp1 hp2 tp tq) hfr⟩
            · simp at hs
    rw [iTypeIsSame] at h
    cases h1 : iTypeGetTypeDcl E n a with
    | none => simp [h1] at h
    | some n1 =>
      cases h2 : iTypeGetTypeDcl E n b with
      | none => simp [h1, h2] at h
      | some n2 =>
        simp only [h1, h2] at h
        split_ifs at h with heq htags
        · exact ⟨n + 1, by rw [iTypeIsRunSame, h1, h2]; simp [heq]⟩
        · simp at h
        · have htags2 : (E.heap n1).tag = (E.heap n2).tag := by
            by_contra hc; exact htags hc
          cases htag : (E.heap n1).tag <;> simp only [htag] at h
          all_goals try (simp at h; done)
          all_goals first
            | (obtain ⟨f, hf⟩ := href n1 n2 h
               exact ⟨_, iTypeIsRunSame_of_ref E n f a b n1 n2 h1 h2 htags2 (Or.inl htag) hf⟩)
            | (obtain ⟨f, hf⟩ := href n1 n2 h
               exact ⟨_, iTypeIsRunSame_of_ref E n f a b n1 n2 h1 h2 htags2 (Or.inr htag) hf⟩)
            | (refine ⟨n + 1, ?_⟩
               rw [iTypeIsRunSame, h1, h2]
               simp only [heq, if_false, htags2, ne_eq, not_true_eq_false]
               rw [← htags2, htag]
               try simp only
               try first
                 | exact h
                 | rfl
                 | (injection h with h; rw [harr _ _ h]))

/-- Where the declarations are one node both comparers answer 1, where their
tags differ both answer 0, and on a kind other than reference, virtual
reference, array reference and permission they give the same answer. -/
theorem iTypeIsRunSame_eq_same (E : Env) (fuel : Nat) (a b d1 d2 : Addr)
    (h1 : iTypeGetTypeDcl E fuel a = some d1) (h2 : iTypeGetTypeDcl E fuel b = some d2) :
    (d1 = d2 → iTypeIsRunSame E (fuel + 1) a b = some true ∧
      iTypeIsSame E (fuel + 1) a b = some true) ∧
    ((E.heap d1).tag ≠ (E.heap d2).tag → iTypeIsRunSame E (fuel + 1) a b = some false ∧
      iTypeIsSame E (fuel + 1) a b = some false) ∧
    ((E.heap d1).tag ≠ .RefTag → (E.heap d1).tag ≠ .VirtRefTag →
      (E.heap d1).tag ≠ .ArrayRefTag → (E.heap d1).tag ≠ .PermTag →
      iTypeIsRunSame E (fuel + 1) a b = iTypeIsSame E (fuel + 1) a b) := by
  refine ⟨?_, ?_, ?_⟩
  · intro heq
    constructor
    · rw [iTypeIsRunSame, h1, h2]; simp [heq]
    · rw [iTypeIsSame, h1, h2]; simp [heq]
  · intro htags
    have hne : d1 ≠ d2 := fun h => htags (by rw [h])
    constructor
    · rw [iTypeIsRunSame, h1, h2]; simp [hne, htags]
    · rw [iTypeIsSame, h1, h2]; simp [hne, htags]
  · intro t1 t2 t3 t4
    rw [iTypeIsRunSame, iTypeIsSame, h1, h2]
    simp only
    split_ifs
    · rfl
    · rfl
    · cases htag : (E.heap d1).tag <;> simp_all

/-- Two distinct references of one kind whose permissions are permission
nodes: `iTypeIsRunSame` is 0 when the referents are not `iTypeIsSame`, and
otherwise what `iTypeIsRunSame` says of the regions. -/
theorem iTypeIsRunSame_ref_eq (E : Env) (fuel : Nat) (r1 r2 d1 d2 p1 p2 : Addr)
    (h1 : iTypeGetTypeDcl E fuel r1 = some d1) (h2 : iTypeGetTypeDcl E fuel r2 = some d2)
    (hne : d1 ≠ d2) (htags : (E.heap d1).tag = (E.heap d2).tag)
    (hkind : (E.heap d1).tag = .RefTag ∨ (E.heap d1).tag = .VirtRefTag)
    (hp1 : iTypeGetTypeDcl E fuel (E.heap d1).perm = some p1)
    (hp2 : iTypeGetTypeDcl E fuel (E.heap d2).perm = some p2)
    (tp1 : (E.heap p1).tag = .PermTag) (tp2 : (E.heap p2).tag = .PermTag) :
    iTypeIsRunSame E (fuel + 3) r1 r2 =
      (iTypeIsSame E (fuel + 1) (E.heap d1).vtexp (E.heap d2).vtexp).bind
        (fun same => if same then
          iTypeIsRunSame E (fuel + 1) (E.heap d1).region (E.heap d2).region
        else some false) := by
  have hrun : refIsRunSame E (fuel + 2) d1 d2 =
      (iTypeIsSame E (fuel + 1) (E.heap d1).vtexp (E.heap d2).vtexp).bind
        (fun same => if same then
          iTypeIsRunSame E (fuel + 1) (E.heap d1).region (E.heap d2).region
        else some false) := by
    rw [refIsRunSame]
    cases hv : iTypeIsSame E (fuel + 1) (E.heap d1).vtexp (E.heap d2).vtexp with
    | none => rfl
    | some s =>
      cases s
      · rfl
      · simp only [iTypeIsRunSame_perm E fuel _ _ p1 p2 hp1 hp2 tp1 tp2, Option.some_bind,
          if_true]
  rw [iTypeIsRunSame, iTypeGetTypeDcl_mono E fuel _ r1 d1 (by omega) h1,
    iTypeGetTypeDcl_mono E fuel _ r2 d2 (by omega) h2]
  simp only [hne, if_false, htags, ne_eq, not_true_eq_false]
  rcases hkind with hk | hk <;> rw [htags] at hk <;> simp only [hk] <;> exact hrun

/-- Two distinct references of one kind: `iTypeIsSame` is 0 when the referents
are not `iTypeIsSame` or the permissions are not `permIsSame`, and otherwise
what `iTypeIsSame` says of the regions. -/
theorem iTypeIsSame_ref_eq (E : Env) (fuel : Nat) (r1 r2 d1 d2 : Addr)
    (h1 : iTypeGetTypeDcl E fuel r1 = some d1) (h2 : iTypeGetTypeDcl E fuel r2 = some d2)
    (hne : d1 ≠ d2) (htags : (E.heap d1).tag = (E.heap d2).tag)
    (hkind : (E.heap d1).tag = .RefTag ∨ (E.heap d1).tag = .VirtRefTag) :
    iTypeIsSame E (fuel + 3) r1 r2 =
      (iTypeIsSame E (fuel + 1) (E.heap d1).vtexp (E.heap d2).vtexp).bind
        (fun same => if same then
          (if E.permIsSame (E.heap d1).perm (E.heap d2).perm then
            iTypeIsSame E (fuel + 1) (E.heap d1).region (E.heap d2).region
          else some false)
        else some false) := by
  have hsame : refIsSame E (fuel + 2) d1 d2 =
      (iTypeIsSame E (fuel + 1) (E.heap d1).vtexp (E.heap d2).vtexp).bind
        (fun same => if same then
          (if E.permIsSame (E.heap d1).perm (E.heap d2).perm then
            iTypeIsSame E (fuel + 1) (E.heap d1).region (E.heap d2).region
          else some false)
        else some false) := by
    rw [refIsSame]
    cases hv : iTypeIsSame E (fuel + 1) (E.heap d1).vtexp (E.heap d2).vtexp with
    | none => rfl
    | some s =>
      cases s
      · rfl
      · simp only [Option.some_bind, if_true]
  rw [iTypeIsSame, iTypeGetTypeDcl_mono E fuel _ r1 d1 (by omega) h1,
    iTypeGetTypeDcl_mono E fuel _ r2 d2 (by omega) h2]
  simp only [hne, if_false, htags, ne_eq, not_true_eq_false]
  rcases hkind with hk | hk <;> rw [htags] at hk <;> simp only [hk] <;> exact hsame

/-- C10: `iTypeIsRunSame` is `iTypeIsSame` with the permissions erased.  When
`permIsSame` holds only between permission nodes and `arrayRefIsSame` implies
`arrayRefIsRunSame`, every pair that is `iTypeIsSame` is `iTypeIsRunSame`; and
two distinct references of one kind whose referents and regions are the same
and whose permissions are different permission nodes are `iTypeIsRunSame` but
not `iTypeIsSame`.  Nothing else is erased: both comparers answer 1 when the
declarations are one node and 0 when their tags differ, and they agree on
every kind other than reference, virtual reference, array reference and
permission; two distinct permission nodes are `iTypeIsRunSame` and not
`iTypeIsSame`; and for two distinct references of one kind whose permissions
are permission nodes `iTypeIsRunSame` is 0 when the referents are not
`iTypeIsSame` and otherwise the answer of `iTypeIsRunSame` on the regions,
where `iTypeIsSame` has the same test of the referents, then `permIsSame` on
the permissions, then `iTypeIsSame` on the regions. -/
theorem iTypeIsRunSame_erases_permissions (E : Env)
    (hperm : ∀ p q, E.permIsSame p q = true →
      ∃ k pd qd, iTypeGetTypeDcl E k p = some pd ∧ iTypeGetTypeDcl E k q = some qd ∧
        (E.heap pd).tag = .PermTag ∧ (E.heap qd).tag = .PermTag)
    (harr : ∀ a b, E.arrayRefIsSame a b = true → E.arrayRefIsRunSame a b = true) :
    (∀ (fuel : Nat) (a b : Addr), iTypeIsSame E fuel a b = some true →
      ∃ fuel2, iTypeIsRunSame E fuel2 a b = some true) ∧
    (∀ (fuel : Nat) (r1 r2 d1 d2 p1 p2 : Addr),
      iTypeGetTypeDcl E fuel r1 = some d1 → iTypeGetTypeDcl E fuel r2 = some d2 →
      d1 ≠ d2 →
      (E.heap d1).tag = (E.heap d2).tag →
      ((E.heap d1).tag = .RefTag ∨ (E.heap d1).tag = .VirtRefTag) →
      iTypeIsSame E fuel (E.heap d1).vtexp (E.heap d2).vtexp = some true →
      iTypeIsSame E fuel (E.heap d1).region (E.heap d2).region = some true →
      iTypeGetTypeDcl E fuel (E.heap d1).perm = some p1 →
      iTypeGetTypeDcl E fuel (E.heap d2).perm = some p2 →
      (E.heap p1).tag = .PermTag → (E.heap p2).tag = .PermTag →
      E.permIsSame (E.heap d1).perm (E.heap d2).perm = false →
      (∃ fuel2, iTypeIsRunSame E fuel2 r1 r2 = some true) ∧
      iTypeIsSame E (fuel + 2) r1 r2 = some false) ∧
    (∀ (fuel : Nat) (a b d1 d2 : Addr),
      iTypeGetTypeDcl E fuel a = some d1 → iTypeGetTypeDcl E fuel b = some d2 →
      (d1 = d2 → iTypeIsRunSame E (fuel + 1) a b = some true ∧
        iTypeIsSame E (fuel + 1) a b = some true) ∧
      ((E.heap d1).tag ≠ (E.heap d2).tag →
        iTypeIsRunSame E (fuel + 1) a b = some false ∧
        iTypeIsSame E (fuel + 1) a b = some false) ∧
      ((E.heap d1).tag ≠ .RefTag → (E.heap d1).tag ≠ .VirtRefTag →
        (E.heap d1).tag ≠ .ArrayRefTag → (E.heap d1).tag ≠ .PermTag →
        iTypeIsRunSame E (fuel + 1) a b = iTypeIsSame E (fuel + 1) a b) ∧
      (d1 ≠ d2 → (E.heap d1).tag = .PermTag → (E.heap d2).tag = .PermTag →
        iTypeIsRunSame E (fuel + 1) a b = some true ∧
        iTypeIsSame E (fuel + 1) a b = some false)) ∧
    (∀ (fuel : Nat) (r1 r2 d1 d2 p1 p2 : Addr),
      iTypeGetTypeDcl E fuel r1 = some d1 → iTypeGetTypeDcl E fuel r2 = some d2 →
      d1 ≠ d2 →
      (E.heap d1).tag = (E.heap d2).tag →
      ((E.heap d1).tag = .RefTag ∨ (E.heap d1).tag = .VirtRefTag) →
      iTypeGetTypeDcl E fuel (E.heap d1).perm = some p1 →
      iTypeGetTypeDcl E fuel (E.heap d2).perm = some p2 →
      (E.heap p1).tag = .PermTag → (E.heap p2).tag = .PermTag →
      iTypeIsRunSame E (fuel + 3) r1 r2 =
        (iTypeIsSame E (fuel + 1) (E.heap d1).vtexp (E.heap d2).vtexp).bind
          (fun same => if same then
            iTypeIsRunSame E (fuel + 1) (E.heap d1).region (E.heap d2).region
          else some false) ∧
      iTypeIsSame E (fuel + 3) r1 r2 =
        (iTypeIsSame E (fuel + 1) (E.heap d1).vtexp (E.heap d2).vtexp).bind
          (fun same => if same then
            (if E.permIsSame (E.heap d1).perm (E.heap d2).perm then
              iTypeIsSame E (fuel + 1) (E.heap d1).region (E.heap d2).region
            else some false)
          else some false)) := by
  refine ⟨iTypeIsSame_imp_runSame_aux E hperm harr, ?_, ?_, ?_⟩
  · intro fuel r1 r2 d1 d2 p1 p2 h1 h2 hne htags hkind hv hr hp1 hp2 tp1 tp2 hps
    constructor
    · obtain ⟨fr, hfr⟩ := iTypeIsSame_imp_runSame_aux E hperm harr fuel _ _ hr
      exact ⟨_, iTypeIsRunSame_of_ref E fuel _ r1 r2 d1 d2 h1 h2 htags hkind
        (refIsRunSame_intro E fuel (fuel + 1) fr d1 d2 hv
          (iTypeIsRunSame_perm E fuel _ _ p1 p2 hp1 hp2 tp1 tp2) hfr)⟩
    · have hrs : refIsSame E (fuel + 1) d1 d2 = some false := by
        rw [refIsSame, hv]
        simp [hps]
      rw [iTypeIsSame, iTypeGetTypeDcl_succ E fuel r1 d1 h1,
        iTypeGetTypeDcl_succ E fuel r2 d2 h2]
      simp only [hne, if_false, htags, ne_eq, not_true_eq_false]
      rcases hkind with hk | hk <;> rw [htags] at hk <;> simp only [hk] <;> exact hrs
  · intro fuel a b d1 d2 h1 h2
    obtain ⟨hA, hB, hC⟩ := iTypeIsRunSame_eq_same E fuel a b d1 d2 h1 h2
    refine ⟨hA, hB, hC, ?_⟩
    intro hne t1 t2
    constructor
    · rw [iTypeIsRunSame, h1, h2]
      simp only [hne, if_false, t1, t2, ne_eq, not_true_eq_false]
    · rw [iTypeIsSame, h1, h2]
      simp only [hne, if_false, t1, t2, ne_eq, not_true_eq_false]
  · intro fuel r1 r2 d1 d2 p1 p2 h1 h2 hne htags hkind hp1 hp2 tp1 tp2
    exact ⟨iTypeIsRunSame_ref_eq E fuel r1 r2 d1 d2 p1 p2 h1 h2 hne htags hkind hp1 hp2
      tp1 tp2, iTypeIsSame_ref_eq E fuel r1 r2 d1 d2 h1 h2 hne htags hkind⟩

/-- In the sample environment `permIsSame` holds only between permission
nodes. -/
theorem sampleEnv_permIsSame (p q : Addr) (h : sampleEnv.permIsSame p q = true) :
    ∃ k pd qd, iTypeGetTypeDcl sampleEnv k p = some pd ∧
      iTypeGetTypeDcl sampleEnv k q = some qd ∧
      (sampleEnv.heap pd).tag = .PermTag ∧ (sampleEnv.heap qd).tag = .PermTag := by
  have h2 : p = q ∧ (sampleHeap p).tag = .PermTag := by
    simpa [sampleEnv] using h
  obtain ⟨hpq, htag⟩ := h2
  subst hpq
  have hst : iTypeGetTypeDcl sampleEnv 1 p = some p := by
    have : (sampleEnv.heap p).tag = .PermTag := htag
    rw [iTypeGetTypeDcl, this]
  exact ⟨1, p, p, hst, hst, htag, htag⟩

/-- C10 in the sample environment: the two `&borrow mut i32` nodes 72 and 216
are the same, hence the same at run time; `&borrow imm i32` (56) and
`&borrow mut i32` (72) are the same at run time but not the same; the
reference 56 and the pointer 96 differ in tag and are neither; the
permissions `imm` (24) and `mut` (32) are the same at run time only; and
`&borrow imm i32` (56) is not the same at run time as `&16 imm i32` (64), whose
region differs, nor as `&borrow imm Circle` (160), whose referent differs. -/
theorem iTypeIsRunSame_erases_permissions_witness :
    (∃ fuel2, iTypeIsRunSame sampleEnv fuel2 72 216 = some true) ∧
    ((∃ fuel2, iTypeIsRunSame sampleEnv fuel2 56 72 = some true) ∧
      iTypeIsSame sampleEnv (2 + 2) 56 72 = some false) ∧
    (iTypeIsRunSame sampleEnv (2 + 1) 56 96 = some false ∧
      iTypeIsSame sampleEnv (2 + 1) 56 96 = some false) ∧
    (iTypeIsRunSame sampleEnv (2 + 1) 24 32 = some true ∧
      iTypeIsSame sampleEnv (2 + 1) 24 32 = some false) ∧
    (iTypeIsRunSame sampleEnv (2 + 3) 56 64 =
        (iTypeIsSame sampleEnv (2 + 1) (sampleEnv.heap 56).vtexp
          (sampleEnv.heap 64).vtexp).bind
          (fun same => if same then
            iTypeIsRunSame sampleEnv (2 + 1) (sampleEnv.heap 56).region
              (sampleEnv.heap 64).region
          else some false)) ∧
    iTypeIsRunSame sampleEnv (2 + 3) 56 64 = some false ∧
    (iTypeIsRunSame sampleEnv (2 + 3) 56 160 =
        (iTypeIsSame sampleEnv (2 + 1) (sampleEnv.heap 56).vtexp
          (sampleEnv.heap 160).vtexp).bind
          (fun same => if same then
            iTypeIsRunSame sampleEnv (2 + 1) (sampleEnv.heap 56).region
              (sampleEnv.heap 160).region
          else some false)) ∧
    iTypeIsRunSame sampleEnv (2 + 3) 56 160 = some false :=
  ⟨(iTypeIsRunSame_erases_permissions sampleEnv sampleEnv_permIsSame
      (by intro a b h; simp [sampleEnv] at h)).1 4 72 216 (by decide),
   (iTypeIsRunSame_erases_permissions sampleEnv sampleEnv_permIsSame
      (by intro a b h; simp [sampleEnv] at h)).2.1 2 56 72 56 72 24 32
      (by decide) (by decide) (by decide) (by decide) (by decide) (by decide) (by decide)
      (by decide) (by decide) (by decide) (by decide) (by decide),
   ((iTypeIsRunSame_erases_permissions sampleEnv sampleEnv_permIsSame
      (by intro a b h; simp [sampleEnv] at h)).2.2.1 2 56 96 56 96
      (by decide) (by decide)).2.1 (by decide),
   ((iTypeIsRunSame_erases_permissions sampleEnv sampleEnv_permIsSame
      (by intro a b h; simp [sampleEnv] at h)).2.2.1 2 24 32 24 32
      (by decide) (by decide)).2.2.2 (by decide) (by decide) (by decide),
   ((iTypeIsRunSame_erases_permissions sampleEnv sampleEnv_permIsSame
      (by intro a b h; simp [sampleEnv] at h)).2.2.2 2 56 64 56 64 24 24
      (by decide) (by decide) (by decide) (by decide) (by decide) (by decide) (by decide)
      (by decide) (by decide)).1,
   by decide,
   ((iTypeIsRunSame_erases_permissions sampleEnv sampleEnv_permIsSame
      (by intro a b h; simp [sampleEnv] at h)).2.2.2 2 56 160 56 160 24 24
      (by decide) (by decide) (by decide) (by decide) (by decide) (by decide) (by decide)
      (by decide) (by decide)).1,
   by decide⟩


/-! ## Joins -/

/-- C11: `iTypeGetTypeDcl` stops at the value of a typedef.  For the typedef
120, whose value is the name use 112 of the struct 40, it returns the name
use, so `iTypeIsSame(120, 40)` is 0, and `iTypeMatches(40, 120, K)` hands the
unresolved name use to `structMatches` instead of answering `EqMatch`. -/
theorem iTypeGetTypeDcl_stops_at_typedef_value :
    iTypeGetTypeDcl sampleEnv 4 120 = some 112 ∧
    (sampleEnv.heap 112).tag = .TypeNameUseTag ∧
    iTypeGetTypeDcl sampleEnv 4 112 = some 40 ∧
    iTypeIsSame sampleEnv 5 120 40 = some false ∧
    iTypeMatches sampleEnv 5 40 120 .Default
      = some (sampleEnv.structMatches 40 112 .Default) ∧
    iTypeMatches sampleEnv 5 40 120 .Default = some .NoMatch := by
  decide

/-- C12: the join of the virtual references 152 (`Shape`) and 232 (`Circle`),
which have the same region and permission and whose referents have the join
`Shape`, is a new plain reference 248; as a plain reference it matches
neither argument.  The plain read-only references 168 and 160 show the same
join matching both of its arguments. -/
theorem iTypeFindSuper_virtual_not_supertype :
    iTypeMatches sampleJoinStore 5 40 144 .Default = some .CastSubtype ∧
    iTypeMatches sampleJoinStore 5 40 40 .Default = some .EqMatch ∧
    (iTypeFindSuper sampleJoinStore sampleJoinEnv 5 248 152 232).map (fun r => r.1)
      = some (some 248) ∧
    (iTypeFindSuper sampleJoinStore sampleJoinEnv 5 248 152 232).map
      (fun r => (r.2.heap 248).tag) = some .RefTag ∧
    (iTypeFindSuper sampleJoinStore sampleJoinEnv 5 248 152 232).bind
      (fun r => iTypeMatches r.2 5 248 152 .Default) = some .NoMatch ∧
    (iTypeFindSuper sampleJoinStore sampleJoinEnv 5 248 152 232).bind
      (fun r => iTypeMatches r.2 5 248 232 .Default) = some .NoMatch ∧
    (iTypeFindSuper sampleJoinStore sampleJoinEnv 5 248 168 160).bind
      (fun r => iTypeMatches r.2 5 248 168 .Default) = some .EqMatch ∧
    (iTypeFindSuper sampleJoinStore sampleJoinEnv 5 248 168 160).bind
      (fun r => iTypeMatches r.2 5 248 160 .Default) = some .CastSubtype := by
  decide

/-- `refAdoptInfections` leaves the store as it is or rewrites the flags of
the node. -/
theorem refAdoptInfections_eq (E : Env) (J : JoinEnv) (fuel : Nat) (refnode : Addr)
    (E2 : Env) (h : refAdoptInfections E J fuel refnode = some E2) :
    E2 = E ∨ ∃ f, E2 = E.store refnode { E.heap refnode with flags := f } := by
  unfold refAdoptInfections at h
  simp only at h
  by_cases h0 : (E.heap refnode).perm = nullAddr ∨ (E.heap refnode).vtexp = J.unknownType
  · rw [if_pos h0] at h
    injection h with h
    exact Or.inl h.symm
  · rw [if_neg h0] at h
    revert h
    generalize (if E.permGetFlags (E.heap refnode).perm &&& J.MayAlias = 0 then some true
      else iTypeIsMove E J fuel (E.heap refnode).region) = mv
    intro h
    cases mv with
    | none => simp at h
    | some b =>
      simp only at h
      injection h with h
      exact Or.inr ⟨_, h.symm⟩

/-- `refAdoptInfections` changes nothing but the flags of the node. -/
theorem refAdoptInfections_frame (E : Env) (J : JoinEnv) (fuel : Nat) (refnode : Addr)
    (E2 : Env) (h : refAdoptInfections E J fuel refnode = some E2) :
    (E2.heap refnode).tag = (E.heap refnode).tag ∧
    (E2.heap refnode).region = (E.heap refnode).region ∧
    (E2.heap refnode).perm = (E.heap refnode).perm ∧
    (E2.heap refnode).vtexp = (E.heap refnode).vtexp ∧
    ∀ a, a ≠ refnode → E2.heap a = E.heap a := by
  rcases refAdoptInfections_eq E J fuel refnode E2 h with h1 | ⟨f, h1⟩
  · subst h1; simp
  · subst h1
    refine ⟨by simp [Env.store], by simp [Env.store], by simp [Env.store],
      by simp [Env.store], ?_⟩
    intro a ha
    simp [Env.store, ha]




/-- `refAdoptInfections` returns when `iTypeIsMove` of the region does. -/
theorem refAdoptInfections_returns (E : Env) (J : JoinEnv) (fuel : Nat) (refnode : Addr)
    (b : Bool) (hb : iTypeIsMove E J fuel (E.heap refnode).region = some b) :
    ∃ E2, refAdoptInfections E J fuel refnode = some E2 := by
  unfold refAdoptInfections
  simp only
  by_cases h0 : (E.heap refnode).perm = nullAddr ∨ (E.heap refnode).vtexp = J.unknownType
  · rw [if_pos h0]
    exact ⟨_, rfl⟩
  · rw [if_neg h0]
    by_cases hma : E.permGetFlags (E.heap refnode).perm &&& J.MayAlias = 0
    · rw [if_pos hma]
      exact ⟨_, rfl⟩
    · rw [if_neg hma, hb]
      exact ⟨_, rfl⟩

/-- The reference constructor returns when the walk from the region to its
declaration ends in the store that holds the new node. -/
theorem newRefNodeFull_returns (E : Env) (J : JoinEnv) (fuel : Nat)
    (fresh lexnode region perm vtype : Addr) (tag : NodeTag)
    (hd : ∀ n, ∃ d, iTypeGetTypeDcl (E.store fresh n) fuel region = some d) :
    ∃ E2, newRefNodeFull E J fuel fresh tag lexnode region perm vtype = some E2 := by
  unfold newRefNodeFull
  obtain ⟨d, hd⟩ := hd { newRefNode E J tag with
      region := region, perm := perm, vtexp := vtype }
  apply refAdoptInfections_returns _ J fuel fresh
    (decide (((E.store fresh { newRefNode E J tag with
      region := region, perm := perm, vtexp := vtype }).heap d).flags &&& J.MoveType ≠ 0))
  have hs : ((E.store fresh { newRefNode E J tag with
      region := region, perm := perm, vtexp := vtype }).heap fresh).region = region := by
    simp [Env.store]
  rw [iTypeIsMove, hs, hd]
  rfl

/-- What the reference constructor leaves in the store. -/
theorem newRefNodeFull_spec (E : Env) (J : JoinEnv) (fuel : Nat)
    (fresh lexnode region perm vtype : Addr) (tag : NodeTag) (E2 : Env)
    (h : newRefNodeFull E J fuel fresh tag lexnode region perm vtype = some E2) :
    (E2.heap fresh).tag = tag ∧ (E2.heap fresh).region = region ∧
    (E2.heap fresh).perm = perm ∧ (E2.heap fresh).vtexp = vtype ∧
    ∀ a, a ≠ fresh → E2.heap a = E.heap a := by
  unfold newRefNodeFull at h
  obtain ⟨ht, hr, hp, hv, hframe⟩ := refAdoptInfections_frame _ J fuel fresh E2 h
  refine ⟨?_, ?_, ?_, ?_, ?_⟩
  · rw [ht]; simp [Env.store, newRefNode]
  · rw [hr]; simp [Env.store]
  · rw [hp]; simp [Env.store]
  · rw [hv]; simp [Env.store]
  · intro a ha
    rw [hframe a ha]
    simp [Env.store, ha]

/-- C13: when the walks to the declarations of the two references, of their
regions and of their permissions end (that of the region of `type1` also
once a new node is in the store), `refFindSuper` returns; the result is
`NULL` iff the region declarations differ, or the permission declarations
differ, or `structRefFindSuper` of the referents is `NULL`, and then the
store is unchanged; any other result is the new node, a reference with the
region and the permission of `type1` and the join as its referent, and no
other node has changed. -/
theorem refFindSuper_null_iff (E : Env) (J : JoinEnv) (fuel : Nat)
    (fresh type1 type2 typ1 typ2 region1 region2 perm1 perm2 : Addr)
    (h1 : iTypeGetTypeDcl E fuel type1 = some typ1)
    (h2 : iTypeGetTypeDcl E fuel type2 = some typ2)
    (hr1 : iTypeGetTypeDcl E fuel (E.heap typ1).region = some region1)
    (hr2 : iTypeGetTypeDcl E fuel (E.heap typ2).region = some region2)
    (hp1 : iTypeGetTypeDcl E fuel (E.heap typ1).perm = some perm1)
    (hp2 : iTypeGetTypeDcl E fuel (E.heap typ2).perm = some perm2)
    (hnew : ∀ n, ∃ d, iTypeGetTypeDcl (E.store fresh n) fuel (E.heap typ1).region = some d) :
    ∃ res E2, refFindSuper E J fuel fresh type1 type2 = some (res, E2) ∧
      (res = none ↔ region1 ≠ region2 ∨ perm1 ≠ perm2 ∨
        J.structRefFindSuper (E.heap typ1).vtexp (E.heap typ2).vtexp = none) ∧
      (res = none → E2 = E) ∧
      (∀ s, res = some s →
        s = fresh ∧ (E2.heap s).tag = .RefTag ∧
        (E2.heap s).region = (E.heap typ1).region ∧
        (E2.heap s).perm = (E.heap typ1).perm ∧
        J.structRefFindSuper (E.heap typ1).vtexp (E.heap typ2).vtexp
          = some (E2.heap s).vtexp ∧
        ∀ a, a ≠ fresh → E2.heap a = E.heap a) := by
  unfold refFindSuper
  simp only [h1, h2, hr1, hr2, hp1, hp2]
  by_cases hr : region1 = region2
  · by_cases hp : perm1 = perm2
    · cases hj : J.structRefFindSuper (E.heap typ1).vtexp (E.heap typ2).vtexp with
      | none =>
        refine ⟨none, E, by simp [hr, hp], by simp, fun _ => rfl, ?_⟩
        intro s hs; cases hs
      | some j =>
        obtain ⟨E2, hE2⟩ := newRefNodeFull_returns E J fuel fresh typ1 (E.heap typ1).region
          (E.heap typ1).perm j .RefTag hnew
        obtain ⟨ht, hrg, hpm, hv, hframe⟩ := newRefNodeFull_spec E J fuel fresh typ1
          (E.heap typ1).region (E.heap typ1).perm j .RefTag E2 hE2
        refine ⟨some fresh, E2, by simp [hr, hp, hE2], by simp [hr, hp], ?_, ?_⟩
        · intro h; cases h
        · intro s hs
          injection hs with hs
          subst hs
          exact ⟨rfl, ht, hrg, hpm, by rw [hv], hframe⟩
    · refine ⟨none, E, by simp [hr, hp], by simp [hp], fun _ => rfl, ?_⟩
      intro s hs; cases hs
  · refine ⟨none, E, by simp [hr], by simp [hr], fun _ => rfl, ?_⟩
    intro s hs; cases hs

/-- C13 on the references 160 (`&borrow imm Circle`) and 168 (`&borrow imm
Shape`): the join is the new node 248. -/
theorem refFindSuper_null_iff_witness :
    ∃ res E2, refFindSuper sampleJoinStore sampleJoinEnv 4 248 160 168 = some (res, E2) ∧
      (res = none ↔ (8 : Addr) ≠ 8 ∨ (24 : Addr) ≠ 24 ∨
        sampleJoinEnv.structRefFindSuper (sampleJoinStore.heap 160).vtexp
          (sampleJoinStore.heap 168).vtexp = none) ∧
      (res = none → E2 = sampleJoinStore) ∧
      (∀ s, res = some s →
        s = 248 ∧ (E2.heap s).tag = .RefTag ∧
        (E2.heap s).region = (sampleJoinStore.heap 160).region ∧
        (E2.heap s).perm = (sampleJoinStore.heap 160).perm ∧
        sampleJoinEnv.structRefFindSuper (sampleJoinStore.heap 160).vtexp
          (sampleJoinStore.heap 168).vtexp = some (E2.heap s).vtexp ∧
        ∀ a, a ≠ 248 → E2.heap a = sampleJoinStore.heap a) :=
  refFindSuper_null_iff sampleJoinStore sampleJoinEnv 4 248 160 168 160 168 8 8 24 24
    (by decide) (by decide) (by decide) (by decide) (by decide) (by decide)
    (fun _ => ⟨8, rfl⟩)

/-! ## Flow of assignments -/

/-- Setting flow flags changes no other field of any node. -/
theorem setFlowFlags_fields (st : IrState) (var : Addr) (flags : Nat) (a : Addr) :
    ((st.setFlowFlags var flags).nodes a).tag = (st.nodes a).tag ∧
    ((st.setFlowFlags var flags).nodes a).vtype = (st.nodes a).vtype ∧
    ((st.setFlowFlags var flags).nodes a).region = (st.nodes a).region ∧
    ((st.setFlowFlags var flags).nodes a).scope = (st.nodes a).scope := by
  unfold IrState.setFlowFlags
  by_cases h : a = var
  · subst h; simp
  · simp [h]

/-- The errors `assignlvalrtype` leaves for an lval that is not the
placeholder: the `NoMut` error alone when the lval is not writable, and
otherwise nothing or the lifetime error alone. -/
theorem assignlvalrtype_errors (E : Env) (X : AssignEnv) (st : IrState) (lval rtype : Addr)
    (hnp : ¬ isPlaceholder X st lval) :
    (lvalNotWritable E X st lval →
      assignlvalrtype E X st lval rtype
        = (0, errorMsgNode st lval .ErrorNoMut "You do not have permission to modify lval")) ∧
    (¬ lvalNotWritable E X st lval →
      (assignlvalrtype E X st lval rtype).2.errors = st.errors ∨
      (assignlvalrtype E X st lval rtype).2.errors = st.errors ++ [outlivesError lval]) := by
  constructor
  · intro hw
    simp [assignlvalrtype, hnp, hw]
  · intro hw
    simp only [assignlvalrtype, hnp, hw, if_false]
    split_ifs <;> simp [errorMsgNode, IrState.setFlowFlags, outlivesError]

/-- C14: for an lval that is not the placeholder, `assignlvalrtype` reports
the `NoMut` error iff the permission of the lval lacks `MayWrite` and the lval
is not a variable name use or its variable is initialized; when it does, it
returns at once: the nodes, and so every flow flag, are unchanged, and the
`NoMut` error is the only one added (the lifetime check is not run). -/
theorem assignlvalrtype_noMut_iff (E : Env) (X : AssignEnv) (st : IrState) (lval rtype : Addr)
    (hnp : ¬ isPlaceholder X st lval) :
    ((assignlvalrtype E X st lval rtype).2.errors = st.errors ++ [noMutError lval] ↔
      lvalNotWritable E X st lval) ∧
    (lvalNotWritable E X st lval →
      (assignlvalrtype E X st lval rtype).1 = 0 ∧
      (assignlvalrtype E X st lval rtype).2.nodes = st.nodes ∧
      (assignlvalrtype E X st lval rtype).2.errors = st.errors ++ [noMutError lval]) ∧
    (¬ lvalNotWritable E X st lval →
      ∀ e ∈ (assignlvalrtype E X st lval rtype).2.errors, e ∈ st.errors ∨ e ≠ noMutError lval) := by
  obtain ⟨h1, h2⟩ := assignlvalrtype_errors E X st lval rtype hnp
  refine ⟨⟨?_, ?_⟩, ?_, ?_⟩
  · intro herr
    by_contra hw
    rcases h2 hw with h | h
    · rw [h] at herr
      have := congrArg List.length herr
      simp at this
    · rw [h] at herr
      have h3 := List.append_cancel_left herr
      simp [outlivesError, noMutError] at h3
  · intro hw
    rw [h1 hw]
    rfl
  · intro hw
    rw [h1 hw]
    exact ⟨rfl, rfl, rfl⟩
  · intro hw e he
    rcases h2 hw with h | h
    · rw [h] at he
      exact Or.inl he
    · rw [h] at he
      rcases List.mem_append.mp he with h3 | h3
      · exact Or.inl h3
      · right
        simp at h3
        rw [h3]
        simp [outlivesError, noMutError]

/-- C14 on the sample: the immutable `x` is not initialized, so its first
assignment is accepted; the immutable `r` is initialized, so a write to it is
reported and changes nothing. -/
theorem assignlvalrtype_noMut_iff_witness :
    ¬ lvalNotWritable sampleEnv sampleAssignEnv sampleIr 352 ∧
    ((assignlvalrtype sampleEnv sampleAssignEnv sampleIr 328 64).1 = 0 ∧
     (assignlvalrtype sampleEnv sampleAssignEnv sampleIr 328 64).2.nodes = sampleIr.nodes ∧
     (assignlvalrtype sampleEnv sampleAssignEnv sampleIr 328 64).2.errors
       = sampleIr.errors ++ [noMutError 328]) :=
  ⟨by decide,
   (assignlvalrtype_noMut_iff sampleEnv sampleAssignEnv sampleIr 328 64 (by decide)).2.1
     (by decide)⟩

/-- On 16-bit operands `markInitialized` is `(flags | VarInitialized) & ~VarMoved`,
bit by bit. -/
theorem markInitialized_testBit (X : AssignEnv) (flags : Nat)
    (hVM : X.VarMoved ≤ 0xFFFF) (i : Nat) :
    (markInitialized X flags).testBit i =
      (decide (i < 16) && ((flags.testBit i || X.VarInitialized.testBit i) &&
        !X.VarMoved.testBit i)) := by
  unfold markInitialized
  have h1 : (0xFFFF : Nat) - X.VarMoved = 2 ^ 16 - (X.VarMoved + 1) := by omega
  have h2 : X.VarMoved < 2 ^ 16 := by omega
  have h3 : (65536 : Nat) = 2 ^ 16 := by norm_num
  rw [h1, h3, Nat.testBit_mod_two_pow, Nat.testBit_and, Nat.testBit_mod_two_pow,
    Nat.testBit_or, Nat.testBit_two_pow_sub_succ h2]
  cases decide (i < 16) <;> simp

/-- C15: when `assignlvalrtype` accepts the write to an lval that is not the
placeholder, and the lval is a variable name use, the flow flags of its
variable have `VarInitialized` set and `VarMoved` cleared, every other bit of
them is as before, and no other node has changed; when the lval is not a
variable name use no node, and so no flow flag, has changed.  The flags are a
16-bit field and the two flag constants are disjoint bits of it. -/
theorem assignlvalrtype_marks_initialized (E : Env) (X : AssignEnv) (st : IrState)
    (lval rtype : Addr)
    (hnp : ¬ isPlaceholder X st lval) (hw : ¬ lvalNotWritable E X st lval)
    (hVI : X.VarInitialized ≤ 0xFFFF) (hVM : X.VarMoved ≤ 0xFFFF)
    (hdisj : X.VarInitialized &&& X.VarMoved = 0)
    (hflags : (st.nodes (X.iexpGetLvalInfo st lval).lvalvar).flowtempflags ≤ 0xFFFF) :
    ((st.nodes lval).tag = .VarNameUseTag →
      ((assignlvalrtype E X st lval rtype).2.nodes
          (X.iexpGetLvalInfo st lval).lvalvar).flowtempflags &&& X.VarInitialized
        = X.VarInitialized ∧
      ((assignlvalrtype E X st lval rtype).2.nodes
          (X.iexpGetLvalInfo st lval).lvalvar).flowtempflags &&& X.VarMoved = 0 ∧
      (∀ i, X.VarInitialized.testBit i = false → X.VarMoved.testBit i = false →
        ((assignlvalrtype E X st lval rtype).2.nodes
            (X.iexpGetLvalInfo st lval).lvalvar).flowtempflags.testBit i
          = (st.nodes (X.iexpGetLvalInfo st lval).lvalvar).flowtempflags.testBit i) ∧
      (∀ a, a ≠ (X.iexpGetLvalInfo st lval).lvalvar →
        (assignlvalrtype E X st lval rtype).2.nodes a = st.nodes a)) ∧
    ((st.nodes lval).tag ≠ .VarNameUseTag →
      (assignlvalrtype E X st lval rtype).2.nodes = st.nodes) := by
  have hnodes : (assignlvalrtype E X st lval rtype).2.nodes =
      (if (st.nodes lval).tag = .VarNameUseTag then
        st.setFlowFlags (X.iexpGetLvalInfo st lval).lvalvar
          (markInitialized X (st.nodes (X.iexpGetLvalInfo st lval).lvalvar).flowtempflags)
      else st).nodes := by
    simp only [assignlvalrtype, hnp, hw, if_false]
    split_ifs <;> rfl
  constructor
  · intro htag
    rw [hnodes, if_pos htag]
    have hf : ((st.setFlowFlags (X.iexpGetLvalInfo st lval).lvalvar
        (markInitialized X (st.nodes (X.iexpGetLvalInfo st lval).lvalvar).flowtempflags)).nodes
        (X.iexpGetLvalInfo st lval).lvalvar).flowtempflags
        = markInitialized X (st.nodes (X.iexpGetLvalInfo st lval).lvalvar).flowtempflags := by
      simp [IrState.setFlowFlags]
    rw [hf]
    have hdis : ∀ i, X.VarInitialized.testBit i = true → X.VarMoved.testBit i = false := by
      intro i hi
      have := congrArg (fun n => Nat.testBit n i) hdisj
      simp only [Nat.testBit_and, hi, Bool.true_and, Nat.zero_testBit] at this
      exact this
    have hlt : ∀ (n : Nat), n ≤ 0xFFFF → ∀ i, n.testBit i = true → i < 16 := by
      intro n hn i hi
      by_contra hge
      have h16 : n < 2 ^ i :=
        lt_of_lt_of_le (by omega : n < 2 ^ 16) (Nat.pow_le_pow_right (by norm_num) (by omega))
      rw [Nat.testBit_lt_two_pow h16] at hi
      cases hi
    refine ⟨?_, ?_, ?_, ?_⟩
    · apply Nat.eq_of_testBit_eq
      intro i
      rw [Nat.testBit_and, markInitialized_testBit X _ hVM]
      cases hvi : X.VarInitialized.testBit i
      · simp
      · simp [hdis i hvi, hlt _ hVI i hvi]
    · apply Nat.eq_of_testBit_eq
      intro i
      rw [Nat.testBit_and, markInitialized_testBit X _ hVM]
      cases hvm : X.VarMoved.testBit i <;> simp
    · intro i hvi hvm
      rw [markInitialized_testBit X _ hVM, hvi, hvm]
      cases hfi : (st.nodes (X.iexpGetLvalInfo st lval).lvalvar).flowtempflags.testBit i
      · simp
      · simp [hlt _ hflags i hfi]
    · intro a ha
      simp [IrState.setFlowFlags, ha]
  · intro htag
    rw [hnodes, if_neg htag]

/-- C15 on the sample: the first assignment to `x` sets `VarInitialized` on
its declaration 344 and changes no other node. -/
theorem assignlvalrtype_marks_initialized_witness :
    ((assignlvalrtype sampleEnv sampleAssignEnv sampleIr 352 48).2.nodes
        (sampleAssignEnv.iexpGetLvalInfo sampleIr 352).lvalvar).flowtempflags
        &&& sampleAssignEnv.VarInitialized = sampleAssignEnv.VarInitialized ∧
    ((assignlvalrtype sampleEnv sampleAssignEnv sampleIr 352 48).2.nodes
        (sampleAssignEnv.iexpGetLvalInfo sampleIr 352).lvalvar).flowtempflags
        &&& sampleAssignEnv.VarMoved = 0 ∧
    (∀ i, sampleAssignEnv.VarInitialized.testBit i = false →
      sampleAssignEnv.VarMoved.testBit i = false →
      ((assignlvalrtype sampleEnv sampleAssignEnv sampleIr 352 48).2.nodes
          (sampleAssignEnv.iexpGetLvalInfo sampleIr 352).lvalvar).flowtempflags.testBit i
        = (sampleIr.nodes
            (sampleAssignEnv.iexpGetLvalInfo sampleIr 352).lvalvar).flowtempflags.testBit i) ∧
    (∀ a, a ≠ (sampleAssignEnv.iexpGetLvalInfo sampleIr 352).lvalvar →
      (assignlvalrtype sampleEnv sampleAssignEnv sampleIr 352 48).2.nodes a
        = sampleIr.nodes a) :=
  (assignlvalrtype_marks_initialized sampleEnv sampleAssignEnv sampleIr 352 48
    (by decide) (by decide) (by decide) (by decide) (by decide) (by decide)).1 (by decide)

/-- The errors of `assignlvalrtype` when the write is allowed and a reference
is stored in a borrow: the lifetime error alone when the scope of the lval is
smaller than the scope recorded on the type of the rval, nothing otherwise. -/
theorem assignlvalrtype_borrow_errors (E : Env) (X : AssignEnv) (st : IrState)
    (lval rtype : Addr)
    (hnp : ¬ isPlaceholder X st lval) (hw : ¬ lvalNotWritable E X st lval)
    (hr : (st.nodes rtype).tag = .RefTag)
    (hl : (st.nodes (st.nodes lval).vtype).tag = .RefTag)
    (hb : (st.nodes (st.nodes lval).vtype).region = E.borrowRef) :
    (assignlvalrtype E X st lval rtype).2.errors =
      if (X.iexpGetLvalInfo st lval).lvalscope < (st.nodes rtype).scope then
        st.errors ++ [outlivesError lval]
      else st.errors := by
  simp only [assignlvalrtype, hnp, hw, if_false]
  by_cases htag : (st.nodes lval).tag = .VarNameUseTag
  · simp only [htag, if_true]
    obtain ⟨t1, _, _, s1⟩ := setFlowFlags_fields st (X.iexpGetLvalInfo st lval).lvalvar
      (markInitialized X (st.nodes (X.iexpGetLvalInfo st lval).lvalvar).flowtempflags) rtype
    obtain ⟨_, v2, _, _⟩ := setFlowFlags_fields st (X.iexpGetLvalInfo st lval).lvalvar
      (markInitialized X (st.nodes (X.iexpGetLvalInfo st lval).lvalvar).flowtempflags) lval
    obtain ⟨t3, _, r3, _⟩ := setFlowFlags_fields st (X.iexpGetLvalInfo st lval).lvalvar
      (markInitialized X (st.nodes (X.iexpGetLvalInfo st lval).lvalvar).flowtempflags)
      (st.nodes lval).vtype
    rw [v2, t1, t3, r3, s1]
    simp only [hr, hl, hb, and_self, if_true]
    split_ifs <;> simp [errorMsgNode, IrState.setFlowFlags, outlivesError]
  · simp only [htag, if_false, hr, hl, hb, and_self, if_true]
    split_ifs <;> simp [errorMsgNode, outlivesError]

/-- A store into a borrow that adds no error has an lval at least as deep
as the scope recorded on the type of the rval. -/
theorem assignlvalrtype_no_error_scope (E : Env) (X : AssignEnv) (st : IrState)
    (lval rtype : Addr)
    (hnp : ¬ isPlaceholder X st lval)
    (hr : (st.nodes rtype).tag = .RefTag)
    (hl : (st.nodes (st.nodes lval).vtype).tag = .RefTag)
    (hb : (st.nodes (st.nodes lval).vtype).region = E.borrowRef)
    (hacc : (assignlvalrtype E X st lval rtype).2.errors = st.errors) :
    (st.nodes rtype).scope ≤ (X.iexpGetLvalInfo st lval).lvalscope := by
  by_cases hw : lvalNotWritable E X st lval
  · rw [(assignlvalrtype_errors E X st lval rtype hnp).1 hw] at hacc
    have := congrArg List.length hacc
    simp [errorMsgNode] at this
  · rw [assignlvalrtype_borrow_errors E X st lval rtype hnp hw hr hl hb] at hacc
    by_contra hs
    rw [if_pos (by omega)] at hacc
    have := congrArg List.length hacc
    simp at this

/-- C16: when a reference is stored in an lval that is not the placeholder
and has a borrowed reference type, and the flow check adds no error, the scope
of the lval is at least the scope recorded on the type of the rval.  Once the
permission check has let the write pass, the error "lval outlives the
borrowed reference you are storing" is reported exactly when the scope of the
lval is smaller than that scope, and nothing is reported exactly when it is
at least that scope. -/
theorem assignlvalrtype_outlives_iff (E : Env) (X : AssignEnv) (st : IrState)
    (lval rtype : Addr)
    (hnp : ¬ isPlaceholder X st lval)
    (hr : (st.nodes rtype).tag = .RefTag)
    (hl : (st.nodes (st.nodes lval).vtype).tag = .RefTag)
    (hb : (st.nodes (st.nodes lval).vtype).region = E.borrowRef) :
    ((assignlvalrtype E X st lval rtype).2.errors = st.errors →
      (st.nodes rtype).scope ≤ (X.iexpGetLvalInfo st lval).lvalscope) ∧
    (¬ lvalNotWritable E X st lval →
      ((assignlvalrtype E X st lval rtype).2.errors = st.errors ++ [outlivesError lval] ↔
        (X.iexpGetLvalInfo st lval).lvalscope < (st.nodes rtype).scope) ∧
      ((assignlvalrtype E X st lval rtype).2.errors = st.errors ↔
        (st.nodes rtype).scope ≤ (X.iexpGetLvalInfo st lval).lvalscope)) := by
  refine ⟨assignlvalrtype_no_error_scope E X st lval rtype hnp hr hl hb, ?_⟩
  intro hw
  rw [assignlvalrtype_borrow_errors E X st lval rtype hnp hw hr hl hb]
  by_cases hs : (X.iexpGetLvalInfo st lval).lvalscope < (st.nodes rtype).scope
  · rw [if_pos hs]
    constructor
    · exact ⟨fun _ => hs, fun _ => rfl⟩
    · constructor
      · intro h
        have := congrArg List.length h
        simp at this
      · intro h
        omega
  · rw [if_neg hs]
    constructor
    · constructor
      · intro h
        have := congrArg List.length h
        simp at this
      · intro h
        exact absurd h hs
    · constructor
      · intro _
        omega
      · intro _
        rfl

/-- C16 on the sample: `outer` (scope 2) takes the borrow recorded at scope 1
and is refused the borrow recorded at scope 3. -/
theorem assignlvalrtype_outlives_iff_witness :
    (assignlvalrtype sampleEnv sampleAssignEnv sampleIr 312 448).2.errors
      = sampleIr.errors ++ [outlivesError 312] ∧
    (assignlvalrtype sampleEnv sampleAssignEnv sampleIr 312 56).2.errors = sampleIr.errors ∧
    (sampleIr.nodes 56).scope ≤ (sampleAssignEnv.iexpGetLvalInfo sampleIr 312).lvalscope :=
  ⟨((assignlvalrtype_outlives_iff sampleEnv sampleAssignEnv sampleIr 312 448 (by decide)
      (by decide) (by decide) (by decide)).2 (by decide)).1.mpr (by decide),
   ((assignlvalrtype_outlives_iff sampleEnv sampleAssignEnv sampleIr 312 56 (by decide)
      (by decide) (by decide) (by decide)).2 (by decide)).2.mpr (by decide),
   (assignlvalrtype_outlives_iff sampleEnv sampleAssignEnv sampleIr 312 56 (by decide)
      (by decide) (by decide) (by decide)).1 (by decide)⟩

/-- C17, as the code has it: `outer` (scope 2) takes a borrow recorded at
scope 1 without any error, although 2 is not at most 1. -/
theorem assignFlow_accepts_deeper_lval :
    (sampleIr.nodes 56).tag = .RefTag ∧
    (sampleIr.nodes (sampleIr.nodes 312).vtype).region = sampleEnv.borrowRef ∧
    (assignFlow sampleEnv sampleAssignEnv sampleIr 464).map (fun st => st.errors) = some [] ∧
    (sampleAssignEnv.iexpGetLvalInfo sampleIr 312).lvalscope = 2 ∧
    (sampleIr.nodes 56).scope = 1 ∧
    (assignFlow sampleEnv sampleAssignEnv sampleIr 456).map (fun st => st.errors)
      = some [outlivesError 312] := by
  decide

/-- C17, amended: when a reference is stored in an lval that is not the
placeholder and has a borrowed reference type, and `assignlvalrtype` adds no
error, the scope of the lval is greater than or equal to the scope recorded
on the type of the rval. -/
theorem assignlvalrtype_accepted_scope (E : Env) (X : AssignEnv) (st : IrState)
    (lval rtype : Addr)
    (hnp : ¬ isPlaceholder X st lval)
    (hr : (st.nodes rtype).tag = .RefTag)
    (hl : (st.nodes (st.nodes lval).vtype).tag = .RefTag)
    (hb : (st.nodes (st.nodes lval).vtype).region = E.borrowRef)
    (hacc : (assignlvalrtype E X st lval rtype).2.errors = st.errors) :
    (X.iexpGetLvalInfo st lval).lvalscope ≥ (st.nodes rtype).scope :=
  assignlvalrtype_no_error_scope E X st lval rtype hnp hr hl hb hacc

/-- C17 amended, on the sample: `outer` (scope 2) takes the borrow recorded
at scope 1. -/
theorem assignlvalrtype_accepted_scope_witness :
    (sampleAssignEnv.iexpGetLvalInfo sampleIr 312).lvalscope ≥ (sampleIr.nodes 56).scope :=
  assignlvalrtype_accepted_scope sampleEnv sampleAssignEnv sampleIr 312 56 (by decide)
    (by decide) (by decide) (by decide) (by decide)

/-- C18, as the code has it: `_ = r` with `r` an owned reference reports no
error and leaves `r` unmoved, because `assignSingleFlow` returns before
`flowHandleMoveOrCopy`, which would have marked it. -/
theorem assignFlow_placeholder_not_moved :
    isPlaceholder sampleAssignEnv sampleIr 336 ∧
    (assignSingleFlow sampleEnv sampleAssignEnv sampleIr 336 (.rvalOf 392)).map
      (fun st => (st.errors, (st.nodes 320).flowtempflags &&& sampleAssignEnv.VarMoved))
      = some ([], 0) ∧
    (assignFlow sampleEnv sampleAssignEnv sampleIr 392).map
      (fun st => (st.errors, (st.nodes 320).flowtempflags &&& sampleAssignEnv.VarMoved))
      = some ([], 0) ∧
    ((sampleAssignEnv.flowHandleMoveOrCopy sampleIr (.rvalOf 392)).nodes 320).flowtempflags
      &&& sampleAssignEnv.VarMoved = sampleAssignEnv.VarMoved := by
  decide

/-- C18, amended: for the placeholder, `assignSingleFlow` returns the state
as it got it, with no error added and no flow flag changed, so the variable
of the rval is moved afterwards only if it was before; `assignFlow` of such an
assignment, the rval not being a tuple, does what `flowLoadValue` does and
nothing more. -/
theorem assignFlow_placeholder (E : Env) (X : AssignEnv) (st : IrState) (node : Addr)
    (hph : isPlaceholder X (X.flowLoadValue st (.rvalOf node))
      ((X.flowLoadValue st (.rvalOf node)).nodes node).lval)
    (hrv : ((X.flowLoadValue st (.rvalOf node)).nodes
      ((X.flowLoadValue st (.rvalOf node)).nodes node).rval).tag ≠ .VTupleTag) :
    assignFlow E X st node = some (X.flowLoadValue st (.rvalOf node)) ∧
    ∀ (st0 : IrState) (lval : Addr) (rval : Slot) (r : Addr),
      isPlaceholder X st0 lval → st0.read rval = some r →
      assignSingleFlow E X st0 lval rval = some st0 := by
  have hsingle : ∀ (st0 : IrState) (lval : Addr) (rval : Slot) (r : Addr),
      isPlaceholder X st0 lval → st0.read rval = some r →
      assignSingleFlow E X st0 lval rval = some st0 := by
    intro st0 lval rval r hp hread
    simp [assignSingleFlow, hread, assignlvalrtype, hp]
  refine ⟨?_, hsingle⟩
  have htag : ((X.flowLoadValue st (.rvalOf node)).nodes
      ((X.flowLoadValue st (.rvalOf node)).nodes node).lval).tag ≠ .VTupleTag := by
    rw [hph.1]; decide
  simp only [assignFlow, htag, hrv, if_false]
  exact hsingle _ _ (.rvalOf node) _ hph rfl

/-- C18 amended, on the sample assignment of `r` to the placeholder. -/
theorem assignFlow_placeholder_witness :
    assignFlow sampleEnv sampleAssignEnv sampleIr 392
      = some (sampleAssignEnv.flowLoadValue sampleIr (.rvalOf 392)) :=
  (assignFlow_placeholder sampleEnv sampleAssignEnv sampleIr 392 (by decide) (by decide)).1

/-! ## Type check of assignments -/

/-- C19, as the code has it: one lval and two rvals give no error. -/
theorem assignParaCheck_accepts_surplus_rvals :
    (sampleIr.nodes 488).elems.length = 1 ∧
    (sampleIr.nodes 472).elems.length = 2 ∧
    (assignParaCheck sampleAssignEnv sampleIr 488 472).map (fun st => st.errors) = some [] ∧
    (assignTypeCheck sampleEnv sampleAssignEnv 3 sampleIr 496).map (fun st => st.errors)
      = some [] := by
  decide

/-- The loop of `assignParaCheck` checks lval `k` against rval `k` for the
indices `i, i + 1, ...` in turn. -/
theorem assignParaCheckLoop_eq (X : AssignEnv) (lval rval : Addr) :
    ∀ (lcnt i : Nat) (st : IrState),
      assignParaCheckLoop X lval rval lcnt i st =
        (List.range' i lcnt).foldlM
          (fun (s : IrState) (k : Nat) => (s.read (.elemOf lval k)).bind
            (fun l => assignSingleCheck X s l (.elemOf rval k))) st := by
  intro lcnt
  induction lcnt with
  | zero => intro i st; simp [assignParaCheckLoop]
  | succ n ih =>
    intro i st
    rw [assignParaCheckLoop, List.range'_succ, List.foldlM_cons]
    cases hl : st.read (.elemOf lval i) with
    | none => simp
    | some l =>
      cases hc : assignSingleCheck X st l (.elemOf rval i) with
      | none => simp [hc]
      | some st2 => simp [hc, ih]

/-- C19, amended: with fewer rvalues than lvalues `assignParaCheck` reports
"Not enough tuple values given to lvals" and checks nothing; with at least
as many rvalues as lvalues, more included, it reports no size error: lvalue
`i` is checked against rvalue `i` for every `i` below the number of lvalues,
in order, the rvalues beyond are not checked, and the rval tuple takes the
type of the lval tuple. -/
theorem assignParaCheck_sizes (X : AssignEnv) (st : IrState) (lval rval : Addr) :
    ((st.nodes rval).elems.length < (st.nodes lval).elems.length →
      assignParaCheck X st lval rval =
        some (errorMsgNode st rval .ErrorBadTerm "Not enough tuple values given to lvals")) ∧
    ((st.nodes lval).elems.length ≤ (st.nodes rval).elems.length →
      assignParaCheck X st lval rval =
        ((List.range (st.nodes lval).elems.length).foldlM
          (fun (s : IrState) (k : Nat) => (s.read (.elemOf lval k)).bind
            (fun l => assignSingleCheck X s l (.elemOf rval k))) st).map
          (fun st2 => st2.setVtype rval (st2.nodes lval).vtype)) := by
  constructor
  · intro h
    simp [assignParaCheck, h]
  · intro h
    have hn : ¬ (st.nodes lval).elems.length > (st.nodes rval).elems.length := by omega
    simp only [assignParaCheck, hn, if_false, assignParaCheckLoop_eq, List.range_eq_range']

/-- C19 amended, on the sample tuples `(1, 2)` (472) and `(x)` (488). -/
theorem assignParaCheck_sizes_witness :
    assignParaCheck sampleAssignEnv sampleIr 472 488 =
      some (errorMsgNode sampleIr 488 .ErrorBadTerm "Not enough tuple values given to lvals") ∧
    assignParaCheck sampleAssignEnv sampleIr 488 472 =
      ((List.range (sampleIr.nodes 488).elems.length).foldlM
        (fun (s : IrState) (k : Nat) => (s.read (.elemOf 488 k)).bind
          (fun l => assignSingleCheck sampleAssignEnv s l (.elemOf 472 k))) sampleIr).map
        (fun st2 => st2.setVtype 472 (st2.nodes 488).vtype) :=
  ⟨(assignParaCheck_sizes sampleAssignEnv sampleIr 472 488).1 (by decide),
   (assignParaCheck_sizes sampleAssignEnv sampleIr 488 472).2 (by decide)⟩

/-- C20, as the code has it: `x = (1, 2)` with `x` an `i32` gives no error. -/
theorem assignTypeCheck_accepts_tuple_to_single :
    ¬ isPlaceholder sampleAssignEnv sampleIr 352 ∧
    (sampleIr.nodes 352).tag ≠ .VTupleTag ∧
    (sampleIr.nodes 472).tag = .VTupleTag ∧
    (assignTypeCheck sampleEnv sampleAssignEnv 3 sampleIr 480).map (fun st => st.errors)
      = some [] := by
  decide

/-- C20, amended: when the lval is typed and is not a tuple and the rval is
a tuple, `assignTypeCheck` checks the lval against the first element of the
tuple as a single assignment and checks no other element; so for an lval that
is not the placeholder it adds no error of its own when the lval is an lval
and the first element coerces to its type. -/
theorem assignTypeCheck_tuple_to_single (E : Env) (X : AssignEnv) (fuel : Nat) (st : IrState)
    (node : Addr)
    (hany : (X.iexpTypeCheckAny st (.lvalOf node)).1 ≠ 0)
    (hl : ((X.iexpTypeCheckAny st (.lvalOf node)).2.nodes
      ((X.iexpTypeCheckAny st (.lvalOf node)).2.nodes node).lval).tag ≠ .VTupleTag)
    (hr : ((X.iexpTypeCheckAny st (.lvalOf node)).2.nodes
      ((X.iexpTypeCheckAny st (.lvalOf node)).2.nodes node).rval).tag = .VTupleTag) :
    assignTypeCheck E X fuel st node =
      (assignSingleCheck X (X.iexpTypeCheckAny st (.lvalOf node)).2
        ((X.iexpTypeCheckAny st (.lvalOf node)).2.nodes node).lval
        (.elemOf ((X.iexpTypeCheckAny st (.lvalOf node)).2.nodes node).rval 0)).map
        (fun st2 => st2.setVtype node (st2.nodes (st2.nodes node).rval).vtype) ∧
    ∀ (st1 : IrState) (lval : Addr) (rval : Slot),
      ¬ isPlaceholder X st1 lval →
      (X.iexpIsLvalError st1 lval).1 ≠ 0 →
      (X.iexpTypeCheckCoerce (X.iexpIsLvalError st1 lval).2
        ((X.iexpIsLvalError st1 lval).2.nodes lval).vtype rval).1 ≠ 0 →
      assignSingleCheck X st1 lval rval =
        some (X.iexpTypeCheckCoerce (X.iexpIsLvalError st1 lval).2
          ((X.iexpIsLvalError st1 lval).2.nodes lval).vtype rval).2 := by
  constructor
  · simp only [assignTypeCheck, hany, if_false, hl, hr, if_true, assignToOneCheck]
  · intro st1 lval rval hnp h1 h2
    simp only [assignSingleCheck, hnp, if_false, h1, h2]

/-- C20 amended, on the sample assignment of the tuple `(1, 2)` to `x`. -/
theorem assignTypeCheck_tuple_to_single_witness :
    assignTypeCheck sampleEnv sampleAssignEnv 3 sampleIr 480 =
      (assignSingleCheck sampleAssignEnv
        (sampleAssignEnv.iexpTypeCheckAny sampleIr (.lvalOf 480)).2
        ((sampleAssignEnv.iexpTypeCheckAny sampleIr (.lvalOf 480)).2.nodes 480).lval
        (.elemOf ((sampleAssignEnv.iexpTypeCheckAny sampleIr (.lvalOf 480)).2.nodes 480).rval
          0)).map
        (fun st2 => st2.setVtype 480 (st2.nodes (st2.nodes 480).rval).vtype) ∧
    assignSingleCheck sampleAssignEnv sampleIr 352 (.elemOf 472 0) =
      some (sampleAssignEnv.iexpTypeCheckCoerce (sampleAssignEnv.iexpIsLvalError sampleIr 352).2
        ((sampleAssignEnv.iexpIsLvalError sampleIr 352).2.nodes 352).vtype (.elemOf 472 0)).2 :=
  ⟨(assignTypeCheck_tuple_to_single sampleEnv sampleAssignEnv 3 sampleIr 480 (by decide)
      (by decide) (by decide)).1,
   (assignTypeCheck_tuple_to_single sampleEnv sampleAssignEnv 3 sampleIr 480 (by decide)
      (by decide) (by decide)).2 sampleIr 352 (.elemOf 472 0) (by decide) (by decide)
      (by decide)⟩


/-! ## Type check of assignments: one expression to several lvals, and the placeholder -/

/-- C21: on the assignment `(1, s) = f()` where `f` returns `(i32, Shape)` and
`s` is a `Shape`, the first lval is rejected as not being an lval, and the
loop of `assignMultRetCheck` then compares `s` with the first element type
`i32` instead of the second: it reports an InvType error at `s`, although `s`
is a valid lval whose type is `iTypeIsSame` to element 1 of the tuple type. -/
theorem assignMultRetCheck_compares_shifted_type :
    (assignMultRetCheck sampleEnv sampleAssignEnv 4 sampleMultRetIr 528 (.rvalOf 536)).map
        (fun s => s.errors) =
      some [⟨376, .ErrorBadLval, "Expression to left of assignment must be lval"⟩,
            ⟨520, .ErrorInvType, "Return value's type does not match lval's type"⟩] ∧
    (sampleAssignEnv.iexpIsLvalError sampleMultRetIr 520).1 = 1 ∧
    (sampleMultRetNodes 504).elems = [48, 40] ∧
    iTypeIsSame sampleEnv 4 (sampleMultRetNodes 520).vtype 40 = some true ∧
    iTypeIsSame sampleEnv 4 (sampleMultRetNodes 520).vtype 48 = some false := by
  decide

/-- C22: on `_ = 1` with a literal that is not typed yet, `assignTypeCheck`
records no error, the literal keeps the unknown type `224` (it is never given
to the type check) and the assignment gets the unknown type; on `x = 1` the
same literal is typed `i32` and so is the assignment. -/
theorem assignTypeCheck_placeholder_leaves_rval_untyped :
    (assignTypeCheck sampleEnv sampleTypingEnv 4 sampleUntypedIr 552).map
        (fun s => (s.errors, (s.nodes 544).vtype, (s.nodes 552).vtype)) =
      some ([], 224, 224) ∧
    (assignTypeCheck sampleEnv sampleTypingEnv 4 sampleUntypedIr 560).map
        (fun s => (s.errors, (s.nodes 544).vtype, (s.nodes 560).vtype)) =
      some ([], 48, 48) := by
  decide


/-! ## Array literals -/

/-- Field reads of a state with an error added. -/
theorem TcState.errorMsgNode_nodes (st : TcState) (node : Addr) (code : ErrorCode)
    (msg : String) : (st.errorMsgNode node code msg).nodes = st.nodes := rfl

/-- Reading a slot does not depend on the errors. -/
theorem TcState.errorMsgNode_read (st : TcState) (node : Addr) (code : ErrorCode)
    (msg : String) (slot : TcSlot) : (st.errorMsgNode node code msg).read slot = st.read slot := by
  cases slot <;> rfl

/-- With enough fuel the walk through a chain of constants ends at the node
the chain leads to, when that node is an unsigned literal. -/
theorem arrayLitDimNode_chain (st : TcState) (lit : Addr)
    (hlit : (st.nodes lit).tag = .ULitTag) :
    ∀ (k fuel : Nat) (d : Addr), constChain st k d lit → k < fuel →
      arrayLitDimNode st fuel d = some lit := by
  intro k
  induction k with
  | zero =>
    intro fuel d hc hk
    obtain ⟨f, rfl⟩ : ∃ f, fuel = f + 1 := ⟨fuel - 1, by omega⟩
    have hd : d = lit := hc
    subst hd
    simp [arrayLitDimNode, hlit]
  | succ k ih =>
    intro fuel d hc hk
    obtain ⟨f, rfl⟩ : ∃ f, fuel = f + 1 := ⟨fuel - 1, by omega⟩
    obtain ⟨h1, h2, h3⟩ := hc
    simp only [arrayLitDimNode, h1, h2, if_true]
    exact ih f _ h3 (by omega)

/-- C23: for a fill-form literal with one dimension `dim` and one fill
expression, when a chain of `k` named constants leads from the dimension to the
unsigned literal `n` (`k = 0`: the dimension is the literal itself, and it has
been given the type `usize`) and the fill expression type-checks,
`arrayLitTypeCheckDimExp` sets the literal's `vtype` to the array type of size
`n` and of the type of the fill expression; and when moreover the dimension
counts as a literal and coerces to `usize`, `arrayLitTypeCheck` does the same
and adds no error of its own. -/
theorem arrayLitTypeCheck_fill (E : Env) (X : TcEnv) (fuel k n : Nat) (st : TcState)
    (arrlit dim lit elem e : Addr) (r3 : Nat × TcState)
    (hdims : (st.nodes arrlit).dimens = [dim])
    (hforce : k = 0 → (st.nodes dim).tag = .ULitTag)
    (hchain : constChain (arrayLitDimCheck X st arrlit dim) k dim lit)
    (hk : k < fuel)
    (hlit : ((arrayLitDimCheck X st arrlit dim).nodes lit).tag = .ULitTag)
    (hn : ((arrayLitDimCheck X st arrlit dim).nodes lit).uintlit = n)
    (hsize : n < 2 ^ sizeBits)
    (helems : ((arrayLitDimCheck X st arrlit dim).nodes arrlit).elems = [elem])
    (hexp : X.isExpNode ((arrayLitDimCheck X st arrlit dim).nodes elem).tag = true)
    (hr3 : X.iexpTypeCheckAny (arrayLitDimCheck X st arrlit dim) (.elemOf arrlit 0) = r3)
    (hany : r3.1 ≠ 0)
    (he : r3.2.read (.elemOf arrlit 0) = some e) :
    arrayLitTypeCheckDimExp E X fuel st arrlit =
      some ((X.newArrayNodeTyped r3.2 arrlit n (r3.2.nodes e).vtype).2.setVtype arrlit
        (X.newArrayNodeTyped r3.2 arrlit n (r3.2.nodes e).vtype).1) ∧
    (X.litIsLiteral st dim = true →
      (X.iexpTypeCheckCoerce (st.setVtype dim X.usizeType) X.usizeType (.dimOf arrlit 0)).1 = 1 →
      k = 0 →
      arrayLitDimCheck X st arrlit dim =
        (X.iexpTypeCheckCoerce (st.setVtype dim X.usizeType) X.usizeType (.dimOf arrlit 0)).2 ∧
      arrayLitTypeCheck E X fuel st arrlit =
        some ((X.newArrayNodeTyped r3.2 arrlit n (r3.2.nodes e).vtype).2.setVtype arrlit
          (X.newArrayNodeTyped r3.2 arrlit n (r3.2.nodes e).vtype).1)) := by
  have hread : st.read (.dimOf arrlit 0) = some dim := by simp [TcState.read, hdims]
  have helem : (arrayLitDimCheck X st arrlit dim).read (.elemOf arrlit 0) = some elem := by
    simp [TcState.read, helems]
  have hfound : (if ((arrayLitDimCheck X st arrlit dim).nodes dim).tag ≠ .ULitTag then
        arrayLitDimNode (arrayLitDimCheck X st arrlit dim) fuel dim
      else some dim) = some lit := by
    cases k with
    | zero =>
      have hd : dim = lit := hchain
      subst hd
      simp [hlit]
    | succ k =>
      have h1 : ((arrayLitDimCheck X st arrlit dim).nodes dim).tag = .VarNameUseTag := hchain.1
      rw [if_pos (by rw [h1]; decide)]
      exact arrayLitDimNode_chain _ lit hlit _ _ _ hchain hk
  have hmain : arrayLitTypeCheckDimExp E X fuel st arrlit =
      some ((X.newArrayNodeTyped r3.2 arrlit n (r3.2.nodes e).vtype).2.setVtype arrlit
        (X.newArrayNodeTyped r3.2 arrlit n (r3.2.nodes e).vtype).1) := by
    unfold arrayLitTypeCheckDimExp
    simp only [hdims, List.length_singleton, gt_iff_lt, Nat.lt_irrefl, Nat.zero_lt_one, if_true,
      if_false, hread, helem, helems, hexp, ne_eq, not_true_eq_false, Bool.true_eq_false,
      or_self, hfound, hlit, hn, hr3, hany, not_false_eq_true, he]
    simp [wrapSize, Nat.mod_eq_of_lt hsize]
  refine ⟨hmain, ?_⟩
  intro hL hco hk0
  have htag := hforce hk0
  have hdc : arrayLitDimCheck X st arrlit dim =
      (X.iexpTypeCheckCoerce (st.setVtype dim X.usizeType) X.usizeType (.dimOf arrlit 0)).2 := by
    unfold arrayLitDimCheck
    simp [htag, hco]
  refine ⟨hdc, ?_⟩
  unfold arrayLitTypeCheck
  simp only [hread, hL, Bool.true_eq_false, if_false]
  exact hmain

/-- C23 on the sample literals `[M, 0]`, where `M = N` and
`N = 4u32`, and `[4u32, 0]`: both get the array type of size 4. -/
theorem arrayLitTypeCheck_fill_witness :
    arrayLitTypeCheckDimExp sampleEnv sampleTcEnv 4 sampleTc 628 =
      some ((sampleTcEnv.newArrayNodeTyped (arrayLitDimCheck sampleTcEnv sampleTc 628 624)
          628 4 48).2.setVtype 628 1001) ∧
    arrayLitTypeCheck sampleEnv sampleTcEnv 4 sampleTc 608 =
      some ((sampleTcEnv.newArrayNodeTyped (arrayLitDimCheck sampleTcEnv sampleTc 608 600)
          608 4 48).2.setVtype 608 1001) :=
  ⟨(arrayLitTypeCheck_fill sampleEnv sampleTcEnv 4 2 4 sampleTc 628 624 600 604 604
      (sampleTcEnv.iexpTypeCheckAny (arrayLitDimCheck sampleTcEnv sampleTc 628 624)
        (.elemOf 628 0))
      (by decide) (by decide) ⟨by decide, by decide, by decide, by decide, rfl⟩ (by decide)
      (by decide) (by decide) (by decide) (by decide) (by decide) rfl (by decide)
      (by decide)).1,
   ((arrayLitTypeCheck_fill sampleEnv sampleTcEnv 4 0 4 sampleTc 608 600 600 604 604
      (sampleTcEnv.iexpTypeCheckAny (arrayLitDimCheck sampleTcEnv sampleTc 608 600)
        (.elemOf 608 0))
      (by decide) (by decide) rfl (by decide)
      (by decide) (by decide) (by decide) (by decide) (by decide) rfl (by decide)
      (by decide)).2 (by decide) (by decide) rfl).2⟩

/-- C24: the three malformed shapes of an array literal.  With more than one
dimension, or as a list without elements, `arrayLitTypeCheckDimExp` reports a
BadArray error at the literal and changes no node.  With one dimension and a
number of fill values other than one, or a fill value that is not an
expression, it reports a BadArray error at the literal in the state left by
the handling of the dimension and changes no node of that state; the
literal's `vtype` is then the one it had, when the dimension is another node
and the coercion of the dimension leaves the literal's `vtype`. -/
theorem arrayLitTypeCheckDimExp_malformed (E : Env) (X : TcEnv) (fuel : Nat) (st : TcState)
    (arrlit : Addr) :
    ((st.nodes arrlit).dimens.length > 1 →
      arrayLitTypeCheckDimExp E X fuel st arrlit =
        some (st.errorMsgNode arrlit .ErrorBadArray
          "Array literal may only specify one dimension")) ∧
    (∀ dim, (st.nodes arrlit).dimens = [dim] →
      (((arrayLitDimCheck X st arrlit dim).nodes arrlit).elems.length ≠ 1 ∨
        ∃ elem, ((arrayLitDimCheck X st arrlit dim).nodes arrlit).elems = [elem] ∧
          X.isExpNode ((arrayLitDimCheck X st arrlit dim).nodes elem).tag = false) →
      arrayLitTypeCheckDimExp E X fuel st arrlit =
          some ((arrayLitDimCheck X st arrlit dim).errorMsgNode arrlit .ErrorBadArray
            "Array fill value may only be one value") ∧
        (dim ≠ arrlit →
          ((X.iexpTypeCheckCoerce
              (if (st.nodes dim).tag = .ULitTag then st.setVtype dim X.usizeType else st)
              X.usizeType (.dimOf arrlit 0)).2.nodes arrlit).vtype =
            ((if (st.nodes dim).tag = .ULitTag then st.setVtype dim X.usizeType
              else st).nodes arrlit).vtype →
          ((arrayLitDimCheck X st arrlit dim).nodes arrlit).vtype = (st.nodes arrlit).vtype)) ∧
    ((st.nodes arrlit).dimens = [] → (st.nodes arrlit).elems = [] →
      arrayLitTypeCheckDimExp E X fuel st arrlit =
        some (st.errorMsgNode arrlit .ErrorBadArray "Array literal list may not be empty")) := by
  refine ⟨?_, ?_, ?_⟩
  · intro h
    unfold arrayLitTypeCheckDimExp
    rw [if_pos (by omega), if_pos h]
  · intro dim hdims hbad
    have hread : st.read (.dimOf arrlit 0) = some dim := by simp [TcState.read, hdims]
    refine ⟨?_, ?_⟩
    · unfold arrayLitTypeCheckDimExp
      simp only [hdims, List.length_singleton, gt_iff_lt, Nat.lt_irrefl, Nat.zero_lt_one,
        if_true, if_false, hread]
      cases hel : ((arrayLitDimCheck X st arrlit dim).nodes arrlit).elems with
      | nil => simp [TcState.read, hel]
      | cons a rest =>
        have hr : (arrayLitDimCheck X st arrlit dim).read (.elemOf arrlit 0) = some a := by
          simp [TcState.read, hel]
        simp only [hr]
        rcases hbad with hlen | ⟨elem, helem, hexp⟩
        · rw [if_pos (Or.inl (by rw [← hel]; exact hlen))]
        · rw [hel] at helem
          have ha : a = elem := by injection helem
          subst ha
          rw [if_pos (Or.inr hexp)]
    · intro hne hframe
      unfold arrayLitDimCheck
      have hset : ((if (st.nodes dim).tag = .ULitTag then st.setVtype dim X.usizeType
          else st).nodes arrlit).vtype = (st.nodes arrlit).vtype := by
        split_ifs
        · simp [TcState.setVtype, Ne.symm hne]
        · rfl
      simp only []
      generalize (if (st.nodes dim).tag = .ULitTag then st.setVtype dim X.usizeType
        else st) = s1 at hframe hset ⊢
      by_cases hc : (X.iexpTypeCheckCoerce s1 X.usizeType (.dimOf arrlit 0)).1 ≠ 1
      · rw [if_pos hc, TcState.errorMsgNode_nodes, hframe, hset]
      · rw [if_neg hc, hframe, hset]
  · intro hd he
    unfold arrayLitTypeCheckDimExp
    simp [hd, he]

/-- C24 on the sample literals with two dimensions (`644`), with two
fill values (`648`) and without elements (`652`). -/
theorem arrayLitTypeCheckDimExp_malformed_witness :
    arrayLitTypeCheckDimExp sampleEnv sampleTcEnv 4 sampleTc 644 =
      some (sampleTc.errorMsgNode 644 .ErrorBadArray
        "Array literal may only specify one dimension") ∧
    (arrayLitTypeCheckDimExp sampleEnv sampleTcEnv 4 sampleTc 648 =
        some ((arrayLitDimCheck sampleTcEnv sampleTc 648 600).errorMsgNode 648 .ErrorBadArray
          "Array fill value may only be one value") ∧
      ((arrayLitDimCheck sampleTcEnv sampleTc 648 600).nodes 648).vtype =
        (sampleTc.nodes 648).vtype) ∧
    arrayLitTypeCheckDimExp sampleEnv sampleTcEnv 4 sampleTc 652 =
      some (sampleTc.errorMsgNode 652 .ErrorBadArray "Array literal list may not be empty") :=
  ⟨(arrayLitTypeCheckDimExp_malformed sampleEnv sampleTcEnv 4 sampleTc 644).1 (by decide),
   ⟨((arrayLitTypeCheckDimExp_malformed sampleEnv sampleTcEnv 4 sampleTc 648).2.1 600
        (by decide) (Or.inl (by decide))).1,
    ((arrayLitTypeCheckDimExp_malformed sampleEnv sampleTcEnv 4 sampleTc 648).2.1 600
        (by decide) (Or.inl (by decide))).2 (by decide) (by decide)⟩,
   (arrayLitTypeCheckDimExp_malformed sampleEnv sampleTcEnv 4 sampleTc 652).2.2 (by decide)
     (by decide)⟩

/-- Once the type to match is known, the loop over the elements is the check
of the specification: every element is compared with that type. -/
theorem arrayLitListLoop_known (E : Env) (X : TcEnv) (fuel : Nat) (arrlit T : Addr)
    (hok : ∀ s i, (X.iexpTypeCheckAny s (.elemOf arrlit i)).1 ≠ 0)
    (hT : T ≠ X.unknownType) :
    ∀ (cnt i : Nat) (st : TcState),
      arrayLitListLoop E X fuel arrlit cnt i T st =
        (arrayLitListSpec E X fuel arrlit T cnt i st).map (fun s => (T, s)) := by
  intro cnt
  induction cnt with
  | zero => intro i st; simp [arrayLitListLoop, arrayLitListSpec]
  | succ cnt ih =>
    intro i st
    unfold arrayLitListLoop arrayLitListSpec
    simp only [hok st i, if_false, hT]
    cases (X.iexpTypeCheckAny st (.elemOf arrlit i)).2.read (.elemOf arrlit i) with
    | none => rfl
    | some e =>
      simp only []
      cases iTypeIsSame E fuel (((X.iexpTypeCheckAny st (.elemOf arrlit i)).2.nodes e).vtype) T with
      | none => rfl
      | some same => simp only []; exact ih _ _

/-- The check of the specification keeps the number of elements, when the type
check of an element does. -/
theorem arrayLitListSpec_length (E : Env) (X : TcEnv) (fuel : Nat) (arrlit T : Addr)
    (hkeep : ∀ s i, ((X.iexpTypeCheckAny s (.elemOf arrlit i)).2.nodes arrlit).elems.length =
      (s.nodes arrlit).elems.length) :
    ∀ (cnt i : Nat) (st s : TcState), arrayLitListSpec E X fuel arrlit T cnt i st = some s →
      (s.nodes arrlit).elems.length = (st.nodes arrlit).elems.length := by
  intro cnt
  induction cnt with
  | zero =>
    intro i st s h
    simp only [arrayLitListSpec, Option.some.injEq] at h
    rw [← h]
  | succ cnt ih =>
    intro i st s h
    unfold arrayLitListSpec at h
    simp only [] at h
    cases hr : (X.iexpTypeCheckAny st (.elemOf arrlit i)).2.read (.elemOf arrlit i) with
    | none => rw [hr] at h; exact absurd h (by simp)
    | some e =>
      rw [hr] at h
      simp only [] at h
      cases hs : iTypeIsSame E fuel (((X.iexpTypeCheckAny st (.elemOf arrlit i)).2.nodes e).vtype) T with
      | none => rw [hs] at h; exact absurd h (by simp)
      | some same =>
        rw [hs] at h
        simp only [] at h
        have h2 := ih _ _ _ h
        rw [h2, ← hkeep st i]
        cases same <;> rfl

/-- C25: for a list-form literal with `n ≥ 1` elements whose type checks all
succeed and keep the list, with `T` the type of the first element after its
type check (not the unknown type): `arrayLitTypeCheckDimExp` type-checks each
further element in turn and reports a BadArray error ("Inconsistent type") at
exactly those whose type is not `iTypeIsSame` to `T`, as `arrayLitListSpec`
words it, and then sets the literal's `vtype` to the array type of size `n`
and element type `T`. -/
theorem arrayLitTypeCheckDimExp_list (E : Env) (X : TcEnv) (fuel : Nat) (st : TcState)
    (arrlit e0 : Addr) (r0 : Nat × TcState)
    (hdim : (st.nodes arrlit).dimens = [])
    (hn : 1 ≤ (st.nodes arrlit).elems.length)
    (hok : ∀ s i, (X.iexpTypeCheckAny s (.elemOf arrlit i)).1 ≠ 0)
    (hkeep : ∀ s i, ((X.iexpTypeCheckAny s (.elemOf arrlit i)).2.nodes arrlit).elems.length =
      (s.nodes arrlit).elems.length)
    (hr0 : X.iexpTypeCheckAny st (.elemOf arrlit 0) = r0)
    (he0 : r0.2.read (.elemOf arrlit 0) = some e0)
    (hT : (r0.2.nodes e0).vtype ≠ X.unknownType) :
    arrayLitTypeCheckDimExp E X fuel st arrlit =
      (arrayLitListSpec E X fuel arrlit (r0.2.nodes e0).vtype
          ((st.nodes arrlit).elems.length - 1) 1 r0.2).map
        (fun s =>
          (X.newArrayNodeTyped s arrlit (st.nodes arrlit).elems.length
              (r0.2.nodes e0).vtype).2.setVtype arrlit
            (X.newArrayNodeTyped s arrlit (st.nodes arrlit).elems.length
              (r0.2.nodes e0).vtype).1) := by
  obtain ⟨m, hm⟩ : ∃ m, (st.nodes arrlit).elems.length = m + 1 :=
    ⟨(st.nodes arrlit).elems.length - 1, by omega⟩
  have hloop : arrayLitListLoop E X fuel arrlit (m + 1) 0 X.unknownType st =
      (arrayLitListSpec E X fuel arrlit (r0.2.nodes e0).vtype m 1 r0.2).map
        (fun s => ((r0.2.nodes e0).vtype, s)) := by
    rw [arrayLitListLoop]
    simp only [hr0, he0, if_true]
    have h0 : ¬ r0.1 = 0 := by rw [← hr0]; exact hok st 0
    simp only [h0, if_false]
    exact arrayLitListLoop_known E X fuel arrlit _ hok hT m 1 r0.2
  unfold arrayLitTypeCheckDimExp
  simp only [hdim, List.length_nil, gt_iff_lt, Nat.lt_irrefl, if_false, hm, Nat.succ_ne_zero,
    Nat.add_sub_cancel, hloop]
  cases hs : arrayLitListSpec E X fuel arrlit (r0.2.nodes e0).vtype m 1 r0.2 with
  | none => rfl
  | some s =>
    have hlen := arrayLitListSpec_length E X fuel arrlit _ hkeep _ _ _ _ hs
    have hlen0 : (r0.2.nodes arrlit).elems.length = m + 1 := by
      rw [← hr0, hkeep st 0, hm]
    simp only [Option.map_some', hlen, hlen0]

/-- C25 on the sample list `[0, 7, shape]`: the array type has size
3 and element type `i32`, and the third element is reported. -/
theorem arrayLitTypeCheckDimExp_list_witness :
    arrayLitTypeCheckDimExp sampleEnv sampleTcEnv 4 sampleTc 632 =
        (arrayLitListSpec sampleEnv sampleTcEnv 4 632 48 2 1 sampleTc).map
          (fun s => (sampleTcEnv.newArrayNodeTyped s 632 3 48).2.setVtype 632
            (sampleTcEnv.newArrayNodeTyped s 632 3 48).1) ∧
    (arrayLitListSpec sampleEnv sampleTcEnv 4 632 48 2 1 sampleTc).map (fun s => s.errors) =
      some [⟨640, .ErrorBadArray, "Inconsistent type of array literal value"⟩] :=
  ⟨arrayLitTypeCheckDimExp_list sampleEnv sampleTcEnv 4 sampleTc 632 604
      (sampleTcEnv.iexpTypeCheckAny sampleTc (.elemOf 632 0))
      (by decide) (by decide) (fun _ _ => Nat.one_ne_zero) (fun _ _ => rfl) rfl (by decide)
      (by decide),
   by decide⟩


/-! ## Implicit returns -/

/-- The statements of a block after `return nil` has been added, when the
block is a node allocated before. -/
theorem addNilReturn_stmts (st : TcState) (blk : Addr) (hblk : blk < st.next) :
    ((addNilReturn st blk).nodes blk).stmts = (st.nodes blk).stmts ++ [st.next + 1] := by
  have h1 : blk ≠ st.next := Nat.ne_of_lt hblk
  have h2 : blk ≠ st.next + 1 := Nat.ne_of_lt (Nat.lt_succ_of_lt hblk)
  simp [addNilReturn, newNilLitNode, newReturnNodeExp, TcState.alloc, TcState.nodesAdd,
    TcState.setStmts, h1, h2]

/-- The two nodes made when `return nil` is added. -/
theorem addNilReturn_new (st : TcState) (blk : Addr) (hblk : blk < st.next) :
    (addNilReturn st blk).nodes (st.next + 1) = { tag := .ReturnTag, exp := st.next } ∧
    (addNilReturn st blk).nodes st.next = { tag := .NilLitTag } := by
  have h1 : st.next ≠ blk := Nat.ne_of_gt hblk
  have h2 : st.next + 1 ≠ blk := Nat.ne_of_gt (Nat.lt_succ_of_lt hblk)
  simp [addNilReturn, newNilLitNode, newReturnNodeExp, TcState.alloc, TcState.nodesAdd,
    TcState.setStmts, h1, h2]

/-- Adding `return nil` leaves the errors and every other node allocated
before. -/
theorem addNilReturn_frame (st : TcState) (blk : Addr) :
    (addNilReturn st blk).errors = st.errors ∧
    ∀ a, a < st.next → a ≠ blk → (addNilReturn st blk).nodes a = st.nodes a := by
  refine ⟨rfl, ?_⟩
  intro a ha hab
  have h1 : a ≠ st.next := Nat.ne_of_lt ha
  have h2 : a ≠ st.next + 1 := Nat.ne_of_lt (Nat.lt_succ_of_lt ha)
  simp [addNilReturn, newNilLitNode, newReturnNodeExp, TcState.alloc, TcState.nodesAdd,
    TcState.setStmts, h1, h2, hab]

/-- On a block whose last statement is a return, `fnImplicitReturn` changes
nothing, when a return is not an expression node. -/
theorem fnImplicitReturn_of_return (X : TcEnv) (st : TcState) (rettype blk last : Addr)
    (hret : X.isExpNode .ReturnTag = false)
    (hlast : (st.nodes blk).stmts.getLast? = some last)
    (htag : (st.nodes last).tag = .ReturnTag) :
    fnImplicitReturn X st rettype blk = some st := by
  have hne : (st.nodes blk).stmts.length ≠ 0 := by
    intro h
    rw [List.length_eq_zero] at h
    rw [h] at hlast
    exact absurd hlast (by simp)
  unfold fnImplicitReturn
  simp only [hne, if_false, hlast, htag, hret, ne_eq, not_true_eq_false, Bool.false_eq_true]
  split_ifs <;> rfl

/-- C26: `fnImplicitReturn` on a block with the statements `init ++ [last]`
(the block a node allocated before, a return not an expression node).  It
returns a state `r`.  If the return type is not void and `last` is an
expression, the statements become `init` and a new return node wrapping
`last`, the same number as before.  If the return type is void and `last` is
not a return, a new `return nil` is added after `last`.  If `last` is a
return, nothing changes.  In every case the statements begin with `init`,
every other node allocated before is unchanged, and either the NoRet error is
reported at `last` or the last statement of the block is then a return. -/
theorem fnImplicitReturn_nonempty (X : TcEnv) (st : TcState) (rettype blk last : Addr)
    (init : List Addr)
    (hst : (st.nodes blk).stmts = init ++ [last])
    (hblk : blk < st.next)
    (hret : X.isExpNode .ReturnTag = false) :
    ∃ r, fnImplicitReturn X st rettype blk = some r ∧
      ((st.nodes rettype).tag ≠ .VoidTag → X.isExpNode (st.nodes last).tag = true →
        (r.nodes blk).stmts = init ++ [st.next] ∧
        r.nodes st.next = { tag := .ReturnTag, exp := last } ∧
        (r.nodes blk).stmts.length = (st.nodes blk).stmts.length ∧
        r.errors = st.errors) ∧
      ((st.nodes rettype).tag = .VoidTag → (st.nodes last).tag ≠ .ReturnTag →
        (r.nodes blk).stmts = init ++ [last, st.next + 1] ∧
        r.nodes (st.next + 1) = { tag := .ReturnTag, exp := st.next } ∧
        r.nodes st.next = { tag := .NilLitTag } ∧
        (r.nodes blk).stmts.length = (st.nodes blk).stmts.length + 1 ∧
        r.errors = st.errors) ∧
      ((st.nodes last).tag = .ReturnTag → r = st) ∧
      (r.nodes blk).stmts.take init.length = init ∧
      (∀ a, a < st.next → a ≠ blk → r.nodes a = st.nodes a) ∧
      (r.errors = st.errors ++ [⟨last, .ErrorNoRet,
          "A return value is expected but this statement cannot give one."⟩] ∨
        ∃ l, (r.nodes blk).stmts.getLast? = some l ∧ (r.nodes l).tag = .ReturnTag) := by
  have hlast : (st.nodes blk).stmts.getLast? = some last := by rw [hst]; simp
  have hne : (st.nodes blk).stmts.length ≠ 0 := by rw [hst]; simp
  have hb1 : blk ≠ st.next := Nat.ne_of_lt hblk
  have hb2 : st.next ≠ blk := Nat.ne_of_gt hblk
  by_cases htag : (st.nodes last).tag = .ReturnTag
  · refine ⟨st, fnImplicitReturn_of_return X st rettype blk last hret hlast htag, ?_, ?_, ?_, ?_,
      ?_, ?_⟩
    · intro _ hexp
      rw [htag, hret] at hexp
      exact absurd hexp (by decide)
    · intro _ h
      exact absurd htag h
    · intro _; rfl
    · rw [hst]; simp
    · intro _ _ _; rfl
    · exact Or.inr ⟨last, hlast, htag⟩
  · by_cases hvoid : (st.nodes rettype).tag = .VoidTag
    · refine ⟨addNilReturn st blk, ?_, ?_, ?_, ?_, ?_, ?_, ?_⟩
      · unfold fnImplicitReturn
        simp only [hne, if_false, hlast, hvoid, if_true, ne_eq, htag, not_false_eq_true]
      · intro h; exact absurd hvoid h
      · intro _ _
        refine ⟨?_, (addNilReturn_new st blk hblk).1, (addNilReturn_new st blk hblk).2, ?_,
          (addNilReturn_frame st blk).1⟩
        · rw [addNilReturn_stmts st blk hblk, hst]; simp
        · rw [addNilReturn_stmts st blk hblk]; simp
      · intro h; exact absurd h htag
      · rw [addNilReturn_stmts st blk hblk, hst]; simp
      · exact (addNilReturn_frame st blk).2
      · refine Or.inr ⟨st.next + 1, ?_, ?_⟩
        · rw [addNilReturn_stmts st blk hblk]; simp
        · rw [(addNilReturn_new st blk hblk).1]
    · by_cases hexp : X.isExpNode (st.nodes last).tag = true
      · refine ⟨(newReturnNodeExp st last).2.setStmts blk
          (((newReturnNodeExp st last).2.nodes blk).stmts.dropLast ++
            [(newReturnNodeExp st last).1]), ?_, ?_, ?_, ?_, ?_, ?_, ?_⟩
        · unfold fnImplicitReturn
          simp only [hne, if_false, hlast, hvoid, hexp, if_true]
        · intro _ _
          simp [newReturnNodeExp, TcState.alloc, TcState.setStmts, hb1, hb2, hst]
        · intro h; exact absurd h hvoid
        · intro h; exact absurd h htag
        · simp [newReturnNodeExp, TcState.alloc, TcState.setStmts, hb1, hst]
        · intro a ha hab
          have h1 : a ≠ st.next := Nat.ne_of_lt ha
          simp [newReturnNodeExp, TcState.alloc, TcState.setStmts, hab, h1]
        · refine Or.inr ⟨st.next, ?_, ?_⟩
          · simp [newReturnNodeExp, TcState.alloc, TcState.setStmts, hb1, hst]
          · simp [newReturnNodeExp, TcState.alloc, TcState.setStmts, hb2]
      · refine ⟨st.errorMsgNode last .ErrorNoRet
          "A return value is expected but this statement cannot give one.",
          ?_, ?_, ?_, ?_, ?_, ?_, ?_⟩
        · unfold fnImplicitReturn
          simp only [hne, if_false, hlast, hvoid, hexp, ne_eq, htag, not_false_eq_true, if_true,
            Bool.false_eq_true]
        · intro _ h; exact absurd h hexp
        · intro h; exact absurd h hvoid
        · intro h; exact absurd h htag
        · rw [TcState.errorMsgNode_nodes, hst]; simp
        · intro _ _ _; rfl
        · exact Or.inl rfl

/-- C26 on the body `{7}` of the sample method `len`, whose return
type is `i32`: the literal is wrapped in the new return node `1000`. -/
theorem fnImplicitReturn_nonempty_witness :
    ∃ r, fnImplicitReturn sampleTcEnv sampleTc 48 724 = some r ∧
      (r.nodes 724).stmts = [1000] ∧ r.nodes 1000 = { tag := .ReturnTag, exp := 636 } ∧
      r.errors = [] := by
  obtain ⟨r, h, hwrap, _⟩ :=
    fnImplicitReturn_nonempty sampleTcEnv sampleTc 48 724 636 [] (by decide) (by decide)
      (by decide)
  have hw := hwrap (by decide) (by decide)
  exact ⟨r, h, hw.1, hw.2.1, hw.2.2.2⟩

/-- After `return nil` has been added the last statement of the block is a
return. -/
theorem addNilReturn_last (st : TcState) (blk : Addr) (hblk : blk < st.next) :
    ((addNilReturn st blk).nodes blk).stmts.getLast? = some (st.next + 1) ∧
    ((addNilReturn st blk).nodes (st.next + 1)).tag = .ReturnTag := by
  refine ⟨?_, ?_⟩
  · rw [addNilReturn_stmts st blk hblk]; simp
  · rw [(addNilReturn_new st blk hblk).1]

/-- C27: `fnImplicitReturn` is idempotent on the statements of the block: for
every return type and every block (a node allocated before, empty or not),
when a return is not an expression node, the first application returns, the
second application to its result returns too, and the statements of the block
are the same after both. -/
theorem fnImplicitReturn_idempotent (X : TcEnv) (st : TcState) (rettype blk : Addr)
    (hblk : blk < st.next)
    (hret : X.isExpNode .ReturnTag = false) :
    ∃ r1 r2, fnImplicitReturn X st rettype blk = some r1 ∧
      fnImplicitReturn X r1 rettype blk = some r2 ∧
      (r2.nodes blk).stmts = (r1.nodes blk).stmts := by
  have hb1 : blk ≠ st.next := Nat.ne_of_lt hblk
  have hb2 : st.next ≠ blk := Nat.ne_of_gt hblk
  by_cases hemp : (st.nodes blk).stmts.length = 0
  · have hl := addNilReturn_last st blk hblk
    have hsame : fnImplicitReturn X st rettype blk =
        fnImplicitReturn X (addNilReturn st blk) rettype blk := by
      have hne : ((addNilReturn st blk).nodes blk).stmts.length ≠ 0 := by
        rw [addNilReturn_stmts st blk hblk]; simp
      conv_lhs => unfold fnImplicitReturn
      conv_rhs => unfold fnImplicitReturn
      simp only [hemp, if_true, hne, if_false]
    have h2 := fnImplicitReturn_of_return X (addNilReturn st blk) rettype blk _ hret hl.1 hl.2
    exact ⟨_, _, hsame.trans h2, h2, rfl⟩
  · obtain ⟨init, last, hst⟩ : ∃ init last, (st.nodes blk).stmts = init ++ [last] := by
      have hne : (st.nodes blk).stmts ≠ [] := by
        intro h; rw [h] at hemp; exact hemp rfl
      exact ⟨_, _, (List.dropLast_append_getLast hne).symm⟩
    have hlast : (st.nodes blk).stmts.getLast? = some last := by rw [hst]; simp
    by_cases htag : (st.nodes last).tag = .ReturnTag
    · have h1 := fnImplicitReturn_of_return X st rettype blk last hret hlast htag
      exact ⟨st, st, h1, h1, rfl⟩
    · by_cases hvoid : (st.nodes rettype).tag = .VoidTag
      · have hl := addNilReturn_last st blk hblk
        have h1 : fnImplicitReturn X st rettype blk = some (addNilReturn st blk) := by
          unfold fnImplicitReturn
          simp only [hemp, if_false, hlast, hvoid, if_true, ne_eq, htag, not_false_eq_true]
        have h2 := fnImplicitReturn_of_return X (addNilReturn st blk) rettype blk _ hret hl.1 hl.2
        exact ⟨_, _, h1, h2, rfl⟩
      · by_cases hexp : X.isExpNode (st.nodes last).tag = true
        · have h1 : fnImplicitReturn X st rettype blk =
              some ((newReturnNodeExp st last).2.setStmts blk
                (((newReturnNodeExp st last).2.nodes blk).stmts.dropLast ++
                  [(newReturnNodeExp st last).1])) := by
            unfold fnImplicitReturn
            simp only [hemp, if_false, hlast, hvoid, hexp, if_true]
          have h2 := fnImplicitReturn_of_return X
            ((newReturnNodeExp st last).2.setStmts blk
              (((newReturnNodeExp st last).2.nodes blk).stmts.dropLast ++
                [(newReturnNodeExp st last).1])) rettype blk st.next hret
            (by simp [newReturnNodeExp, TcState.alloc, TcState.setStmts, hb1, hst])
            (by simp [newReturnNodeExp, TcState.alloc, TcState.setStmts, hb2])
          exact ⟨_, _, h1, h2, rfl⟩
        · have h1 : ∀ s : TcState, s.nodes = st.nodes → fnImplicitReturn X s rettype blk =
              some (s.errorMsgNode last .ErrorNoRet
                "A return value is expected but this statement cannot give one.") := by
            intro s hs
            unfold fnImplicitReturn
            simp only [hs, hemp, if_false, hlast, hvoid, hexp, ne_eq, htag, not_false_eq_true,
              if_true, Bool.false_eq_true]
          exact ⟨_, _, h1 st rfl, h1 _ rfl, rfl⟩

/-- C27 on the body `{f()}` of the sample function `run`, whose
return type is void. -/
theorem fnImplicitReturn_idempotent_witness :
    ∃ r1 r2, fnImplicitReturn sampleTcEnv sampleTc 708 760 = some r1 ∧
      fnImplicitReturn sampleTcEnv r1 708 760 = some r2 ∧
      (r2.nodes 760).stmts = (r1.nodes 760).stmts :=
  fnImplicitReturn_idempotent sampleTcEnv sampleTc 708 760 (by decide) (by decide)


/-! ## Type check of function declarations -/

/-- `fnImplicitReturn` always returns: after its first step the block has a
last statement. -/
theorem fnImplicitReturn_returns (X : TcEnv) (st : TcState) (rettype blk : Addr) :
    ∃ r, fnImplicitReturn X st rettype blk = some r := by
  unfold fnImplicitReturn
  simp only []
  generalize hs1 : (if (st.nodes blk).stmts.length = 0 then addNilReturn st blk else st) = s1
  have hne : (s1.nodes blk).stmts ≠ [] := by
    rw [← hs1]
    by_cases h : (st.nodes blk).stmts.length = 0
    · rw [if_pos h]
      simp [addNilReturn, TcState.nodesAdd, TcState.setStmts]
    · rw [if_neg h]
      intro h2
      rw [h2] at h
      exact h rfl
  obtain ⟨l, hl⟩ : ∃ l, (s1.nodes blk).stmts.getLast? = some l :=
    ⟨_, List.getLast?_eq_getLast _ hne⟩
  rw [hl]
  simp only []
  split_ifs <;> exact ⟨_, rfl⟩

/-- C28: the three ways through `fnDclTypeCheck`, with `s1` the state after
the type check of the signature.  A generic function is left entirely
unchanged.  A function without body, or a default method of a trait, ends with
the state `s1`.  Every other function (a method having a first parameter) gets
its body checked, which gives a state `s5`; the flow pass `blockFlow` then
runs on the body, with the signature and scope 1, exactly when no error has
been reported in `s5`. -/
theorem fnDclTypeCheck_flow (X : TcEnv) (st : TcState) (fnnode : Addr) :
    ((st.nodes fnnode).genericinfo ≠ nullAddr → fnDclTypeCheck X st fnnode = some st) ∧
    ((st.nodes fnnode).genericinfo = nullAddr →
      ((X.iTypeTypeCheck st (.vtypeOf fnnode)).nodes fnnode).value = nullAddr ∨
        isTraitMethod X (X.iTypeTypeCheck st (.vtypeOf fnnode)) fnnode →
      fnDclTypeCheck X st fnnode = some (X.iTypeTypeCheck st (.vtypeOf fnnode))) ∧
    ((st.nodes fnnode).genericinfo = nullAddr →
      ((X.iTypeTypeCheck st (.vtypeOf fnnode)).nodes fnnode).value ≠ nullAddr →
      ¬ isTraitMethod X (X.iTypeTypeCheck st (.vtypeOf fnnode)) fnnode →
      (((X.iTypeTypeCheck st (.vtypeOf fnnode)).nodes fnnode).flags &&& X.FlagMethFld ≠ 0 →
        ((X.iTypeTypeCheck st (.vtypeOf fnnode)).nodes
          ((X.iTypeTypeCheck st (.vtypeOf fnnode)).nodes fnnode).vtype).parms ≠ []) →
      ∃ s5, fnDclBodyCheck X (X.iTypeTypeCheck st (.vtypeOf fnnode)) fnnode = some s5 ∧
        (s5.errors = [] →
          fnDclTypeCheck X st fnnode =
            some (X.blockFlow s5 { fnsig := (s5.nodes fnnode).vtype, scope := 1 }
              (.valueOf fnnode))) ∧
        (s5.errors ≠ [] → fnDclTypeCheck X st fnnode = some s5)) := by
  refine ⟨?_, ?_, ?_⟩
  · intro hg
    unfold fnDclTypeCheck
    rw [if_pos hg]
  · intro hg hearly
    unfold fnDclTypeCheck
    rw [if_neg (by rw [hg]; exact fun h => h rfl)]
    simp only []
    rw [if_pos hearly]
  · intro hg hval htrait hparm
    generalize hs1 : X.iTypeTypeCheck st (.vtypeOf fnnode) = s1 at hval htrait hparm
    have hself : ∃ s2, fnDclSelfCheck X s1 fnnode = some s2 := by
      unfold fnDclSelfCheck
      by_cases hm : (s1.nodes fnnode).flags &&& X.FlagMethFld ≠ 0
      · rw [if_pos hm]
        cases hp : (s1.nodes (s1.nodes fnnode).vtype).parms with
        | nil => exact absurd hp (hparm hm)
        | cons p ps =>
          simp only [List.get?_cons_zero]
          split_ifs <;> exact ⟨_, rfl⟩
      · rw [if_neg hm]; exact ⟨_, rfl⟩
    obtain ⟨s2, hs2⟩ := hself
    obtain ⟨s3, hs3⟩ := fnImplicitReturn_returns X s2
      (s2.nodes (s2.nodes fnnode).vtype).rettype (s2.nodes fnnode).value
    have hbody : fnDclBodyCheck X s1 fnnode =
        some { X.inodeTypeCheck { s3 with fn := fnnode } (.valueOf fnnode) X.noCareType with
          fn := s3.fn } := by
      unfold fnDclBodyCheck
      simp only [hs2, hs3]
    refine ⟨_, hbody, ?_, ?_⟩
    · intro herr
      unfold fnDclTypeCheck
      rw [if_neg (by rw [hg]; exact fun h => h rfl)]
      simp only [hs1]
      rw [if_neg (by intro h; rcases h with h | h; exact hval h; exact htrait h)]
      simp only [hbody]
      rw [if_neg (by rw [herr]; exact fun h => h rfl)]
    · intro herr
      unfold fnDclTypeCheck
      rw [if_neg (by rw [hg]; exact fun h => h rfl)]
      simp only [hs1]
      rw [if_neg (by intro h; rcases h with h | h; exact hval h; exact htrait h)]
      simp only [hbody]
      rw [if_pos (by
        intro h
        exact herr (List.length_eq_zero.mp h))]

/-- C28 on the sample functions: the generic function `748` is
unchanged, the function `772` without body ends after its signature, and the
flow pass runs on the body of the method `len` (`728`). -/
theorem fnDclTypeCheck_flow_witness :
    fnDclTypeCheck sampleTcEnv sampleTc 748 = some sampleTc ∧
    fnDclTypeCheck sampleTcEnv sampleTc 772 =
      some (sampleTcEnv.iTypeTypeCheck sampleTc (.vtypeOf 772)) ∧
    ∃ s5, fnDclBodyCheck sampleTcEnv (sampleTcEnv.iTypeTypeCheck sampleTc (.vtypeOf 728)) 728 =
        some s5 ∧
      (s5.errors = [] →
        fnDclTypeCheck sampleTcEnv sampleTc 728 =
          some (sampleTcEnv.blockFlow s5 { fnsig := (s5.nodes 728).vtype, scope := 1 }
            (.valueOf 728))) ∧
      (s5.errors ≠ [] → fnDclTypeCheck sampleTcEnv sampleTc 728 = some s5) :=
  ⟨(fnDclTypeCheck_flow sampleTcEnv sampleTc 748).1 (by decide),
   (fnDclTypeCheck_flow sampleTcEnv sampleTc 772).2.1 (by decide) (Or.inl (by decide)),
   (fnDclTypeCheck_flow sampleTcEnv sampleTc 728).2.2 (by decide) (by decide) (by decide)
     (fun _ => by decide)⟩

/-- C29, as the code has it: the sample method `scale(x i32) i32` (`744`) of the
type `Point` has a body, `Point` is not a trait, and its first parameter is
named `x`, not `self`; `fnDclTypeCheck` reports the error on the self
parameter all the same. -/
theorem fnDclTypeCheck_self_error_without_self :
    (sampleTc.nodes (sampleTc.nodes 744).vtype).parms = [732] ∧
    (sampleTc.nodes 732).namesym ≠ sampleSelfName ∧
    (sampleTc.nodes 744).flags &&& sampleTcEnv.FlagMethFld ≠ 0 ∧
    (sampleTc.nodes 744).value ≠ nullAddr ∧
    ¬ isTraitMethod sampleTcEnv sampleTc 744 ∧
    (fnDclTypeCheck sampleTcEnv sampleTc 744).map (fun s => s.errors) =
      some [⟨744, .ErrorInvType,
        "self parameter for a method must match, or be a reference to, its type"⟩] := by
  decide

/-- The check of the self parameter on a function whose signature has a
first parameter `p`: the InvType error is recorded at the function when it
has the method flag and the type declaration of `p`, after dereference, is
not the enclosing type. -/
theorem fnDclSelfCheck_first_parameter (X : TcEnv) (st : TcState) (fnnode p : Addr)
    (ps : List Addr)
    (hparms : (st.nodes (st.nodes fnnode).vtype).parms = p :: ps) :
    fnDclSelfCheck X st fnnode =
      some (if (st.nodes fnnode).flags &&& X.FlagMethFld ≠ 0 ∧
              X.iexpGetDerefTypeDcl st p ≠ st.typenode then
            st.errorMsgNode fnnode .ErrorInvType
              "self parameter for a method must match, or be a reference to, its type"
          else st) := by
  unfold fnDclSelfCheck
  by_cases hm : (st.nodes fnnode).flags &&& X.FlagMethFld ≠ 0
  · rw [if_pos hm]
    simp only [hparms, List.get?_cons_zero]
    by_cases hd : X.iexpGetDerefTypeDcl st p ≠ st.typenode
    · rw [if_pos hd, if_pos ⟨hm, hd⟩]
    · rw [if_neg hd, if_neg (fun h => hd h.2)]
  · rw [if_neg hm, if_neg (fun h => hm h.1)]

/-- The check of the self parameter on the sample method `len(self &Point)`. -/
theorem fnDclSelfCheck_first_parameter_witness :
    fnDclSelfCheck sampleTcEnv sampleTc 728 =
      some (if (sampleTc.nodes 728).flags &&& sampleTcEnv.FlagMethFld ≠ 0 ∧
              sampleTcEnv.iexpGetDerefTypeDcl sampleTc 712 ≠ sampleTc.typenode then
            sampleTc.errorMsgNode 728 .ErrorInvType
              "self parameter for a method must match, or be a reference to, its type"
          else sampleTc) :=
  fnDclSelfCheck_first_parameter sampleTcEnv sampleTc 728 712 [] (by decide)


/-! ## Hooking and unhooking names -/

/-- The symbols after a hook. -/
theorem namespaceHook_syms (st : HookState) (name namesym x : Addr) :
    (namespaceHook st name namesym).syms x = if x = namesym then name else st.syms x := rfl

/-- The fields of the named nodes after a hook. -/
theorem namespaceHook_fields (st : HookState) (name namesym a : Addr) :
    ((namespaceHook st name namesym).nodes a).namesym = (st.nodes a).namesym ∧
    ((namespaceHook st name namesym).nodes a).owner = (st.nodes a).owner ∧
    ((namespaceHook st name namesym).nodes a).hooklink =
      (if a = name then (st.nodes (st.nodes name).owner).hooklinks else (st.nodes a).hooklink) ∧
    ((namespaceHook st name namesym).nodes a).hooklinks =
      (if a = (st.nodes name).owner then name else (st.nodes a).hooklinks) ∧
    ((namespaceHook st name namesym).nodes a).prevname =
      (if a = name then st.syms namesym else (st.nodes a).prevname) := by
  unfold namespaceHook
  simp only [HookState.setNode, HookState.setSym, if_true]
  generalize ho : (st.nodes name).owner = o
  by_cases h1 : a = name
  · subst h1
    by_cases h2 : a = o
    · subst h2
      simp [ho]
    · simp [h2, Ne.symm h2, ho]
  · by_cases h2 : a = o
    · subst h2
      simp [h1, Ne.symm h1, ho]
    · simp [h1, h2, ho]

/-- One turn of the loop of `namespaceUnhook` at a node that is not null. -/
theorem namespaceUnhookLoop_step (fuel : Nat) (st : HookState) (node : Addr)
    (hnode : node ≠ nullAddr) :
    namespaceUnhookLoop (fuel + 1) st node =
      namespaceUnhookLoop fuel
        ((st.setSym (st.nodes node).namesym (st.nodes node).prevname).setNode node
          { (st.setSym (st.nodes node).namesym (st.nodes node).prevname).nodes node with
            hooklink := nullAddr })
        (st.nodes node).hooklink := by
  rw [namespaceUnhookLoop, if_neg hnode]

/-- Unhooking undoes a run of hooks: after the nodes `names` (distinct, not
null, all of the owner) have been hooked in turn, the loop of
`namespaceUnhook` takes one turn for each of them and then stands at the node
that headed the hook list before, in a state with the symbols of before. -/
theorem namespaceUnhookLoop_hookAll (owner : Addr) :
    ∀ (names : List Addr) (st : HookState) (f : Nat),
      names.Nodup → (∀ n ∈ names, n ≠ nullAddr) →
      (∀ n ∈ names, (st.nodes n).owner = owner) →
      ∃ s, namespaceUnhookLoop (names.length + f) (namespaceHookAll st names)
            ((namespaceHookAll st names).nodes owner).hooklinks =
          namespaceUnhookLoop f s (st.nodes owner).hooklinks ∧
        s.syms = st.syms ∧
        (∀ n ∈ names, (s.nodes n).hooklink = nullAddr) ∧
        (∀ a, a ∉ names → (s.nodes a).hooklink = (st.nodes a).hooklink ∧
          (s.nodes a).prevname = (st.nodes a).prevname) ∧
        (∀ a, (s.nodes a).namesym = (st.nodes a).namesym ∧
          (s.nodes a).owner = (st.nodes a).owner) ∧
        (∀ a, (s.nodes a).hooklinks = ((namespaceHookAll st names).nodes a).hooklinks) := by
  intro names
  induction names with
  | nil =>
    intro st f _ _ _
    exact ⟨st, by simp [namespaceHookAll], rfl, by simp, fun _ _ => ⟨rfl, rfl⟩,
      fun _ => ⟨rfl, rfl⟩, fun _ => rfl⟩
  | cons n rest ih =>
    intro st f hnd hnz hown
    have hn0 : n ≠ nullAddr := hnz n (List.mem_cons_self _ _)
    have hnrest : n ∉ rest := (List.nodup_cons.mp hnd).1
    have hno : (st.nodes n).owner = owner := hown n (List.mem_cons_self _ _)
    have hall : namespaceHookAll st (n :: rest) =
        namespaceHookAll (namespaceHook st n (st.nodes n).namesym) rest := rfl
    obtain ⟨s1, hloop, hsyms, hlink0, hframe, hconst, hlinks⟩ :=
      ih (namespaceHook st n (st.nodes n).namesym) (f + 1) (List.nodup_cons.mp hnd).2
        (fun m hm => hnz m (List.mem_cons_of_mem _ hm))
        (fun m hm => by
          rw [(namespaceHook_fields st n (st.nodes n).namesym m).2.1]
          exact hown m (List.mem_cons_of_mem _ hm))
    have hf := namespaceHook_fields st n (st.nodes n).namesym
    have hhead : ((namespaceHook st n (st.nodes n).namesym).nodes owner).hooklinks = n := by
      rw [(hf owner).2.2.2.1, if_pos hno.symm]
    have hnext : (s1.nodes n).hooklink = (st.nodes owner).hooklinks := by
      rw [(hframe n hnrest).1, (hf n).2.2.1, if_pos rfl, hno]
    have hns : (s1.nodes n).namesym = (st.nodes n).namesym := by
      rw [(hconst n).1, (hf n).1]
    have hpv : (s1.nodes n).prevname = st.syms (st.nodes n).namesym := by
      rw [(hframe n hnrest).2, (hf n).2.2.2.2, if_pos rfl]
    refine ⟨(s1.setSym (s1.nodes n).namesym (s1.nodes n).prevname).setNode n
        { (s1.setSym (s1.nodes n).namesym (s1.nodes n).prevname).nodes n with
          hooklink := nullAddr }, ?_, ?_, ?_, ?_, ?_, ?_⟩
    · rw [hall, List.length_cons, Nat.succ_add, ← Nat.add_succ, hloop, hhead,
        namespaceUnhookLoop_step f s1 n hn0, hnext]
    · funext x
      simp only [HookState.setNode, HookState.setSym, hns, hpv, hsyms]
      rw [namespaceHook_syms]
      by_cases hx : x = (st.nodes n).namesym
      · rw [if_pos hx, hx]
      · rw [if_neg hx, if_neg hx]
    · intro m hm
      rcases List.mem_cons.mp hm with h | h
      · subst h
        simp [HookState.setNode, HookState.setSym]
      · have hmn : m ≠ n := fun h2 => hnrest (h2 ▸ h)
        simp only [HookState.setNode, HookState.setSym, if_neg hmn]
        exact hlink0 m h
    · intro a ha
      have han : a ≠ n := fun h => ha (h ▸ List.mem_cons_self _ _)
      have har : a ∉ rest := fun h => ha (List.mem_cons_of_mem _ h)
      simp only [HookState.setNode, HookState.setSym, if_neg han]
      rw [(hframe a har).1, (hframe a har).2, (hf a).2.2.1, (hf a).2.2.2.2, if_neg han,
        if_neg han]
      exact ⟨rfl, rfl⟩
    · intro a
      by_cases han : a = n
      · subst han
        simp only [HookState.setNode, HookState.setSym, if_true]
        rw [(hconst a).1, (hconst a).2, (hf a).1, (hf a).2.1]
        exact ⟨rfl, rfl⟩
      · simp only [HookState.setNode, HookState.setSym, if_neg han]
        rw [(hconst a).1, (hconst a).2, (hf a).1, (hf a).2.1]
        exact ⟨rfl, rfl⟩
    · intro a
      rw [hall, ← hlinks a]
      by_cases han : a = n
      · subst han
        simp [HookState.setNode, HookState.setSym]
      · simp [HookState.setNode, HookState.setSym, han]

/-- C30: hook and unhook are a round trip.  From any state in which the hook
list of the owner is empty, after the nodes `names` (distinct, not null, all of
that owner) have been hooked in turn, each under its own symbol,
`namespaceUnhook(owner)` returns with any fuel above their number: every
symbol names the node it named before the hooks, the hook list of the owner is
empty and the `hooklink` of every hooked node is null; and a second
`namespaceUnhook(owner)` returns the same state. -/
theorem namespaceUnhook_roundtrip (st : HookState) (owner : Addr) (names : List Addr)
    (fuel : Nat)
    (hempty : (st.nodes owner).hooklinks = nullAddr)
    (hnd : names.Nodup)
    (hnz : ∀ n ∈ names, n ≠ nullAddr)
    (hown : ∀ n ∈ names, (st.nodes n).owner = owner)
    (hfuel : names.length < fuel) :
    ∃ r, namespaceUnhook fuel (namespaceHookAll st names) owner = some r ∧
      r.syms = st.syms ∧
      (r.nodes owner).hooklinks = nullAddr ∧
      (∀ n ∈ names, (r.nodes n).hooklink = nullAddr) ∧
      namespaceUnhook fuel r owner = some r := by
  obtain ⟨f, hf⟩ : ∃ f, fuel = names.length + (f + 1) :=
    ⟨fuel - names.length - 1, by omega⟩
  obtain ⟨s, hloop, hsyms, hlink0, _, _, _⟩ :=
    namespaceUnhookLoop_hookAll owner names st (f + 1) hnd hnz hown
  rw [hempty] at hloop
  have hend : namespaceUnhookLoop (f + 1) s nullAddr = some s := by
    rw [namespaceUnhookLoop, if_pos rfl]
  refine ⟨s.setNode owner { s.nodes owner with hooklinks := nullAddr }, ?_, ?_, ?_, ?_, ?_⟩
  · unfold namespaceUnhook
    rw [hf, hloop, hend]
    rfl
  · exact hsyms
  · simp [HookState.setNode]
  · intro n hn
    by_cases hno : n = owner
    · subst hno
      simp only [HookState.setNode, if_true]
      exact hlink0 n hn
    · simp only [HookState.setNode, if_neg hno]
      exact hlink0 n hn
  · unfold namespaceUnhook
    have h0 : ((s.setNode owner { s.nodes owner with hooklinks := nullAddr }).nodes
        owner).hooklinks = nullAddr := by simp [HookState.setNode]
    have hfl : fuel = (names.length + f) + 1 := by omega
    rw [h0, hfl, namespaceUnhookLoop, if_pos rfl]
    simp only [Option.map_some', Option.some.injEq]
    have hn : (fun b => if b = owner then
        { (s.setNode owner { s.nodes owner with hooklinks := nullAddr }).nodes owner with
          hooklinks := nullAddr }
        else (s.setNode owner { s.nodes owner with hooklinks := nullAddr }).nodes b) =
        (s.setNode owner { s.nodes owner with hooklinks := nullAddr }).nodes := by
      funext b
      by_cases hb : b = owner
      · subst hb
        simp [HookState.setNode]
      · simp [HookState.setNode, hb]
    simp only [HookState.setNode] at hn ⊢
    rw [hn]

/-- C30 on the sample module: the declarations `904` of `x`, `908`
of `y` and `912` of a second `x` are hooked and unhooked. -/
theorem namespaceUnhook_roundtrip_witness :
    ∃ r, namespaceUnhook 4 (namespaceHookAll sampleHooks [904, 908, 912]) 900 = some r ∧
      r.syms = sampleHooks.syms ∧
      (r.nodes 900).hooklinks = nullAddr ∧
      (∀ n ∈ [904, 908, 912], (r.nodes n).hooklink = nullAddr) ∧
      namespaceUnhook 4 r 900 = some r :=
  namespaceUnhook_roundtrip sampleHooks 900 [904, 908, 912] 4 (by decide) (by decide)
    (by decide) (by decide) (by decide)


/-! ## Implicit return of an empty block -/

/-- C40: on an empty block (a node allocated before), when a return is not an
expression node, `fnImplicitReturn` adds exactly one statement, a new
`return nil`, and reports no error, whatever the return type is. -/
theorem fnImplicitReturn_empty (X : TcEnv) (st : TcState) (rettype blk : Addr)
    (hemp : (st.nodes blk).stmts = [])
    (hblk : blk < st.next)
    (hret : X.isExpNode .ReturnTag = false) :
    ∃ r, fnImplicitReturn X st rettype blk = some r ∧
      (r.nodes blk).stmts = [st.next + 1] ∧
      r.nodes (st.next + 1) = { tag := .ReturnTag, exp := st.next } ∧
      r.nodes st.next = { tag := .NilLitTag } ∧
      r.errors = st.errors := by
  have hl := addNilReturn_last st blk hblk
  have hlen : (st.nodes blk).stmts.length = 0 := by rw [hemp]; rfl
  have hsame : fnImplicitReturn X st rettype blk =
      fnImplicitReturn X (addNilReturn st blk) rettype blk := by
    have hne : ((addNilReturn st blk).nodes blk).stmts.length ≠ 0 := by
      rw [addNilReturn_stmts st blk hblk]; simp
    conv_lhs => unfold fnImplicitReturn
    conv_rhs => unfold fnImplicitReturn
    simp only [hlen, if_true, hne, if_false]
  have h2 := fnImplicitReturn_of_return X (addNilReturn st blk) rettype blk _ hret hl.1 hl.2
  refine ⟨addNilReturn st blk, hsame.trans h2, ?_, (addNilReturn_new st blk hblk).1,
    (addNilReturn_new st blk hblk).2, (addNilReturn_frame st blk).1⟩
  rw [addNilReturn_stmts st blk hblk, hemp]
  rfl

/-- C40 on the sample state, for a new empty block at `796` and the return
type `i32`: the block gets `return nil` and no error. -/
theorem fnImplicitReturn_empty_witness :
    ∃ r, fnImplicitReturn sampleTcEnv sampleTc 48 796 = some r ∧
      (r.nodes 796).stmts = [1001] ∧
      r.nodes 1001 = { tag := .ReturnTag, exp := 1000 } ∧
      r.nodes 1000 = { tag := .NilLitTag } ∧
      r.errors = [] :=
  fnImplicitReturn_empty sampleTcEnv sampleTc 48 796 (by decide) (by decide) (by decide)


/-! ## Infections of a reference -/

/-- The walk to a declaration reads only `tag`, `dclnode` and `typeval`: it is
the same in a store that differs in the flags of one node. -/
theorem iTypeGetTypeDcl_store_flags (E : Env) (r : Addr) (f : Nat) :
    ∀ (fuel : Nat) (node : Addr),
      iTypeGetTypeDcl (E.store r { E.heap r with flags := f }) fuel node =
        iTypeGetTypeDcl E fuel node := by
  have hh : ∀ a, ((E.store r { E.heap r with flags := f }).heap a).tag = (E.heap a).tag ∧
      ((E.store r { E.heap r with flags := f }).heap a).dclnode = (E.heap a).dclnode ∧
      ((E.store r { E.heap r with flags := f }).heap a).typeval = (E.heap a).typeval := by
    intro a
    by_cases ha : a = r
    · subst ha; simp [Env.store]
    · simp [Env.store, ha]
  intro fuel
  induction fuel with
  | zero => intro node; rfl
  | succ n ih =>
    intro node
    simp only [iTypeGetTypeDcl, (hh node).1, (hh node).2.1, (hh node).2.2, ih]

/-- Or-ing a mask into flags sets the mask. -/
theorem flags_or_and_self (x m : Nat) : (x ||| m) &&& m = m := by
  apply Nat.eq_of_testBit_eq
  intro i
  simp only [Nat.testBit_and, Nat.testBit_or]
  cases x.testBit i <;> cases m.testBit i <;> rfl

/-- Or-ing a disjoint mask into flags leaves the bits of the other mask. -/
theorem flags_or_and_disjoint (x m t : Nat) (h : m &&& t = 0) : (x ||| t) &&& m = x &&& m := by
  apply Nat.eq_of_testBit_eq
  intro i
  have hi : (m &&& t).testBit i = false := by rw [h]; simp
  simp only [Nat.testBit_and, Nat.testBit_or] at hi ⊢
  cases hx : x.testBit i <;> cases hm : m.testBit i <;> cases ht : t.testBit i <;> simp_all

/-- Or-ing a mask into flags keeps every flag. -/
theorem flags_or_keeps (x m : Nat) : (x ||| m) &&& x = x := by
  apply Nat.eq_of_testBit_eq
  intro i
  simp only [Nat.testBit_and, Nat.testBit_or]
  cases x.testBit i <;> cases m.testBit i <;> rfl

/-- Or-ing a mask a second time changes nothing. -/
theorem flags_or_idem (x m : Nat) : (x ||| m) ||| m = x ||| m := by
  apply Nat.eq_of_testBit_eq
  intro i
  simp only [Nat.testBit_or]
  cases x.testBit i <;> cases m.testBit i <;> rfl

/-- Flags that hold a mask are not changed by or-ing the mask in. -/
theorem flags_or_of_and (y m : Nat) (h : y &&& m = m) : y ||| m = y := by
  apply Nat.eq_of_testBit_eq
  intro i
  have hi : (y &&& m).testBit i = m.testBit i := by rw [h]
  simp only [Nat.testBit_and, Nat.testBit_or] at hi ⊢
  cases hy : y.testBit i <;> cases hm : m.testBit i <;> simp_all

/-- Writing a node back with the flags it has changes nothing. -/
theorem Env.store_same_flags (E : Env) (r : Addr) :
    E.store r { E.heap r with flags := (E.heap r).flags } = E := by
  have hh : (fun x => if x = r then { E.heap r with flags := (E.heap r).flags } else E.heap x) =
      E.heap := by
    funext x
    by_cases hx : x = r
    · subst hx; simp
    · simp [hx]
  unfold Env.store
  rw [hh]

/-- What `refAdoptInfections` stores when the permission is set and the
referent known, and the walk from the region ends at the declaration `d`. -/
theorem refAdoptInfections_stores (E : Env) (J : JoinEnv) (fuel : Nat) (refnode d : Addr)
    (h0 : ¬ ((E.heap refnode).perm = nullAddr ∨ (E.heap refnode).vtexp = J.unknownType))
    (hd : iTypeGetTypeDcl E fuel (E.heap refnode).region = some d) :
    refAdoptInfections E J fuel refnode =
      some (E.store refnode { E.heap refnode with flags :=
        (if (E.heap refnode).perm = J.mutPerm ∨ (E.heap refnode).perm = J.roPerm ∨
            (E.heap (E.heap refnode).vtexp).flags &&& J.ThreadBound ≠ 0 then
          (if E.permGetFlags (E.heap refnode).perm &&& J.MayAlias = 0 ∨
              (E.heap d).flags &&& J.MoveType ≠ 0 then
            (E.heap refnode).flags ||| J.MoveType else (E.heap refnode).flags) ||| J.ThreadBound
        else
          (if E.permGetFlags (E.heap refnode).perm &&& J.MayAlias = 0 ∨
              (E.heap d).flags &&& J.MoveType ≠ 0 then
            (E.heap refnode).flags ||| J.MoveType else (E.heap refnode).flags)) }) := by
  unfold refAdoptInfections
  simp only [if_neg h0, iTypeIsMove, hd, Option.map_some']
  by_cases hl : E.permGetFlags (E.heap refnode).perm &&& J.MayAlias = 0
  · simp [hl]
  · by_cases hm : (E.heap d).flags &&& J.MoveType ≠ 0
    · simp [hl, hm]
    · simp [hl, hm]

/-- C36: `refAdoptInfections` on a reference whose region leads to the
declaration `d`, with `MoveType` and `ThreadBound` two different flag bits.
It returns a store `E2`.  When the permission is null or the referent is the
unknown type, nothing changes.  Otherwise the `MoveType` flag is set if the
permission lacks `MayAlias` or the region is a move type, and else is as it
was.  No flag of the node is cleared and no other node changes, and applying
it to `E2` again gives `E2`. -/
theorem refAdoptInfections_spec (E : Env) (J : JoinEnv) (fuel : Nat) (refnode d : Addr)
    (hbits : J.MoveType &&& J.ThreadBound = 0)
    (hd : iTypeGetTypeDcl E fuel (E.heap refnode).region = some d) :
    ∃ E2, refAdoptInfections E J fuel refnode = some E2 ∧
      ((E.heap refnode).perm = nullAddr ∨ (E.heap refnode).vtexp = J.unknownType → E2 = E) ∧
      (¬ ((E.heap refnode).perm = nullAddr ∨ (E.heap refnode).vtexp = J.unknownType) →
        (E.permGetFlags (E.heap refnode).perm &&& J.MayAlias = 0 ∨
          iTypeIsMove E J fuel (E.heap refnode).region = some true) →
        (E2.heap refnode).flags &&& J.MoveType = J.MoveType) ∧
      (¬ ((E.heap refnode).perm = nullAddr ∨ (E.heap refnode).vtexp = J.unknownType) →
        ¬ (E.permGetFlags (E.heap refnode).perm &&& J.MayAlias = 0 ∨
          iTypeIsMove E J fuel (E.heap refnode).region = some true) →
        (E2.heap refnode).flags &&& J.MoveType = (E.heap refnode).flags &&& J.MoveType) ∧
      (E2.heap refnode).flags &&& (E.heap refnode).flags = (E.heap refnode).flags ∧
      (∀ a, a ≠ refnode → E2.heap a = E.heap a) ∧
      refAdoptInfections E2 J fuel refnode = some E2 := by
  have hbits2 : J.ThreadBound &&& J.MoveType = 0 := by rw [Nat.land_comm]; exact hbits
  have hmove : iTypeIsMove E J fuel (E.heap refnode).region =
      some (decide ((E.heap d).flags &&& J.MoveType ≠ 0)) := by
    simp [iTypeIsMove, hd]
  by_cases h0 : (E.heap refnode).perm = nullAddr ∨ (E.heap refnode).vtexp = J.unknownType
  · have hE : refAdoptInfections E J fuel refnode = some E := by
      unfold refAdoptInfections
      simp only []
      rw [if_pos h0]
    exact ⟨E, hE, fun _ => rfl, fun h => absurd h0 h, fun h => absurd h0 h,
      Nat.and_self _, fun _ _ => rfl, hE⟩
  · obtain ⟨F, hst, hA, hB, hC⟩ : ∃ F,
        refAdoptInfections E J fuel refnode =
          some (E.store refnode { E.heap refnode with flags := F }) ∧
        (((E.permGetFlags (E.heap refnode).perm &&& J.MayAlias = 0 ∨
            (E.heap d).flags &&& J.MoveType ≠ 0) → F &&& J.MoveType = J.MoveType) ∧
          (¬ (E.permGetFlags (E.heap refnode).perm &&& J.MayAlias = 0 ∨
            (E.heap d).flags &&& J.MoveType ≠ 0) →
            F &&& J.MoveType = (E.heap refnode).flags &&& J.MoveType)) ∧
        ((((E.heap refnode).perm = J.mutPerm ∨ (E.heap refnode).perm = J.roPerm ∨
            (E.heap (E.heap refnode).vtexp).flags &&& J.ThreadBound ≠ 0) →
            F &&& J.ThreadBound = J.ThreadBound) ∧
          (¬ ((E.heap refnode).perm = J.mutPerm ∨ (E.heap refnode).perm = J.roPerm ∨
            (E.heap (E.heap refnode).vtexp).flags &&& J.ThreadBound ≠ 0) →
            F &&& J.ThreadBound = (E.heap refnode).flags &&& J.ThreadBound)) ∧
        F &&& (E.heap refnode).flags = (E.heap refnode).flags := by
      refine ⟨_, refAdoptInfections_stores E J fuel refnode d h0 hd, ?_, ?_, ?_⟩
      · by_cases hp : (E.permGetFlags (E.heap refnode).perm &&& J.MayAlias = 0 ∨
            (E.heap d).flags &&& J.MoveType ≠ 0) <;>
        by_cases ht : ((E.heap refnode).perm = J.mutPerm ∨ (E.heap refnode).perm = J.roPerm ∨
            (E.heap (E.heap refnode).vtexp).flags &&& J.ThreadBound ≠ 0) <;>
        simp [hp, ht, flags_or_and_disjoint _ _ _ hbits, flags_or_and_self]
      · by_cases hp : (E.permGetFlags (E.heap refnode).perm &&& J.MayAlias = 0 ∨
            (E.heap d).flags &&& J.MoveType ≠ 0) <;>
        by_cases ht : ((E.heap refnode).perm = J.mutPerm ∨ (E.heap refnode).perm = J.roPerm ∨
            (E.heap (E.heap refnode).vtexp).flags &&& J.ThreadBound ≠ 0) <;>
        simp [hp, ht, flags_or_and_disjoint _ _ _ hbits2, flags_or_and_self]
      · apply Nat.eq_of_testBit_eq
        intro i
        by_cases hp : (E.permGetFlags (E.heap refnode).perm &&& J.MayAlias = 0 ∨
            (E.heap d).flags &&& J.MoveType ≠ 0) <;>
        by_cases ht : ((E.heap refnode).perm = J.mutPerm ∨ (E.heap refnode).perm = J.roPerm ∨
            (E.heap (E.heap refnode).vtexp).flags &&& J.ThreadBound ≠ 0) <;>
        simp only [hp, ht, if_true, if_false, Nat.testBit_and, Nat.testBit_or] <;>
        cases (E.heap refnode).flags.testBit i <;> simp
    have hnode : (E.store refnode { E.heap refnode with flags := F }).heap refnode =
        { E.heap refnode with flags := F } := by simp [Env.store]
    refine ⟨_, hst, fun h => absurd h h0, ?_, ?_, ?_, ?_, ?_⟩
    · intro _ hc
      rw [hnode]
      show F &&& J.MoveType = J.MoveType
      apply hA.1
      rcases hc with h | h
      · exact Or.inl h
      · rw [hmove] at h
        exact Or.inr (of_decide_eq_true (Option.some.inj h))
    · intro _ hc
      rw [hnode]
      show F &&& J.MoveType = (E.heap refnode).flags &&& J.MoveType
      apply hA.2
      intro h
      rcases h with h | h
      · exact hc (Or.inl h)
      · exact hc (Or.inr (by rw [hmove, decide_eq_true h]))
    · rw [hnode]
      exact hC
    · intro a ha
      simp [Env.store, ha]
    · have h0b : ¬ (((E.store refnode { E.heap refnode with flags := F }).heap refnode).perm =
          nullAddr ∨ ((E.store refnode { E.heap refnode with flags := F }).heap refnode).vtexp =
          J.unknownType) := by
        rw [hnode]; exact h0
      have hd2 : iTypeGetTypeDcl (E.store refnode { E.heap refnode with flags := F }) fuel
          ((E.store refnode { E.heap refnode with flags := F }).heap refnode).region = some d := by
        rw [iTypeGetTypeDcl_store_flags, hnode]
        exact hd
      rw [refAdoptInfections_stores _ J fuel refnode d h0b hd2]
      have hstore : ∀ a, ((E.store refnode { E.heap refnode with flags := F }).heap a).flags =
          if a = refnode then F else (E.heap a).flags := by
        intro a
        by_cases ha : a = refnode
        · subst ha; simp [Env.store]
        · simp [Env.store, ha]
      have hP2 : ((E.store refnode { E.heap refnode with flags := F }).permGetFlags
            ((E.store refnode { E.heap refnode with flags := F }).heap refnode).perm &&&
              J.MayAlias = 0 ∨
          ((E.store refnode { E.heap refnode with flags := F }).heap d).flags &&&
              J.MoveType ≠ 0) →
          (E.permGetFlags (E.heap refnode).perm &&& J.MayAlias = 0 ∨
            (E.heap d).flags &&& J.MoveType ≠ 0) := by
        rw [hnode]
        intro h
        rcases h with h | h
        · exact Or.inl h
        · rw [hstore] at h
          by_cases hdr : d = refnode
          · rw [if_pos hdr] at h
            by_cases hp : (E.permGetFlags (E.heap refnode).perm &&& J.MayAlias = 0 ∨
                (E.heap d).flags &&& J.MoveType ≠ 0)
            · exact hp
            · rw [hA.2 hp] at h
              exact Or.inr (by rw [hdr]; exact h)
          · rw [if_neg hdr] at h
            exact Or.inr h
      have hT2 : (((E.store refnode { E.heap refnode with flags := F }).heap refnode).perm =
            J.mutPerm ∨
          ((E.store refnode { E.heap refnode with flags := F }).heap refnode).perm = J.roPerm ∨
          ((E.store refnode { E.heap refnode with flags := F }).heap
            ((E.store refnode { E.heap refnode with flags := F }).heap refnode).vtexp).flags &&&
              J.ThreadBound ≠ 0) →
          ((E.heap refnode).perm = J.mutPerm ∨ (E.heap refnode).perm = J.roPerm ∨
            (E.heap (E.heap refnode).vtexp).flags &&& J.ThreadBound ≠ 0) := by
        rw [hnode]
        intro h
        rcases h with h | h | h
        · exact Or.inl h
        · exact Or.inr (Or.inl h)
        · rw [hstore] at h
          by_cases hvr : (E.heap refnode).vtexp = refnode
          · rw [if_pos hvr] at h
            by_cases ht : ((E.heap refnode).perm = J.mutPerm ∨
                (E.heap refnode).perm = J.roPerm ∨
                (E.heap (E.heap refnode).vtexp).flags &&& J.ThreadBound ≠ 0)
            · exact ht
            · rw [hB.2 ht] at h
              exact Or.inr (Or.inr (by rw [hvr]; exact h))
          · rw [if_neg hvr] at h
            exact Or.inr (Or.inr h)
      have hin : ∀ (c : Prop) [Decidable c],
          (c → (E.permGetFlags (E.heap refnode).perm &&& J.MayAlias = 0 ∨
            (E.heap d).flags &&& J.MoveType ≠ 0)) →
          (if c then F ||| J.MoveType else F) = F := by
        intro c _ hc
        by_cases h : c
        · rw [if_pos h]
          exact flags_or_of_and _ _ (hA.1 (hc h))
        · rw [if_neg h]
      have hout : ∀ (c : Prop) [Decidable c],
          (c → ((E.heap refnode).perm = J.mutPerm ∨ (E.heap refnode).perm = J.roPerm ∨
            (E.heap (E.heap refnode).vtexp).flags &&& J.ThreadBound ≠ 0)) →
          (if c then F ||| J.ThreadBound else F) = F := by
        intro c _ hc
        by_cases h : c
        · rw [if_pos h]
          exact flags_or_of_and _ _ (hB.1 (hc h))
        · rw [if_neg h]
      have hfl : ((E.store refnode { E.heap refnode with flags := F }).heap refnode).flags = F := by
        rw [hnode]
      rw [hfl, hin _ hP2, hout _ hT2]
      have := Env.store_same_flags (E.store refnode { E.heap refnode with flags := F }) refnode
      rw [hfl] at this
      rw [this]

/-- C36 on the sample reference `&borrow imm i32` (`56`), whose permission
lacks `MayAlias`: the `MoveType` flag is set, and a second application changes
nothing. -/
theorem refAdoptInfections_spec_witness :
    ∃ E2, refAdoptInfections sampleEnv sampleJoinEnv 4 56 = some E2 ∧
      (E2.heap 56).flags &&& sampleJoinEnv.MoveType = sampleJoinEnv.MoveType ∧
      (E2.heap 56).flags &&& (sampleEnv.heap 56).flags = (sampleEnv.heap 56).flags ∧
      refAdoptInfections E2 sampleJoinEnv 4 56 = some E2 := by
  obtain ⟨E2, h, _, hset, _, hkeep, _, hidem⟩ :=
    refAdoptInfections_spec sampleEnv sampleJoinEnv 4 56 8 (by decide) (by decide)
  exact ⟨E2, h, hset (by decide) (Or.inl (by decide)), hkeep, hidem⟩


/-! ## The loop stack -/

/-- What the loop of `genFindLoopState` returns: the highest index below `cnt`
whose loop carries the lifetime, and `NULL` when there is none. -/
theorem genFindLoopStateLoop_spec (G : GenState) (dcl : Addr) :
    ∀ cnt : Nat,
      (∀ i, genFindLoopStateLoop G dcl cnt = some i ↔
        (i < cnt ∧ G.life (G.loopstack i) = dcl ∧
          ∀ j, i < j → j < cnt → G.life (G.loopstack j) ≠ dcl)) ∧
      (genFindLoopStateLoop G dcl cnt = none ↔
        ∀ j, j < cnt → G.life (G.loopstack j) ≠ dcl) := by
  intro cnt
  induction cnt with
  | zero =>
    refine ⟨fun i => ?_, ?_⟩
    · simp [genFindLoopStateLoop]
    · simp [genFindLoopStateLoop]
  | succ n ih =>
    by_cases h : G.life (G.loopstack n) = dcl
    · refine ⟨fun i => ?_, ?_⟩
      · simp only [genFindLoopStateLoop, if_pos h, Option.some.injEq]
        constructor
        · intro hi
          subst hi
          exact ⟨Nat.lt_succ_self _, h, fun j h1 h2 => absurd h2 (by omega)⟩
        · intro ⟨hi, _, hall⟩
          by_contra hne
          exact hall n (by omega) (Nat.lt_succ_self _) h
      · simp only [genFindLoopStateLoop, if_pos h]
        constructor
        · intro hc; exact absurd hc (by simp)
        · intro hall; exact absurd h (hall n (Nat.lt_succ_self _))
    · refine ⟨fun i => ?_, ?_⟩
      · simp only [genFindLoopStateLoop, if_neg h]
        rw [ih.1 i]
        constructor
        · intro ⟨hi, hl, hall⟩
          refine ⟨by omega, hl, fun j h1 h2 => ?_⟩
          by_cases hj : j = n
          · subst hj; exact h
          · exact hall j h1 (by omega)
        · intro ⟨hi, hl, hall⟩
          have hin : i ≠ n := by
            intro hc
            subst hc
            exact h hl
          exact ⟨by omega, hl, fun j h1 h2 => hall j h1 (by omega)⟩
      · simp only [genFindLoopStateLoop, if_neg h]
        rw [ih.2]
        constructor
        · intro hall j hj
          by_cases hjn : j = n
          · subst hjn; exact h
          · exact hall j (by omega)
        · intro hall j hj
          exact hall j (by omega)

/-- C37: `genFindLoopState` on a loop stack with at least one entry.  Without
a lifetime it returns the top entry.  With a lifetime it returns the entry `i`
exactly when `i` is the highest index in use whose loop carries the
declaration of the lifetime, and `NULL` exactly when no loop in use carries
it. -/
theorem genFindLoopState_spec (G : GenState) (life : Addr)
    (hne : 0 < G.loopstackcnt) (hlt : G.loopstackcnt < 2 ^ 32) :
    (life = nullAddr → genFindLoopState G life = some (G.loopstackcnt - 1)) ∧
    (life ≠ nullAddr →
      (∀ i, genFindLoopState G life = some i ↔
        (i < G.loopstackcnt ∧ G.life (G.loopstack i) = G.dclnode life ∧
          ∀ j, i < j → j < G.loopstackcnt → G.life (G.loopstack j) ≠ G.dclnode life)) ∧
      (genFindLoopState G life = none ↔
        ∀ j, j < G.loopstackcnt → G.life (G.loopstack j) ≠ G.dclnode life)) := by
  refine ⟨?_, ?_⟩
  · intro h
    have hnum : ∀ M : Nat, G.loopstackcnt < M →
        (G.loopstackcnt + M - 1) % M = G.loopstackcnt - 1 := by
      intro M hM
      have h1 : G.loopstackcnt + M - 1 = (G.loopstackcnt - 1) + M := by omega
      rw [h1, Nat.add_mod_right, Nat.mod_eq_of_lt (by omega)]
    unfold genFindLoopState
    rw [if_pos h, hnum _ hlt]
  · intro h
    unfold genFindLoopState
    rw [if_neg h]
    exact genFindLoopStateLoop_spec G (G.dclnode life) G.loopstackcnt

/-- C37 on the sample loop stack: without a lifetime the top entry 2; for the
lifetime of the first and the third loop the third, entry 2; for a lifetime no
loop carries `NULL`. -/
theorem genFindLoopState_spec_witness :
    genFindLoopState sampleGen nullAddr = some 2 ∧
    genFindLoopState sampleGen 70 = some 2 ∧
    genFindLoopState sampleGen 78 = none :=
  ⟨(genFindLoopState_spec sampleGen nullAddr (by decide) (by decide)).1 rfl,
   (((genFindLoopState_spec sampleGen 70 (by decide) (by decide)).2 (by decide)).1 2).2
     ⟨by decide, by decide, fun _ h1 h2 =>
       absurd (Nat.lt_of_lt_of_le h1 (Nat.le_of_lt_succ h2)) (Nat.lt_irrefl _)⟩,
   ((genFindLoopState_spec sampleGen 78 (by decide) (by decide)).2 (by decide)).2.2
     (by decide)⟩

/-! ## File names -/

/-- C39: for the path `/a.b` of a file directly under the root `fileName`
gives `/a`, the name with the slash in front of it: the second loop stops at
the start of the string without looking at the character there.  For `d/a.b`
and for `a.b` it gives `a`. -/
theorem fileName_root_keeps_slash :
    fileName ['/', 'a', '.', 'b'] = some ['/', 'a'] ∧
    fileName ['d', '/', 'a', '.', 'b'] = some ['a'] ∧
    fileName ['a', '.', 'b'] = some ['a'] := by
  decide


/-! ## Type check of references -/

/-- C35: the sample virtual reference `256` has the region `i32`, which is not
the borrow sentinel and whose declaration is not a struct; `refvirtTypeCheck`
reports no error for it, while `refTypeCheck` reports the InvType error at the
region of the plain reference `248` with the same region. -/
theorem refvirtTypeCheck_skips_region_check :
    (sampleRefCheck.env.heap 256).region ≠ sampleRefCheck.env.borrowRef ∧
    (iTypeGetTypeDcl sampleRefCheck.env 4 (sampleRefCheck.env.heap 256).region).map
      (fun d => (sampleRefCheck.env.heap d).tag) = some .IntNbrTag ∧
    (refvirtTypeCheck sampleJoinEnv sampleRefCheckEnv 4 sampleRefCheck 256).map
      (fun s => s.errors) = some [] ∧
    (refTypeCheck sampleJoinEnv sampleRefCheckEnv 4 sampleRefCheck 248).map
      (fun s => s.errors) =
      some [⟨48, .ErrorInvType, "Reference's region must be a struct type."⟩] := by
  decide


/-! ## Cloning -/

/-- `cloneNode` stops at its assertion for a node of a kind it has no case
for. -/
theorem cloneNode_unhandled (X : CloneEnv) (cs : CloneState) (st : CloneHeap) (nodep : Addr)
    (h : ¬ X.handles (st.tc.nodes nodep).tag) : cloneNode X cs st nodep = none := by
  unfold CloneEnv.handles at h
  simp only [not_or] at h
  obtain ⟨h1, h2, h3, h4, h5, h6⟩ := h
  unfold cloneNode
  simp only [if_neg h1, if_neg h2, if_neg h3, if_neg h4, if_neg h5, if_neg h6, Option.map_none']

/-- A clone made by `cloneNode` is of a kind it has a case for and carries the
`instnode` of the clone state. -/
theorem cloneNode_some (X : CloneEnv) (cs : CloneState) (st s : CloneHeap) (nodep v : Addr)
    (h : cloneNode X cs st nodep = some (v, s)) :
    X.handles (st.tc.nodes nodep).tag ∧ s.instnode v = cs.instnode := by
  refine ⟨?_, ?_⟩
  · by_contra hn
    rw [cloneNode_unhandled X cs st nodep hn] at h
    exact absurd h (by simp)
  · unfold cloneNode at h
    simp only [Option.map_eq_some'] at h
    obtain ⟨r, _, hr⟩ := h
    have h1 : v = r.1 := (congrArg Prod.fst hr).symm
    have h2 : s = r.2.setInstnode r.1 cs.instnode := (congrArg Prod.snd hr).symm
    rw [h2, h1]
    simp [CloneHeap.setInstnode]

/-- C38, as the code has it: the sample method `len` (`728`) has a function
signature as `vtype` and a block as body; `cloneFnDclNode` returns no clone
of it, because `cloneNode` has no case for a signature. -/
theorem cloneFnDclNode_stops_at_signature :
    (sampleCloneHeap.tc.nodes (sampleCloneHeap.tc.nodes 728).vtype).tag = .FnSigTag ∧
    (sampleCloneHeap.tc.nodes (sampleCloneHeap.tc.nodes 728).value).tag = .BlockTag ∧
    (cloneFnDclNode sampleCloneEnv { instnode := 500 } sampleCloneHeap 728).isNone = true := by
  decide

/-- C38 amended: `cloneFnDclNode` copies the declaration to a new node and
clears `genericinfo` and `nextnode` of the copy.  When the `vtype` of the
declaration is of a kind `cloneNode` has no case for, as a function signature
is, it stops at the assertion of `cloneNode` and returns no clone.  When
`cloneNode` returns clones `v` of the `vtype` and `b` of the value, it returns
the new node, both clones carry the `instnode` of the clone state, and, as far
as the clone functions and `cloneDclPop` leave the new node alone, the new
node has `genericinfo` and `nextnode` null, `vtype` `v`, value `b`, and every
other field of the old declaration. -/
theorem cloneFnDclNode_fields (X : CloneEnv) (cs : CloneState) (st : CloneHeap)
    (oldfn : Addr) :
    (¬ X.handles ((cloneFnDclCopy (X.cloneDclPush st).2 oldfn).2.tc.nodes
        ((cloneFnDclCopy (X.cloneDclPush st).2 oldfn).2.tc.nodes oldfn).vtype).tag →
      cloneFnDclNode X cs st oldfn = none) ∧
    (∀ v b s3 s5,
      cloneNode X cs (cloneFnDclCopy (X.cloneDclPush st).2 oldfn).2
        ((cloneFnDclCopy (X.cloneDclPush st).2 oldfn).2.tc.nodes oldfn).vtype = some (v, s3) →
      cloneNode X cs
        (s3.setNode (cloneFnDclCopy (X.cloneDclPush st).2 oldfn).1
          { s3.tc.nodes (cloneFnDclCopy (X.cloneDclPush st).2 oldfn).1 with vtype := v })
        ((s3.setNode (cloneFnDclCopy (X.cloneDclPush st).2 oldfn).1
          { s3.tc.nodes (cloneFnDclCopy (X.cloneDclPush st).2 oldfn).1 with
            vtype := v }).tc.nodes oldfn).value = some (b, s5) →
      ∃ r, cloneFnDclNode X cs st oldfn =
          some ((cloneFnDclCopy (X.cloneDclPush st).2 oldfn).1, r) ∧
        s3.instnode v = cs.instnode ∧ s5.instnode b = cs.instnode ∧
        (s3.tc.nodes (cloneFnDclCopy (X.cloneDclPush st).2 oldfn).1 =
            (cloneFnDclCopy (X.cloneDclPush st).2 oldfn).2.tc.nodes
              (cloneFnDclCopy (X.cloneDclPush st).2 oldfn).1 →
          s5.tc.nodes (cloneFnDclCopy (X.cloneDclPush st).2 oldfn).1 =
            { s3.tc.nodes (cloneFnDclCopy (X.cloneDclPush st).2 oldfn).1 with vtype := v } →
          (∀ s n, (X.cloneDclPop s n).tc.nodes (cloneFnDclCopy (X.cloneDclPush st).2 oldfn).1 =
            s.tc.nodes (cloneFnDclCopy (X.cloneDclPush st).2 oldfn).1) →
          r.tc.nodes (cloneFnDclCopy (X.cloneDclPush st).2 oldfn).1 =
            { (X.cloneDclPush st).2.tc.nodes oldfn with
              genericinfo := nullAddr, nextnode := nullAddr, vtype := v, value := b })) := by
  refine ⟨?_, ?_⟩
  · intro h
    unfold cloneFnDclNode
    simp only [cloneNode_unhandled X cs _ _ h]
  · intro v b s3 s5 hv hb
    refine ⟨X.cloneDclPop
      (s5.setNode (cloneFnDclCopy (X.cloneDclPush st).2 oldfn).1
        { s5.tc.nodes (cloneFnDclCopy (X.cloneDclPush st).2 oldfn).1 with value := b })
      (X.cloneDclPush st).1, ?_, (cloneNode_some X cs _ _ _ _ hv).2,
      (cloneNode_some X cs _ _ _ _ hb).2, ?_⟩
    · unfold cloneFnDclNode
      simp only [hv, hb]
    · intro h3 h5 hpop
      rw [hpop]
      simp only [CloneHeap.setNode, if_true, h5, h3]
      simp [cloneFnDclCopy, CloneHeap.allocCopy, CloneHeap.setNode, TcState.alloc]

/-- C38 amended, on the sample heap: the method `len` (`728`) is not cloned;
the declaration `776`, which has literals in the place of its signature and
of its value, is cloned into the new node `1000` with clones of both. -/
theorem cloneFnDclNode_fields_witness :
    cloneFnDclNode sampleCloneEnv { instnode := 500 } sampleCloneHeap 728 = none ∧
    (cloneFnDclNode sampleCloneEnv { instnode := 500 } sampleCloneHeap 776).map
        (fun r => (r.1, r.2.tc.nodes r.1, r.2.instnode 1001, r.2.instnode 1002)) =
      some (1000, { tag := .FnDclTag, flags := 8, vtype := 1001, value := 1002,
                    namesym := 808 }, 500, 500) :=
  ⟨(cloneFnDclNode_fields sampleCloneEnv { instnode := 500 } sampleCloneHeap 728).1
      (by decide),
   by decide⟩


/-! ## The pass over a module -/

/-- C31: name resolution of the sample module `900`, whose declaration of `x`
has a type that does not resolve.  An error is reported in the first loop,
`modPass` returns before `namespaceUnhook`, and on return `x` and `y` still
name the declarations of the module and the hook list of the module is not
empty; on entry `x` named the node `916` and `y` nothing.  For the module
`940`, which resolves, the bindings on return are those on entry. -/
theorem modPass_early_return_leaves_hooks :
    ((sampleAst .NameResolution).hooks.syms 950, (sampleAst .NameResolution).hooks.syms 954) =
      (916, 0) ∧
    (modPass sampleAstEnv 4 (sampleAst .NameResolution) 900).map
        (fun s => (s.errors.length, s.hooks.syms 950, s.hooks.syms 954,
          (s.hooks.nodes 900).hooklinks)) =
      some (1, 904, 908, 908) ∧
    (modPass sampleAstEnv 4 (sampleAst .NameResolution) 940).map
        (fun s => (s.errors.length, s.hooks.syms 950, s.hooks.syms 954,
          (s.hooks.nodes 940).hooklinks)) =
      some (0, 916, 0, 0) := by
  decide

/-! ## The pass over a function call -/

/-- C33: the sample call `1224` gives one argument to a function with the
parameters `x`, `y` with a default and `z` without one.  `fnCallPass` looks
for a default at the first missing parameter only: it reports no FewArgs error
and adds the default of `y` and a null node for `z` to the arguments.  When
both missing parameters have a default (call `1248`) both defaults are
added. -/
theorem fnCallPass_checks_first_missing_only :
    ((sampleAst .TypeCheck).ast 1212).value = nullAddr ∧
    (fnCallPass sampleAstEnv (sampleAst .TypeCheck) 1224).map
        (fun s => (s.errors, (s.ast 1224).parms)) =
      some ([], [1228, 1230, nullAddr]) ∧
    (fnCallPass sampleAstEnv (sampleAst .TypeCheck) 1248).map
        (fun s => (s.errors, (s.ast 1248).parms)) =
      some ([], [1228, 1230, 1234]) := by
  decide

/-- The loop over the methods finds the first method of the name. -/
theorem fnCallFindMethod_first (st : AstState) (m meth : Addr) (post : List Addr)
    (hm : (st.ast meth).namesym = m) :
    ∀ pre : List Addr, (∀ x ∈ pre, (st.ast x).namesym ≠ m) →
      fnCallFindMethod st m (pre ++ meth :: post) = some meth := by
  intro pre
  induction pre with
  | nil => intro _; simp [fnCallFindMethod, hm]
  | cons a rest ih =>
    intro h
    have ha : (st.ast a).namesym ≠ m := h a (List.mem_cons_self _ _)
    simp only [List.cons_append, fnCallFindMethod, if_neg ha]
    exact ih (fun x hx => h x (List.mem_cons_of_mem _ hx))

/-- The loop over the methods gives `NULL` when no method has the name. -/
theorem fnCallFindMethod_none (st : AstState) (m : Addr) :
    ∀ methods : List Addr, (∀ x ∈ methods, (st.ast x).namesym ≠ m) →
      fnCallFindMethod st m methods = none := by
  intro methods
  induction methods with
  | nil => intro _; rfl
  | cons a rest ih =>
    intro h
    have ha : (st.ast a).namesym ≠ m := h a (List.mem_cons_self _ _)
    simp only [fnCallFindMethod, if_neg ha]
    exact ih (fun x hx => h x (List.mem_cons_of_mem _ hx))

/-- The lookup of the method in `fnCallResolve`, with `s2` the state after the
first argument has been dereferenced and passed over: the first method of the
name in the order of the list becomes the declaration of the callee, and with
no method of the name the NoMeth error is recorded and the check ends. -/
theorem fnCallResolve_method (X : AstEnv) (st s2 : AstState) (node firstarg : Addr)
    (hfield : (st.ast (st.ast node).fn).asttype = .FieldNameUseNode)
    (hfirst : (X.derefAuto st (.argOf node 0)).read (.argOf node 0) = some firstarg)
    (hs2 : s2 = X.astPass (X.derefAuto st (.argOf node 0)) firstarg) :
    (∀ pre meth post,
      (s2.ast (X.typeGetVtype s2 firstarg)).methods = pre ++ meth :: post →
      (∀ x ∈ pre, (s2.ast x).namesym ≠ (st.ast (st.ast node).fn).namesym) →
      (s2.ast meth).namesym = (st.ast (st.ast node).fn).namesym →
      ∃ r, fnCallResolve X st node = some (true, r) ∧
        (r.ast (st.ast node).fn).asttype = .VarNameUseNode ∧
        (r.ast (st.ast node).fn).dclnode = meth ∧
        (r.ast (st.ast node).fn).vtype = (s2.ast meth).vtype ∧
        r.errors = s2.errors ∧
        ∀ a, a ≠ (st.ast node).fn → r.ast a = s2.ast a) ∧
    ((∀ x ∈ (s2.ast (X.typeGetVtype s2 firstarg)).methods,
        (s2.ast x).namesym ≠ (st.ast (st.ast node).fn).namesym) →
      fnCallResolve X st node =
          some (false, s2.errorMsgNode node .ErrorNoMeth
            "The method `%s` is not defined by the object's type.") ∧
        ∀ st0 s1, fnCallArgsPassLoop X node (st0.ast node).parms.length 0 st0 = some s1 →
          X.astPass s1 (s1.ast node).fn = st → st.pass = .TypeCheck →
          fnCallPass X st0 node =
            some (s2.errorMsgNode node .ErrorNoMeth
              "The method `%s` is not defined by the object's type.")) := by
  refine ⟨?_, ?_⟩
  · intro pre meth post hl hpre hm
    have hfind := fnCallFindMethod_first s2 _ meth post hm pre hpre
    rw [← hl] at hfind
    unfold fnCallResolve
    rw [if_pos hfield]
    simp only [hfirst, ← hs2, hfind]
    refine ⟨_, rfl, ?_, ?_, ?_, ?_, ?_⟩
    · simp [AstState.setNode]
    · simp [AstState.setNode]
    · by_cases hmm : meth = (st.ast node).fn
      · simp [AstState.setNode, hmm]
      · simp [AstState.setNode, hmm]
    · rfl
    · intro a ha
      simp [AstState.setNode, ha]
  · intro hall
    have hfind := fnCallFindMethod_none s2 _ _ hall
    have hres : fnCallResolve X st node =
        some (false, s2.errorMsgNode node .ErrorNoMeth
          "The method `%s` is not defined by the object's type.") := by
      unfold fnCallResolve
      rw [if_pos hfield]
      simp only [hfirst, ← hs2, hfind]
    refine ⟨hres, ?_⟩
    intro st0 s1 hloop hst hpass
    unfold fnCallPass
    simp only [hloop, hst, hpass, if_true, hres]

/-- The lookup on the sample calls `p.len()` and `p.nope()`. -/
theorem fnCallResolve_method_witness :
    (∃ r, fnCallResolve sampleAstEnv (sampleAst .TypeCheck) 1130 = some (true, r) ∧
      (r.ast 1134).asttype = .VarNameUseNode ∧ (r.ast 1134).dclnode = 1108 ∧
      (r.ast 1134).vtype = 1120) ∧
    fnCallResolve sampleAstEnv (sampleAst .TypeCheck) 1170 =
      some (false, (sampleAst .TypeCheck).errorMsgNode 1170 .ErrorNoMeth
        "The method `%s` is not defined by the object's type.") := by
  refine ⟨?_, ?_⟩
  · obtain ⟨r, h, h1, h2, h3, _⟩ :=
      (fnCallResolve_method sampleAstEnv (sampleAst .TypeCheck) (sampleAst .TypeCheck) 1130
        1138 (by decide) (by decide) rfl).1 [1104] 1108 [1112] (by decide) (by decide)
        (by decide)
    exact ⟨r, h, h1, h2, h3⟩
  · exact ((fnCallResolve_method sampleAstEnv (sampleAst .TypeCheck) (sampleAst .TypeCheck) 1170
      1138 (by decide) (by decide) rfl).2 (by decide)).1


/-! ## Name resolution of a function declaration -/

/-- Keeping the scope, the list lengths and the value is reflexive. -/
theorem NameResState.keeps_refl (fn : Addr) (s : NameResState) : NameResState.keeps fn s s :=
  ⟨rfl, fun _ => rfl, rfl⟩

/-- Keeping the scope, the list lengths and the value is transitive. -/
theorem NameResState.keeps_trans (fn : Addr) (s t u : NameResState)
    (h1 : NameResState.keeps fn s t) (h2 : NameResState.keeps fn t u) :
    NameResState.keeps fn s u :=
  ⟨h2.1.trans h1.1, fun a => (h2.2.1 a).trans (h1.2.1 a), h2.2.2.trans h1.2.2⟩

/-- The loop over the generic parameters returns, makes only calls of
`inodeNameRes`, and keeps the scope. -/
theorem fnDclNameResParms_calls (X : NameResEnv) (fn list : Addr) (hX : X.wellBehaved fn) :
    ∀ (cnt i : Nat) (st : NameResState), i + cnt = (st.nodes list).parms.length →
      ∃ r evs, fnDclNameResParms X list cnt i st = some r ∧ r.calls = st.calls ++ evs ∧
        (∀ c ∈ evs, ∃ slot sc, c = NameResCall.nameRes slot sc) ∧
        NameResState.keeps fn st r := by
  intro cnt
  induction cnt with
  | zero =>
    intro i st _
    exact ⟨st, [], rfl, by simp, by simp, NameResState.keeps_refl fn st⟩
  | succ n ih =>
    intro i st hlen
    have hi : i < (st.nodes list).parms.length := by omega
    obtain ⟨p, hp⟩ : ∃ p, (st.nodes list).parms.get? i = some p :=
      ⟨_, List.get?_eq_get hi⟩
    have hk : NameResState.keeps fn st
        (st.logged (.nameRes (.parmOf list i) st.scope) (X.inodeNameRes st (.parmOf list i))) :=
      hX.1 st _
    obtain ⟨r, evs, hr, hcalls, hevs, hkeep⟩ := ih (i + 1) _ (by
      rw [hk.2.1 list]; omega)
    refine ⟨r, .nameRes (.parmOf list i) st.scope :: evs, ?_, ?_, ?_, ?_⟩
    · rw [fnDclNameResParms]
      simp only [hp]
      exact hr
    · rw [hcalls]
      simp [NameResState.logged]
    · intro c hc
      rcases List.mem_cons.mp hc with h | h
      · exact ⟨_, _, h⟩
      · exact hevs c h
    · exact NameResState.keeps_trans fn _ _ _ hk hkeep

/-- The loop that hooks parameters returns, makes only calls of
`nametblHookNode`, and keeps the scope. -/
theorem fnDclHookParms_calls (X : NameResEnv) (fn list : Addr) (hX : X.wellBehaved fn) :
    ∀ (cnt i : Nat) (st : NameResState), i + cnt = (st.nodes list).parms.length →
      ∃ r evs, fnDclHookParms X list cnt i st = some r ∧ r.calls = st.calls ++ evs ∧
        (∀ c ∈ evs, ∃ name node, c = NameResCall.hookNode name node) ∧
        NameResState.keeps fn st r := by
  intro cnt
  induction cnt with
  | zero =>
    intro i st _
    exact ⟨st, [], rfl, by simp, by simp, NameResState.keeps_refl fn st⟩
  | succ n ih =>
    intro i st hlen
    have hi : i < (st.nodes list).parms.length := by omega
    obtain ⟨p, hp⟩ : ∃ p, (st.nodes list).parms.get? i = some p :=
      ⟨_, List.get?_eq_get hi⟩
    have hk : NameResState.keeps fn st
        (st.logged (.hookNode (st.nodes p).namesym p)
          (X.nametblHookNode st (st.nodes p).namesym p)) :=
      hX.2.2.1 st _ _
    obtain ⟨r, evs, hr, hcalls, hevs, hkeep⟩ := ih (i + 1) _ (by
      rw [hk.2.1 list]; omega)
    refine ⟨r, .hookNode (st.nodes p).namesym p :: evs, ?_, ?_, ?_, ?_⟩
    · rw [fnDclHookParms]
      simp only [hp]
      exact hr
    · rw [hcalls]
      simp [NameResState.logged]
    · intro c hc
      rcases List.mem_cons.mp hc with h | h
      · exact ⟨_, _, h⟩
      · exact hevs c h
    · exact NameResState.keeps_trans fn _ _ _ hk hkeep

/-- C32: `fnDclNameRes` with collaborators that return with the scope, the
parameter lists and the value of the function as they were.  It returns, and
the calls it has made are: calls of `inodeNameRes` only (for the generic
parameters), then one `nametblHookPush`, then calls among which there is no
push and no pop (every hook of a parameter is here), then one
`nametblHookPop`, the last call.  If the function has a body, the body is
resolved between the push and the pop with the scope 1.  On return the scope
is the one on entry. -/
theorem fnDclNameRes_balanced (X : NameResEnv) (st : NameResState) (fn : Addr)
    (hX : X.wellBehaved fn) :
    ∃ r pre mid, fnDclNameRes X st fn = some r ∧
      r.calls = st.calls ++ pre ++ [.hookPush] ++ mid ++ [.hookPop] ∧
      (∀ c ∈ pre, ∃ slot sc, c = NameResCall.nameRes slot sc) ∧
      (∀ c ∈ mid, c ≠ NameResCall.hookPush ∧ c ≠ NameResCall.hookPop) ∧
      ((st.nodes fn).value ≠ nullAddr → NameResCall.nameRes (.valueOf fn) 1 ∈ mid) ∧
      r.scope = st.scope := by
  -- the generic parameters
  obtain ⟨s1, pre, h1, hc1, hpre, hk1⟩ : ∃ s1 pre,
      (if (st.nodes fn).genericinfo ≠ nullAddr then
        fnDclNameResParms X (st.nodes fn).genericinfo
          (st.nodes (st.nodes fn).genericinfo).parms.length 0 st
      else some st) = some s1 ∧ s1.calls = st.calls ++ pre ∧
      (∀ c ∈ pre, ∃ slot sc, c = NameResCall.nameRes slot sc) ∧
      NameResState.keeps fn st s1 := by
    by_cases hg : (st.nodes fn).genericinfo ≠ nullAddr
    · rw [if_pos hg]
      exact fnDclNameResParms_calls X fn _ hX _ 0 st (by omega)
    · rw [if_neg hg]
      exact ⟨st, [], rfl, by simp, by simp, NameResState.keeps_refl fn st⟩
  -- the push and the hooks of the generic parameters
  have hk2 : NameResState.keeps fn s1 (s1.logged .hookPush (X.nametblHookPush s1)) :=
    hX.2.1 s1
  obtain ⟨s3, hg, h3, hc3, hhg, hk3⟩ : ∃ s3 hg,
      (if ((s1.logged .hookPush (X.nametblHookPush s1)).nodes fn).genericinfo ≠ nullAddr then
        fnDclHookParms X ((s1.logged .hookPush (X.nametblHookPush s1)).nodes fn).genericinfo
          ((s1.logged .hookPush (X.nametblHookPush s1)).nodes
            ((s1.logged .hookPush (X.nametblHookPush s1)).nodes fn).genericinfo).parms.length 0
          (s1.logged .hookPush (X.nametblHookPush s1))
      else some (s1.logged .hookPush (X.nametblHookPush s1))) = some s3 ∧
      s3.calls = (s1.logged .hookPush (X.nametblHookPush s1)).calls ++ hg ∧
      (∀ c ∈ hg, ∃ name node, c = NameResCall.hookNode name node) ∧
      NameResState.keeps fn (s1.logged .hookPush (X.nametblHookPush s1)) s3 := by
    by_cases hgi : ((s1.logged .hookPush (X.nametblHookPush s1)).nodes fn).genericinfo ≠ nullAddr
    · rw [if_pos hgi]
      exact fnDclHookParms_calls X fn _ hX _ 0 _ (by omega)
    · rw [if_neg hgi]
      exact ⟨_, [], rfl, by simp, by simp, NameResState.keeps_refl fn _⟩
  -- the signature
  have hk4 : NameResState.keeps fn s3
      (s3.logged (.nameRes (.vtypeOf fn) s3.scope) (X.inodeNameRes s3 (.vtypeOf fn))) :=
    hX.1 s3 _
  have hk04 := NameResState.keeps_trans fn _ _ _
    (NameResState.keeps_trans fn _ _ _ (NameResState.keeps_trans fn _ _ _ hk1 hk2) hk3) hk4
  have hcalls4 : (s3.logged (.nameRes (.vtypeOf fn) s3.scope)
      (X.inodeNameRes s3 (.vtypeOf fn))).calls =
      st.calls ++ pre ++ [.hookPush] ++ (hg ++ [.nameRes (.vtypeOf fn) s3.scope]) := by
    simp [NameResState.logged, hc3, hc1]
  have hmid0 : ∀ c ∈ hg ++ [NameResCall.nameRes (.vtypeOf fn) s3.scope],
      c ≠ NameResCall.hookPush ∧ c ≠ NameResCall.hookPop := by
    intro c hc
    rcases List.mem_append.mp hc with h | h
    · obtain ⟨n, p, hnp⟩ := hhg c h
      rw [hnp]
      exact ⟨by simp, by simp⟩
    · rw [List.mem_singleton.mp h]
      exact ⟨by simp, by simp⟩
  generalize hs4 : s3.logged (.nameRes (.vtypeOf fn) s3.scope)
    (X.inodeNameRes s3 (.vtypeOf fn)) = s4 at hk04 hcalls4
  by_cases hv : (s4.nodes fn).value ≠ nullAddr
  · -- the body
    obtain ⟨s6, hp, h6, hc6, hhp, hk6⟩ := fnDclHookParms_calls X fn
      (({ s4 with scope := 1 } : NameResState).nodes fn).vtype hX
      ((({ s4 with scope := 1 } : NameResState).nodes
        (({ s4 with scope := 1 } : NameResState).nodes fn).vtype).parms.length) 0
      ({ s4 with scope := 1 } : NameResState) (Nat.zero_add _)
    have hs6 : s6.scope = 1 := hk6.1
    unfold fnDclNameRes
    simp only [h1, h3, hs4, if_pos hv, h6]
    refine ⟨_, pre, hg ++ [.nameRes (.vtypeOf fn) s3.scope] ++ hp ++ [.nameRes (.valueOf fn) 1],
      rfl, ?_, hpre, ?_, ?_, ?_⟩
    · simp [NameResState.logged, hc6, hcalls4, hs6]
    · intro c hc
      rcases List.mem_append.mp hc with h | h
      · rcases List.mem_append.mp h with h | h
        · exact hmid0 c h
        · obtain ⟨n, p, hnp⟩ := hhp c h
          rw [hnp]
          exact ⟨by simp, by simp⟩
      · rw [List.mem_singleton.mp h]
        exact ⟨by simp, by simp⟩
    · intro _
      simp
    · have hpop := (hX.2.2.2
        ({ s6.logged (.nameRes (.valueOf fn) s6.scope) (X.inodeNameRes s6 (.valueOf fn)) with
          scope := s4.scope } : NameResState)).1
      simp only [NameResState.logged] at hpop ⊢
      rw [hpop]
      exact hk04.1
  · unfold fnDclNameRes
    simp only [h1, h3, hs4, if_neg hv]
    refine ⟨_, pre, hg ++ [.nameRes (.vtypeOf fn) s3.scope], rfl, ?_, hpre, hmid0, ?_, ?_⟩
    · simp [NameResState.logged, hcalls4]
    · intro hval
      rw [← hk04.2.2] at hval
      exact absurd hval hv
    · have hpop := (hX.2.2.2 s4).1
      simp only [NameResState.logged]
      rw [hpop]
      exact hk04.1

/-- C32 on the sample generic method with two generic parameters, one
parameter and a body: two names are resolved, then come the push, three hooks,
the signature and the body at scope 1, and the pop. -/
theorem fnDclNameRes_balanced_witness :
    ∃ r pre mid, fnDclNameRes sampleNameResEnv sampleNameRes 748 = some r ∧
      r.calls = sampleNameRes.calls ++ pre ++ [.hookPush] ++ mid ++ [.hookPop] ∧
      (∀ c ∈ pre, ∃ slot sc, c = NameResCall.nameRes slot sc) ∧
      (∀ c ∈ mid, c ≠ NameResCall.hookPush ∧ c ≠ NameResCall.hookPop) ∧
      ((sampleNameRes.nodes 748).value ≠ nullAddr →
        NameResCall.nameRes (.valueOf 748) 1 ∈ mid) ∧
      r.scope = sampleNameRes.scope :=
  fnDclNameRes_balanced sampleNameResEnv sampleNameRes 748
    ⟨fun s _ => NameResState.keeps_refl 748 s, fun _ => ⟨rfl, fun _ => rfl, rfl⟩,
     fun _ _ _ => ⟨rfl, fun _ => rfl, rfl⟩,
     fun s => by
       cases h : s.hooked with
       | nil => simp [sampleNameResEnv, NameResState.keeps, h]
       | cons c r => simp [sampleNameResEnv, NameResState.keeps, h]⟩


/-- The only error `fnImplicitReturn` reports is `ErrorNoRet`. -/
theorem fnImplicitReturn_errors (X : TcEnv) (st s3 : TcState) (rettype blk : Addr)
    (e : ErrorMsg) (he : e.code ≠ .ErrorNoRet)
    (h : fnImplicitReturn X st rettype blk = some s3) :
    e ∈ s3.errors ↔ e ∈ st.errors := by
  have hadd : ∀ s b, (addNilReturn s b).errors = s.errors := fun _ _ => rfl
  have hs1 : (if (st.nodes blk).stmts.length = 0 then addNilReturn st blk else st).errors
      = st.errors := by
    split_ifs
    · rfl
    · rfl
  unfold fnImplicitReturn at h
  simp only at h
  generalize (if (st.nodes blk).stmts.length = 0 then addNilReturn st blk else st) = s1
    at h hs1
  cases hl : (s1.nodes blk).stmts.getLast? with
  | none => simp [hl] at h
  | some laststmt =>
    simp only [hl] at h
    split_ifs at h <;> injection h with h <;> subst h
    · rw [hadd, hs1]
    · rw [hs1]
    · show e ∈ s1.errors ↔ _
      rw [hs1]
    · show e ∈ s1.errors ++ [_] ↔ _
      rw [hs1, List.mem_append, List.mem_singleton]
      constructor
      · rintro (h | h)
        · exact h
        · exact absurd (by rw [h]) he
      · exact Or.inl
    · rw [hs1]

/-- The sample collaborators report no error. -/
theorem sampleTcEnv_keepsError (e : ErrorMsg) : sampleTcEnv.keepsError e := by
  refine ⟨fun _ _ => Iff.rfl, fun _ _ _ => Iff.rfl, ?_⟩
  intro s fs slot
  show e ∈ (match s.read slot with
    | some b => s.setVtype b fs.fnsig
    | none => s).errors ↔ _
  cases s.read slot <;> exact Iff.rfl

/-- C29 amended: when the collaborators neither report nor drop the self
error and it has not been reported before, `fnDclTypeCheck` returns, and on
return the InvType error "self parameter for a method must match, or be a
reference to, its type" has been reported at the function if and only if the
function is not generic, has a body, is not a default method of a trait, has
the method flag, and the type declaration of its first parameter `p`, after
dereference, is not the enclosing type.  The name of `p` is not looked at. -/
theorem fnDclTypeCheck_self_error_iff (X : TcEnv) (st : TcState) (fnnode p : Addr)
    (hparm : ((X.iTypeTypeCheck st (.vtypeOf fnnode)).nodes fnnode).flags &&& X.FlagMethFld ≠ 0 →
      ((X.iTypeTypeCheck st (.vtypeOf fnnode)).nodes
        ((X.iTypeTypeCheck st (.vtypeOf fnnode)).nodes fnnode).vtype).parms.get? 0 = some p)
    (hkeep : X.keepsError (fnDclSelfError fnnode))
    (hnew : fnDclSelfError fnnode ∉ st.errors) :
    ∃ r, fnDclTypeCheck X st fnnode = some r ∧
      (fnDclSelfError fnnode ∈ r.errors ↔
        (st.nodes fnnode).genericinfo = nullAddr ∧
        ((X.iTypeTypeCheck st (.vtypeOf fnnode)).nodes fnnode).value ≠ nullAddr ∧
        ¬ isTraitMethod X (X.iTypeTypeCheck st (.vtypeOf fnnode)) fnnode ∧
        ((X.iTypeTypeCheck st (.vtypeOf fnnode)).nodes fnnode).flags &&& X.FlagMethFld ≠ 0 ∧
        X.iexpGetDerefTypeDcl (X.iTypeTypeCheck st (.vtypeOf fnnode)) p ≠
          (X.iTypeTypeCheck st (.vtypeOf fnnode)).typenode) := by
  obtain ⟨hk1, hk2, hk3⟩ := hkeep
  have hnew1 : fnDclSelfError fnnode ∉ (X.iTypeTypeCheck st (.vtypeOf fnnode)).errors :=
    fun h => hnew ((hk1 _ _).1 h)
  unfold fnDclTypeCheck
  simp only []
  generalize X.iTypeTypeCheck st (.vtypeOf fnnode) = s1 at hparm hnew1 ⊢
  by_cases hg : (st.nodes fnnode).genericinfo ≠ nullAddr
  · rw [if_pos hg]
    exact ⟨st, rfl, fun h => absurd h hnew, fun h => absurd h.1 hg⟩
  rw [if_neg hg]
  have hg2 : (st.nodes fnnode).genericinfo = nullAddr := by
    by_contra hc; exact hg hc
  by_cases hearly : (s1.nodes fnnode).value = nullAddr ∨ isTraitMethod X s1 fnnode
  · rw [if_pos hearly]
    refine ⟨s1, rfl, fun h => absurd h hnew1, fun h => ?_⟩
    rcases hearly with h1 | h1
    · exact absurd h1 h.2.1
    · exact absurd h1 h.2.2.1
  rw [if_neg hearly]
  have hval : (s1.nodes fnnode).value ≠ nullAddr := fun h => hearly (Or.inl h)
  have htrait : ¬ isTraitMethod X s1 fnnode := fun h => hearly (Or.inr h)
  obtain ⟨s2, hs2, hmem2⟩ : ∃ s2, fnDclSelfCheck X s1 fnnode = some s2 ∧
      (fnDclSelfError fnnode ∈ s2.errors ↔
        (s1.nodes fnnode).flags &&& X.FlagMethFld ≠ 0 ∧
          X.iexpGetDerefTypeDcl s1 p ≠ s1.typenode) := by
    unfold fnDclSelfCheck
    by_cases hm : (s1.nodes fnnode).flags &&& X.FlagMethFld ≠ 0
    · rw [if_pos hm, hparm hm]
      simp only
      by_cases hd : X.iexpGetDerefTypeDcl s1 p ≠ s1.typenode
      · rw [if_pos hd]
        refine ⟨_, rfl, fun _ => ⟨hm, hd⟩, fun _ => ?_⟩
        show fnDclSelfError fnnode ∈ s1.errors ++ [fnDclSelfError fnnode]
        exact List.mem_append_right _ (List.mem_singleton.mpr rfl)
      · rw [if_neg hd]
        exact ⟨_, rfl, fun h => absurd h hnew1, fun h => absurd h.2 hd⟩
    · rw [if_neg hm]
      exact ⟨_, rfl, fun h => absurd h hnew1, fun h => absurd h.1 hm⟩
  obtain ⟨s3, hs3⟩ := fnImplicitReturn_returns X s2
    (s2.nodes (s2.nodes fnnode).vtype).rettype (s2.nodes fnnode).value
  have hmem3 : fnDclSelfError fnnode ∈ s3.errors ↔ fnDclSelfError fnnode ∈ s2.errors :=
    fnImplicitReturn_errors X s2 s3 _ _ _ (fun h => ErrorCode.noConfusion h) hs3
  have hbody : fnDclBodyCheck X s1 fnnode =
      some { X.inodeTypeCheck { s3 with fn := fnnode } (.valueOf fnnode) X.noCareType with
        fn := s3.fn } := by
    unfold fnDclBodyCheck
    simp only [hs2, hs3]
  have hmem5 : fnDclSelfError fnnode ∈
      ({ X.inodeTypeCheck { s3 with fn := fnnode } (.valueOf fnnode) X.noCareType with
        fn := s3.fn } : TcState).errors ↔ fnDclSelfError fnnode ∈ s3.errors :=
    hk2 { s3 with fn := fnnode } (.valueOf fnnode) X.noCareType
  simp only [hbody]
  have hcond : ((s1.nodes fnnode).flags &&& X.FlagMethFld ≠ 0 ∧
        X.iexpGetDerefTypeDcl s1 p ≠ s1.typenode) ↔
      ((st.nodes fnnode).genericinfo = nullAddr ∧ (s1.nodes fnnode).value ≠ nullAddr ∧
        ¬ isTraitMethod X s1 fnnode ∧ (s1.nodes fnnode).flags &&& X.FlagMethFld ≠ 0 ∧
        X.iexpGetDerefTypeDcl s1 p ≠ s1.typenode) :=
    ⟨fun h => ⟨hg2, hval, htrait, h.1, h.2⟩, fun h => ⟨h.2.2.2.1, h.2.2.2.2⟩⟩
  split_ifs
  · exact ⟨_, rfl, hmem5.trans (hmem3.trans (hmem2.trans hcond))⟩
  · exact ⟨_, rfl, (hk3 _ _ _).trans (hmem5.trans (hmem3.trans (hmem2.trans hcond)))⟩

/-- C29 amended, on the sample methods of `Point`: `len(self &Point)` (`728`)
gets no error, `scale(x i32)` (`744`) gets the error. -/
theorem fnDclTypeCheck_self_error_iff_witness :
    (∃ r, fnDclTypeCheck sampleTcEnv sampleTc 728 = some r ∧
      (fnDclSelfError 728 ∈ r.errors ↔
        (sampleTc.nodes 728).genericinfo = nullAddr ∧
        ((sampleTcEnv.iTypeTypeCheck sampleTc (.vtypeOf 728)).nodes 728).value ≠ nullAddr ∧
        ¬ isTraitMethod sampleTcEnv (sampleTcEnv.iTypeTypeCheck sampleTc (.vtypeOf 728)) 728 ∧
        ((sampleTcEnv.iTypeTypeCheck sampleTc (.vtypeOf 728)).nodes 728).flags &&&
          sampleTcEnv.FlagMethFld ≠ 0 ∧
        sampleTcEnv.iexpGetDerefTypeDcl (sampleTcEnv.iTypeTypeCheck sampleTc (.vtypeOf 728))
            712 ≠
          (sampleTcEnv.iTypeTypeCheck sampleTc (.vtypeOf 728)).typenode)) ∧
    (∃ r, fnDclTypeCheck sampleTcEnv sampleTc 744 = some r ∧
      (fnDclSelfError 744 ∈ r.errors ↔
        (sampleTc.nodes 744).genericinfo = nullAddr ∧
        ((sampleTcEnv.iTypeTypeCheck sampleTc (.vtypeOf 744)).nodes 744).value ≠ nullAddr ∧
        ¬ isTraitMethod sampleTcEnv (sampleTcEnv.iTypeTypeCheck sampleTc (.vtypeOf 744)) 744 ∧
        ((sampleTcEnv.iTypeTypeCheck sampleTc (.vtypeOf 744)).nodes 744).flags &&&
          sampleTcEnv.FlagMethFld ≠ 0 ∧
        sampleTcEnv.iexpGetDerefTypeDcl (sampleTcEnv.iTypeTypeCheck sampleTc (.vtypeOf 744))
            732 ≠
          (sampleTcEnv.iTypeTypeCheck sampleTc (.vtypeOf 744)).typenode)) ∧
    ((fnDclTypeCheck sampleTcEnv sampleTc 728).map (fun s => s.errors) = some []) ∧
    ((fnDclTypeCheck sampleTcEnv sampleTc 744).map (fun s => s.errors) =
      some [fnDclSelfError 744]) :=
  ⟨fnDclTypeCheck_self_error_iff sampleTcEnv sampleTc 728 712 (fun _ => by decide)
      (sampleTcEnv_keepsError _) (by decide),
   fnDclTypeCheck_self_error_iff sampleTcEnv sampleTc 744 732 (fun _ => by decide)
      (sampleTcEnv_keepsError _) (by decide),
   by decide, by decide⟩


/-- The difference of two list lengths below `2^31`, taken as an `int`. -/
theorem asInt32_sub (p a : Nat) (hp : p < 2 ^ 31) (ha : a < 2 ^ 31) :
    asInt32 (p + 2 ^ 32 - a) = (p : Int) - (a : Int) := by
  have h31 : (2 : Nat) ^ 31 = 2147483648 := by norm_num
  have h32 : (2 : Nat) ^ 32 = 4294967296 := by norm_num
  have h32i : (2 : Int) ^ 32 = 4294967296 := by norm_num
  unfold asInt32
  rw [h31, h32, h32i] at *
  split_ifs <;> omega

/-- The loop over the arguments returns when there are enough parameters and
arguments; the node `c` and the list lengths are as before. -/
theorem fnCallCoerceLoop_returns (X : AstEnv) (node fnsig c : Addr) (hX : X.coerceKeeps c) :
    ∀ (cnt i : Nat) (st : AstState),
      i + cnt ≤ (st.ast fnsig).parms.length → i + cnt ≤ (st.ast node).parms.length →
      ∃ s2, fnCallCoerceLoop X node fnsig cnt i st = some s2 ∧ s2.ast c = st.ast c ∧
        ∀ b, (s2.ast b).parms.length = (st.ast b).parms.length := by
  intro cnt
  induction cnt with
  | zero => intro i st _ _; exact ⟨st, rfl, rfl, fun _ => rfl⟩
  | succ n ih =>
    intro i st h1 h2
    rw [fnCallCoerceLoop]
    cases hp : (st.ast fnsig).parms.get? i with
    | none =>
      have := List.get?_eq_none.mp hp
      omega
    | some parm =>
      simp only []
      obtain ⟨hk1, hk2⟩ := hX st parm (.argOf node i)
      cases ha : (X.typeCoerces st parm (.argOf node i)).2.read (.argOf node i) with
      | none =>
        have hlen := List.get?_eq_none.mp ha
        rw [hk2 node] at hlen
        omega
      | some arg =>
        simp only []
        have hstep : ∀ s : AstState,
            (s = (X.typeCoerces st parm (.argOf node i)).2.errorMsgNode arg .ErrorInvType
                "Expression's type does not match declared parameter" ∨
              s = handleCopy (X.typeCoerces st parm (.argOf node i)).2 arg) →
            s.ast = (X.typeCoerces st parm (.argOf node i)).2.ast := by
          intro s hs
          rcases hs with hs | hs <;> rw [hs] <;> rfl
        obtain ⟨s, hs, hsast⟩ : ∃ s, s = (if (X.typeCoerces st parm (.argOf node i)).1 = 0 then
              (X.typeCoerces st parm (.argOf node i)).2.errorMsgNode arg .ErrorInvType
                "Expression's type does not match declared parameter"
            else handleCopy (X.typeCoerces st parm (.argOf node i)).2 arg) ∧
            s.ast = (X.typeCoerces st parm (.argOf node i)).2.ast := by
          refine ⟨_, rfl, hstep _ ?_⟩
          split_ifs
          · exact Or.inl rfl
          · exact Or.inr rfl
        rw [← hs]
        obtain ⟨s2, hr, hc, hl⟩ := ih (i + 1) s
          (by rw [hsast, hk2 fnsig]; omega) (by rw [hsast, hk2 node]; omega)
        refine ⟨s2, hr, ?_, ?_⟩
        · rw [hc, hsast, hk1]
        · intro b; rw [hl b, hsast, hk2 b]

/-- The loop that adds the default values returns when there are enough
parameters; the call is the only node it changes. -/
theorem fnCallDefaultsLoop_returns (node fnsig : Addr) (hsig : fnsig ≠ node) :
    ∀ (n k : Nat) (st : AstState), k + n ≤ (st.ast fnsig).parms.length →
      ∃ s, fnCallDefaultsLoop node fnsig n k st = some s ∧
        ∀ a, a ≠ node → s.ast a = st.ast a := by
  intro n
  induction n with
  | zero => intro k st _; exact ⟨st, rfl, fun _ _ => rfl⟩
  | succ n ih =>
    intro k st h
    rw [fnCallDefaultsLoop]
    cases hp : (st.ast fnsig).parms.get? k with
    | none =>
      have := List.get?_eq_none.mp hp
      omega
    | some parm =>
      simp only []
      have hframe : ∀ a, a ≠ node →
          ((st.nodesAdd node (st.ast parm).value).ast a) = st.ast a := by
        intro a ha
        simp [AstState.nodesAdd, AstState.setNode, ha]
      obtain ⟨s, hr, hf⟩ := ih (k + 1) (st.nodesAdd node (st.ast parm).value)
        (by rw [hframe fnsig hsig]; omega)
      exact ⟨s, hr, fun a ha => (hf a ha).trans (hframe a ha)⟩

/-- The check of the arguments returns, and leaves a node `c` other than the
call as it is, when `typeCoerces` does, the lists are shorter than `2^31` and
the signature is not the call itself. -/
theorem fnCallArgs_returns (X : AstEnv) (st : AstState) (node c : Addr)
    (hc : c ≠ node) (hX : X.coerceKeeps c)
    (hsig : X.typeGetVtype st (st.ast node).fn ≠ node)
    (hp : (st.ast (X.typeGetVtype st (st.ast node).fn)).parms.length < 2 ^ 31)
    (ha : (st.ast node).parms.length < 2 ^ 31) :
    ∃ fin, fnCallArgs X st node = some fin ∧ fin.ast c = st.ast c := by
  unfold fnCallArgs
  simp only []
  generalize hf : X.typeGetVtype st (st.ast node).fn = fnsig at hsig hp
  by_cases hfs : (st.ast fnsig).asttype = .FnSig
  · rw [if_pos hfs]
    generalize hs1 : st.setNode node _ = s1
    have hset : ∀ a, a ≠ node → s1.ast a = st.ast a := by
      intro a h; rw [← hs1]; simp [AstState.setNode, h]
    have hsetp : (s1.ast node).parms = (st.ast node).parms := by
      rw [← hs1]; simp [AstState.setNode]
    have hpl : (s1.ast fnsig).parms.length = (st.ast fnsig).parms.length := by
      rw [hset fnsig hsig]
    have hal : (s1.ast node).parms.length = (st.ast node).parms.length := by
      rw [hsetp]
    have hsub := asInt32_sub (s1.ast fnsig).parms.length (s1.ast node).parms.length
      (by rw [hpl]; exact hp) (by rw [hal]; exact ha)
    rw [hsub]
    by_cases hneg : ((s1.ast fnsig).parms.length : Int) - ((s1.ast node).parms.length : Int) < 0
    · rw [if_pos hneg]
      exact ⟨_, rfl, hset c hc⟩
    · rw [if_neg hneg]
      have hle : (s1.ast node).parms.length ≤ (s1.ast fnsig).parms.length := by omega
      obtain ⟨s2, hr, hcc, hl⟩ := fnCallCoerceLoop_returns X node fnsig c hX
        (s1.ast node).parms.length 0 s1 (by omega) (by omega)
      simp only [hr]
      by_cases hpos :
          ((s1.ast fnsig).parms.length : Int) - ((s1.ast node).parms.length : Int) > 0
      · rw [if_pos hpos]
        cases hg : (s2.ast fnsig).parms.get? (s1.ast node).parms.length with
        | none =>
          have := List.get?_eq_none.mp hg
          rw [hl fnsig] at this
          omega
        | some parm =>
          simp only []
          by_cases hv : (s2.ast parm).value = nullAddr
          · rw [if_pos hv]
            exact ⟨_, rfl, hcc.trans (hset c hc)⟩
          · rw [if_neg hv]
            obtain ⟨s, hs, hfr⟩ := fnCallDefaultsLoop_returns node fnsig hsig
              (((s1.ast fnsig).parms.length : Int) - ((s1.ast node).parms.length : Int)).toNat
              (s1.ast node).parms.length s2 (by rw [hl fnsig]; omega)
            exact ⟨s, hs, (hfr c hc).trans (hcc.trans (hset c hc))⟩
      · rw [if_neg hpos]
        exact ⟨_, rfl, hcc.trans (hset c hc)⟩
  · rw [if_neg hfs]
    exact ⟨_, rfl, rfl⟩

/-- C34: a call whose callee is a field name `m`, in the type check pass of
`fnCallPass`; `s2` is the state after the arguments and the callee have been
passed over and the first argument has been dereferenced and passed over
again, and the methods are those of its type.  If `meth` is the first method
named `m` in the order of the list, the callee becomes a variable name use
whose `dclnode` is `meth` and whose `vtype` is that of `meth`, nothing else
changes, and `fnCallPass` goes on to the check of the arguments in that state;
it returns with the callee so rewritten when `typeCoerces` leaves the callee
alone and keeps the list lengths, the callee and the signature are not the
call itself and the lists are shorter than `2^31`.  If no method is named `m`,
`fnCallPass` returns `s2` with a NoMeth error reported at the call: no node
has changed and no argument has been checked. -/
theorem fnCallPass_method (X : AstEnv) (st0 s1 st s2 : AstState) (node firstarg : Addr)
    (hloop : fnCallArgsPassLoop X node (st0.ast node).parms.length 0 st0 = some s1)
    (hst : X.astPass s1 (s1.ast node).fn = st)
    (hpass : st.pass = .TypeCheck)
    (hfield : (st.ast (st.ast node).fn).asttype = .FieldNameUseNode)
    (hfirst : (X.derefAuto st (.argOf node 0)).read (.argOf node 0) = some firstarg)
    (hs2 : s2 = X.astPass (X.derefAuto st (.argOf node 0)) firstarg) :
    (∀ pre meth post,
      (s2.ast (X.typeGetVtype s2 firstarg)).methods = pre ++ meth :: post →
      (∀ x ∈ pre, (s2.ast x).namesym ≠ (st.ast (st.ast node).fn).namesym) →
      (s2.ast meth).namesym = (st.ast (st.ast node).fn).namesym →
      ∃ r, (r.ast (st.ast node).fn).asttype = .VarNameUseNode ∧
        (r.ast (st.ast node).fn).dclnode = meth ∧
        (r.ast (st.ast node).fn).vtype = (s2.ast meth).vtype ∧
        r.errors = s2.errors ∧
        (∀ a, a ≠ (st.ast node).fn → r.ast a = s2.ast a) ∧
        fnCallPass X st0 node = fnCallArgs X r node ∧
        ((st.ast node).fn ≠ node → X.coerceKeeps (st.ast node).fn →
          X.typeGetVtype r (r.ast node).fn ≠ node →
          (r.ast (X.typeGetVtype r (r.ast node).fn)).parms.length < 2 ^ 31 →
          (r.ast node).parms.length < 2 ^ 31 →
          ∃ fin, fnCallPass X st0 node = some fin ∧
            (fin.ast (st.ast node).fn).asttype = .VarNameUseNode ∧
            (fin.ast (st.ast node).fn).dclnode = meth ∧
            (fin.ast (st.ast node).fn).vtype = (s2.ast meth).vtype)) ∧
    ((∀ x ∈ (s2.ast (X.typeGetVtype s2 firstarg)).methods,
        (s2.ast x).namesym ≠ (st.ast (st.ast node).fn).namesym) →
      fnCallPass X st0 node =
        some (s2.errorMsgNode node .ErrorNoMeth
          "The method `%s` is not defined by the object's type.") ∧
      (s2.errorMsgNode node .ErrorNoMeth
          "The method `%s` is not defined by the object's type.").ast = s2.ast) := by
  obtain ⟨hfound, hnone⟩ := fnCallResolve_method X st s2 node firstarg hfield hfirst hs2
  refine ⟨?_, ?_⟩
  · intro pre meth post hl hpre hm
    obtain ⟨r, hres, h1, h2, h3, h4, h5⟩ := hfound pre meth post hl hpre hm
    have hgo : fnCallPass X st0 node = fnCallArgs X r node := by
      unfold fnCallPass
      simp only [hloop, hst, hpass, if_true, hres]
    refine ⟨r, h1, h2, h3, h4, h5, hgo, ?_⟩
    intro hc hX hsig hp ha
    obtain ⟨fin, hfin, hkeep⟩ := fnCallArgs_returns X r node (st.ast node).fn hc hX hsig hp ha
    exact ⟨fin, hgo.trans hfin, by rw [hkeep]; exact h1, by rw [hkeep]; exact h2,
      by rw [hkeep]; exact h3⟩
  · intro hall
    exact ⟨(hnone hall).2 st0 s1 hloop hst hpass, rfl⟩

/-- The sample `typeCoerces` changes nothing. -/
theorem sampleAstEnv_coerceKeeps (a : Addr) : sampleAstEnv.coerceKeeps a :=
  fun _ _ _ => ⟨rfl, fun _ => rfl⟩

/-- C34 on the sample calls: `p.len()` (`1130`) becomes a call of the first
of the two methods named `len`, and `p.nope()` (`1170`) is reported. -/
theorem fnCallPass_method_witness :
    (∃ fin, fnCallPass sampleAstEnv (sampleAst .TypeCheck) 1130 = some fin ∧
      (fin.ast 1134).asttype = .VarNameUseNode ∧ (fin.ast 1134).dclnode = 1108 ∧
      (fin.ast 1134).vtype = 1120) ∧
    fnCallPass sampleAstEnv (sampleAst .TypeCheck) 1170 =
      some ((sampleAst .TypeCheck).errorMsgNode 1170 .ErrorNoMeth
        "The method `%s` is not defined by the object's type.") := by
  refine ⟨?_, ?_⟩
  · obtain ⟨r, _, _, hv, _, hfr, _, hfin⟩ :=
      (fnCallPass_method sampleAstEnv (sampleAst .TypeCheck) (sampleAst .TypeCheck)
        (sampleAst .TypeCheck) (sampleAst .TypeCheck) 1130 1138 rfl rfl rfl (by decide)
        (by decide) rfl).1 [1104] 1108 [1112] (by decide) (by decide) (by decide)
    have hnode : r.ast 1130 = sampleAstNodes 1130 := hfr 1130 (by decide)
    have hsig : r.ast 1120 = sampleAstNodes 1120 := hfr 1120 (by decide)
    have hfn : (r.ast 1130).fn = 1134 := by rw [hnode]; rfl
    have hvt : sampleAstEnv.typeGetVtype r (r.ast 1130).fn = 1120 := by
      show (r.ast (r.ast 1130).fn).vtype = 1120
      rw [hfn]
      exact hv
    exact hfin (by decide) (sampleAstEnv_coerceKeeps _) (by rw [hvt]; decide)
      (by rw [hvt, hsig]; decide) (by rw [hnode]; decide)
  · exact ((fnCallPass_method sampleAstEnv (sampleAst .TypeCheck) (sampleAst .TypeCheck)
      (sampleAst .TypeCheck) (sampleAst .TypeCheck) 1170 1138 rfl rfl rfl (by decide)
      (by decide) rfl).2 (by decide)).1


/-- C4 amended: in `refMatches(to, from, K)`, when the region step gives a
match and the permissions match, `to.perm` does not have both the read and the
write flag, and the referent match (covariant with the read flag only or
neither flag, contravariant with the write flag only) is `ConvSubtype`, the
result is `ConvSubtype` if `K` is `Monomorph` and `NoMatch` for every other
constraint. -/
theorem refMatches_conv_referent (E : Env) (fuel : Nat) (toN fromN : Addr)
    (K : SubtypeConstraint) (r : TypeCompare)
    (hregion : regionMatches E fuel (E.heap fromN).region (E.heap toN).region K = some r)
    (hr : r ≠ .NoMatch)
    (hperm : E.permMatches (E.heap toN).perm (E.heap fromN).perm ≠ .NoMatch)
    (hlabels : E.flagCasesDistinct)
    (hconv :
      ((E.permGetFlags (E.heap toN).perm &&& (E.MayWrite ||| E.MayRead) = 0 ∨
          E.permGetFlags (E.heap toN).perm &&& (E.MayWrite ||| E.MayRead) = E.MayRead) ∧
        iTypeMatches E fuel (E.heap toN).vtexp (E.heap fromN).vtexp .Regref
          = some .ConvSubtype) ∨
      (E.permGetFlags (E.heap toN).perm &&& (E.MayWrite ||| E.MayRead) = E.MayWrite ∧
        iTypeMatches E fuel (E.heap fromN).vtexp (E.heap toN).vtexp .Regref
          = some .ConvSubtype)) :
    (K = .Monomorph → refMatches E (fuel + 1) toN fromN K = some .ConvSubtype) ∧
    (K ≠ .Monomorph → refMatches E (fuel + 1) toN fromN K = some .NoMatch) := by
  obtain ⟨hR, hW, hRW, hB0, hBR, hBW⟩ := hlabels
  have hmain : refMatches E (fuel + 1) toN fromN K =
      some (if K = .Monomorph then .ConvSubtype else .NoMatch) := by
    rw [refMatches, hregion]
    rcases hconv with ⟨hsel, hm⟩ | ⟨hsel, hm⟩
    · cases r <;> first | exact absurd rfl hr | skip
      all_goals
        cases hpm : E.permMatches (E.heap toN).perm (E.heap fromN).perm <;>
          first | exact absurd hpm hperm | simp [hsel, hm, refMatchResult]
    · cases r <;> first | exact absurd rfl hr | skip
      all_goals
        cases hpm : E.permMatches (E.heap toN).perm (E.heap fromN).perm <;>
          first | exact absurd hpm hperm
                | simp [hsel, hW, Ne.symm hRW, hm, refMatchResult]
  constructor
  · intro hK; rw [hmain, if_pos hK]
  · intro hK; rw [hmain, if_neg hK]

/-- C4 amended, on the sample references `&borrow imm *i32` (128) and
`&borrow imm &borrow imm i32` (136), whose referents match by conversion:
`ConvSubtype` under `Monomorph`, `NoMatch` under the default constraint. -/
theorem refMatches_conv_referent_witness :
    refMatches sampleEnv (3 + 1) 128 136 .Monomorph = some .ConvSubtype ∧
    refMatches sampleEnv (3 + 1) 128 136 .Default = some .NoMatch :=
  ⟨(refMatches_conv_referent sampleEnv 3 128 136 .Monomorph .EqMatch (by decide) (by decide)
      (by decide) (by unfold Env.flagCasesDistinct; decide)
      (Or.inl ⟨Or.inr (by decide), by decide⟩)).1 rfl,
   (refMatches_conv_referent sampleEnv 3 128 136 .Default .EqMatch (by decide) (by decide)
      (by decide) (by unfold Env.flagCasesDistinct; decide)
      (Or.inl ⟨Or.inr (by decide), by decide⟩)).2 (by decide)⟩

end Cone
